import Mathlib

/-!
# Reflection of RenderScript export types (`slang_rs_reflection.cpp`)

A shallow embedding of the reflection generator: the name and constructor tables, the
field-packer walk `genPackVarOfType`, the element-builder walk
`genAddElementToElementBuilder` with its padding helper `genAddPaddingToElementBuiler`, the
initialization of exported variables `genInitExportVariable`, their reflection
`genExportVariable`, the reflection of exported functions `genExportFunction`, the class
emitters `genScriptClass` and `genTypeClass` and the driver `reflect`; and of the pass
`StripUnknownAttributes` of `strip_unknown_attributes.cpp`.

Conventions of the embedding.

* The generator writes Java text through `C.indent() << ...`.  Each emitted line is kept
  as a structured statement (`PackStmt`, `BuildStmt`); `PackStmt.render` and
  `BuildStmt.render` give the text of the line.
* `size_t` and `int` are 32 bits wide (an ILP32 host).  Sizes and offsets are natural
  numbers; every subtraction done in `size_t` is `subSizeT`, taken modulo `2 ^ 32`, and the
  `int Pos` of the two walks is kept as its 32-bit pattern, which is what the comparison
  `FieldOffset > Pos` and the subtractions see after the usual conversion to `size_t`.
* A failed `assert` (and the null pointer it would stream afterwards) is a fatal error,
  `Except.error`.  A tag that is null and is streamed with no check before it is kept in
  the statement as `none`; such a line has no full text, and it is the last line of the
  builder walk that reaches the output stream, which is bad from there on.
* The lines of the script class are `JavaStmt`; what is printed on the standard output
  (the warnings) is kept apart from them.
* The file system and the helpers of `RSSlangReflectUtils` are a parameter, `Host`; the
  driver returns what it wrote, `ReflectResult`, and a class emitter either the class or the
  error message of the failed open.
-/

namespace slang

/-! ## Type descriptors -/

/-- Ordinal of `RSExportPrimitiveType::DataType`.  The enumerators and their ordinals are the
ones written next to the rows of the lookup tables of the source. -/
abbrev DataType := Int

/-- Ordinal of `RSExportPrimitiveType::DataKind`, numbered as the rows of
`ElementDataKindNameMap`. -/
abbrev DataKind := Int

def DataTypeFloat32 : DataType := 2
def DataTypeFloat64 : DataType := 3
def DataTypeSigned8 : DataType := 4
def DataTypeSigned16 : DataType := 5
def DataTypeSigned32 : DataType := 6
def DataTypeSigned64 : DataType := 7
def DataTypeUnsigned8 : DataType := 8
def DataTypeUnsigned16 : DataType := 9
def DataTypeUnsigned32 : DataType := 10
def DataTypeUnsigned64 : DataType := 11
def DataTypeUnsigned565 : DataType := 12
def DataTypeUnsigned5551 : DataType := 13
def DataTypeUnsigned4444 : DataType := 14
def DataTypeBool : DataType := 15
def DataTypeRSElement : DataType := 16
def DataTypeRSType : DataType := 17
def DataTypeRSAllocation : DataType := 18
def DataTypeRSSampler : DataType := 19
def DataTypeRSScript : DataType := 20
def DataTypeRSMesh : DataType := 21
def DataTypeRSProgramFragment : DataType := 22
def DataTypeRSProgramVertex : DataType := 23
def DataTypeRSProgramRaster : DataType := 24
def DataTypeRSProgramStore : DataType := 25
def DataTypeRSFont : DataType := 26
def DataTypeRSMatrix2x2 : DataType := 27
def DataTypeRSMatrix3x3 : DataType := 28
def DataTypeRSMatrix4x4 : DataType := 29

def DataKindUser : DataKind := 0
def DataKindColor : DataKind := 1
def DataKindPosition : DataKind := 2
def DataKindTexture : DataKind := 3
def DataKindNormal : DataKind := 4
def DataKindIndex : DataKind := 5
def DataKindPointSize : DataKind := 6
def DataKindPixelL : DataKind := 7
def DataKindPixelA : DataKind := 8
def DataKindPixelLA : DataKind := 9
def DataKindPixelRGB : DataKind := 10
def DataKindPixelRGBA : DataKind := 11

/-- The class tag `RSExportType::getClass()` returns. -/
inductive ExportClass where
  | ExportClassPrimitive
  | ExportClassPointer
  | ExportClassVector
  | ExportClassConstantArray
  | ExportClassRecord
  deriving DecidableEq, Repr

/-- A record field, `RSExportRecordType::Field`: name, type and byte offset in the parent. -/
structure Field (α : Type) where
  name : String
  type : α
  offsetInParent : Nat

/-- An export type.  Vector and constant-array types are primitive types with more data
(the source reads their data type and kind through a cast to `RSExportPrimitiveType`).
`storeSize` and `allocSize` are what `RSExportType::GetTypeStoreSize` and
`RSExportType::GetTypeAllocSize` return for the type. -/
inductive RSExportType where
  | Primitive (name : String) (type : DataType) (kind : DataKind)
      (storeSize allocSize : Nat)
  | Vector (name : String) (type : DataType) (kind : DataKind) (numElement : Nat)
      (storeSize allocSize : Nat)
  | ConstantArray (name : String) (type : DataType) (kind : DataKind)
      (storeSize allocSize : Nat)
  | Pointer (name : String) (pointeeType : RSExportType) (storeSize allocSize : Nat)
  | Record (name : String) (fields : List (Field RSExportType)) (artificial : Bool)
      (storeSize allocSize : Nat)

namespace RSExportType

def getClass : RSExportType → ExportClass
  | Primitive .. => .ExportClassPrimitive
  | Vector .. => .ExportClassVector
  | ConstantArray .. => .ExportClassConstantArray
  | Pointer .. => .ExportClassPointer
  | Record .. => .ExportClassRecord

def getName : RSExportType → String
  | Primitive name .. => name
  | Vector name .. => name
  | ConstantArray name .. => name
  | Pointer name .. => name
  | Record name .. => name

end RSExportType

/-- Modelled from the spec: `RSExportType::GetTypeStoreSize` is declared outside the sources;
the spec has every descriptor expose its store size (the size without trailing padding),
which the embedding keeps as a field of the descriptor. -/
def GetTypeStoreSize : RSExportType → Nat
  | .Primitive _ _ _ s _ => s
  | .Vector _ _ _ _ s _ => s
  | .ConstantArray _ _ _ s _ => s
  | .Pointer _ _ s _ => s
  | .Record _ _ _ s _ => s

/-- Modelled from the spec: `RSExportType::GetTypeAllocSize` is declared outside the sources;
the spec has every descriptor expose its alloc size (the size including alignment padding),
which the embedding keeps as a field of the descriptor. -/
def GetTypeAllocSize : RSExportType → Nat
  | .Primitive _ _ _ _ a => a
  | .Vector _ _ _ _ _ a => a
  | .ConstantArray _ _ _ _ a => a
  | .Pointer _ _ _ a => a
  | .Record _ _ _ _ a => a

/-! ## Machine arithmetic -/

/-- Number of values of `size_t` (32 bits). -/
def SIZE_MOD : Nat := 4294967296

/-- Subtraction of two `size_t` values: `a - b` modulo `2 ^ 32`. -/
def subSizeT (a b : Nat) : Nat := (a % SIZE_MOD + (SIZE_MOD - b % SIZE_MOD)) % SIZE_MOD

/-- Conversion of a sum of `size_t` values to the 32-bit pattern stored in `int Pos`. -/
def toPos (n : Nat) : Nat := n % SIZE_MOD

/-! ## Name and constructor tables -/

def PrimitiveTypePackerAPINameMap : List String :=
  [ "", "",
    "addF32", "addF64", "addI8", "addI16", "addI32", "addI64",
    "addU8", "addU16", "addU32", "addU64",
    "addU16", "addU16", "addU16",
    "addBoolean",
    "addObj", "addObj", "addObj", "addObj", "addObj", "addObj", "addObj",
    "addObj", "addObj", "addObj", "addObj", "addObj", "addObj", "addObj" ]

/-- The packer write method of a data type (`GetPackerAPIName`, which reads only
`EPT->getType()`); outside the table the source asserts, here `none`. -/
def GetPackerAPIName (type : DataType) : Option String :=
  if 0 ≤ type ∧ type < PrimitiveTypePackerAPINameMap.length then
    PrimitiveTypePackerAPINameMap.get? type.toNat
  else
    none

def PrimitiveBuiltinElementConstructMap : List (Option String) :=
  [ none, none,
    some "F32", none, some "I8", none, some "I32", none,
    some "U8", none, some "U32", none,
    none, none, none,
    some "BOOLEAN",
    some "ELEMENT", some "TYPE", some "ALLOCATION", some "SAMPLER", some "SCRIPT",
    some "MESH", some "PROGRAM_FRAGMENT", some "PROGRAM_VERTEX", some "PROGRAM_RASTER",
    some "PROGRAM_STORE", some "FONT", some "MATRIX_2X2", some "MATRIX_3X3",
    some "MATRIX_4X4" ]

/-- The primitive and constant-array branch of `GetBuiltinElementConstruct`. -/
def GetBuiltinElementConstructPrimitive (type : DataType) (kind : DataKind) : Option String :=
  if kind = DataKindUser then
    if 0 ≤ type ∧ type < PrimitiveBuiltinElementConstructMap.length then
      (PrimitiveBuiltinElementConstructMap.get? type.toNat).join
    else none
  else if kind = DataKindPixelA then
    if type = DataTypeUnsigned8 then some "A_8" else none
  else if kind = DataKindPixelRGB then
    if type = DataTypeUnsigned565 then some "RGB_565"
    else if type = DataTypeUnsigned8 then some "RGB_888"
    else none
  else if kind = DataKindPixelRGBA then
    if type = DataTypeUnsigned5551 then some "RGB_5551"
    else if type = DataTypeUnsigned4444 then some "RGB_4444"
    else if type = DataTypeUnsigned8 then some "RGB_8888"
    else none
  else if kind = DataKindIndex then
    if type = DataTypeUnsigned16 then some "INDEX_16" else none
  else none

/-- The vector branch of `GetBuiltinElementConstruct`. -/
def GetBuiltinElementConstructVector (type : DataType) (kind : DataKind) (numElement : Nat) :
    Option String :=
  if kind = DataKindPosition then
    if type = DataTypeFloat32 then
      if numElement = 2 then some "ATTRIB_POSITION_2"
      else if numElement = 3 then some "ATTRIB_POSITION_3"
      else none
    else none
  else if kind = DataKindTexture then
    if type = DataTypeFloat32 then
      if numElement = 2 then some "ATTRIB_TEXTURE_2" else none
    else none
  else if kind = DataKindNormal then
    if type = DataTypeFloat32 then
      if numElement = 3 then some "ATTRIB_NORMAL_3" else none
    else none
  else if kind = DataKindColor then
    if type = DataTypeFloat32 then
      if numElement = 4 then some "ATTRIB_COLOR_F32_4" else none
    else if type = DataTypeUnsigned8 then
      if numElement = 4 then some "ATTRIB_COLOR_U8_4" else none
    else none
  else none

/-- The one-call builder constructor of a type, `none` for the null pointer the source
returns when there is none. -/
def GetBuiltinElementConstruct : RSExportType → Option String
  | .Primitive _ type kind _ _ => GetBuiltinElementConstructPrimitive type kind
  | .ConstantArray _ type kind _ _ => GetBuiltinElementConstructPrimitive type kind
  | .Vector _ type kind numElement _ _ => GetBuiltinElementConstructVector type kind numElement
  | .Pointer .. => some "USER_I32"
  | .Record .. => none

def ElementDataKindNameMap : List String :=
  [ "Element.DataKind.USER", "Element.DataKind.COLOR", "Element.DataKind.POSITION",
    "Element.DataKind.TEXTURE", "Element.DataKind.NORMAL", "Element.DataKind.INDEX",
    "Element.DataKind.POINT_SIZE", "Element.DataKind.PIXEL_L", "Element.DataKind.PIXEL_A",
    "Element.DataKind.PIXEL_LA", "Element.DataKind.PIXEL_RGB", "Element.DataKind.PIXEL_RGBA" ]

/-- The kind tag of the generic builder path; `none` is the null pointer returned outside
the table. -/
def GetElementDataKindName (DK : DataKind) : Option String :=
  if 0 ≤ DK ∧ DK < ElementDataKindNameMap.length then
    ElementDataKindNameMap.get? DK.toNat
  else none

def ElementDataTypeNameMap : List (Option String) :=
  [ none, none,
    some "Element.DataType.FLOAT_32", none,
    some "Element.DataType.SIGNED_8", some "Element.DataType.SIGNED_16",
    some "Element.DataType.SIGNED_32", none,
    some "Element.DataType.UNSIGNED_8", some "Element.DataType.UNSIGNED_16",
    some "Element.DataType.UNSIGNED_32", none,
    some "Element.DataType.UNSIGNED_5_6_5", some "Element.DataType.UNSIGNED_5_5_5_1",
    some "Element.DataType.UNSIGNED_4_4_4_4",
    some "Element.DataType.BOOLEAN",
    some "Element.DataType.RS_ELEMENT", some "Element.DataType.RS_TYPE",
    some "Element.DataType.RS_ALLOCATION", some "Element.DataType.RS_SAMPLER",
    some "Element.DataType.RS_SCRIPT", some "Element.DataType.RS_MESH",
    some "Element.DataType.RS_PROGRAM_FRAGMENT", some "Element.DataType.RS_PROGRAM_VERTEX",
    some "Element.DataType.RS_PROGRAM_RASTER", some "Element.DataType.RS_PROGRAM_STORE",
    some "Element.DataType.RS_FONT", some "Element.DataType.RS_MATRIX_2X2",
    some "Element.DataType.RS_MATRIX_3X3", some "Element.DataType.RS_MATRIX_4X4" ]

/-- The data-type tag of the generic builder path; `none` is the null pointer of a null
table row or of a value outside the table. -/
def GetElementDataTypeName (DT : DataType) : Option String :=
  if 0 ≤ DT ∧ DT < ElementDataTypeNameMap.length then
    (ElementDataTypeNameMap.get? DT.toNat).join
  else none

/-! ## Emitted statements -/

/-- A line the packer walk writes.  `bytes` is not part of the text: it records the store
size of the type whose value the line writes, so that the bytes a walk consumes can be
counted. -/
inductive PackStmt where
  /-- The line `<FieldPackerName>.<api>(<arg>);`. -/
  | write (api : String) (arg : String) (bytes : Nat)
  /-- The line `<FieldPackerName>.skip(<count>);`. -/
  | skip (count : Nat)
  deriving DecidableEq, Repr

namespace PackStmt

def render (FieldPackerName : String) : PackStmt → String
  | write api arg _ => FieldPackerName ++ "." ++ api ++ "(" ++ arg ++ ");"
  | skip count => FieldPackerName ++ ".skip(" ++ toString count ++ ");"

/-- Bytes a packer line consumes: the store size of the type written, or the skip count. -/
def consumed : PackStmt → Nat
  | write _ _ bytes => bytes
  | skip count => count

/-- The padding a packer line inserts: the count of a skip, `none` for a write. -/
def padding? : PackStmt → Option Nat
  | write .. => none
  | skip count => some count

end PackStmt

/-- Total bytes a sequence of packer lines consumes. -/
def packedBytes (stmts : List PackStmt) : Nat := (stmts.map PackStmt.consumed).sum

/-- The element expression `x` of the macro `EB_ADD(x)`, after `Element.`; the tags are
`none` where the source streams a null pointer. -/
inductive ElementExpr where
  /-- The text `<ElementConstruct>(<rs>)`. -/
  | construct (ElementConstruct : String)
  /-- The text `createAttrib(<rs>, <DataTypeName>, <DataKindName>, <Size>)`. -/
  | createAttrib (DataTypeName DataKindName : Option String) (Size : Nat)
  /-- The text `createAttrib(<rs>)` of the index kind. -/
  | createAttribIndex
  /-- The text `createVector(<rs>, <DataTypeName>, <DataKindName>)` of the pixel kinds. -/
  | createVectorKind (DataTypeName DataKindName : Option String)
  /-- The text `createUser(<rs>, <DataTypeName>)`. -/
  | createUser (DataTypeName : Option String)
  /-- The text `createVector(<rs>, <DataTypeName>, <Size>)`. -/
  | createVector (DataTypeName : Option String) (Size : Nat)
  deriving DecidableEq, Repr

/-- The three padding fields of `genAddPaddingToElementBuiler`. -/
inductive PadChunk where
  | U32
  | U16
  | U8
  deriving DecidableEq, Repr

def PadChunk.bytes : PadChunk → Nat
  | U32 => 4
  | U16 => 2
  | U8 => 1

def PadChunk.construct : PadChunk → String
  | U32 => "U32"
  | U16 => "U16"
  | U8 => "U8"

/-- A line the builder walk writes, `<eb>.add(Element.<x>, "<VarName>");`. -/
inductive BuildStmt where
  /-- A field declared by `genAddElementToElementBuilder`; `bytes` is not part of the text,
  it records the store size of the type declared. -/
  | add (element : ElementExpr) (VarName : String) (bytes : Nat)
  /-- A synthetic padding field declared by `genAddPaddingToElementBuiler`. -/
  | addPadding (chunk : PadChunk) (VarName : String)
  deriving DecidableEq, Repr

namespace ElementExpr

/-- Text of an element expression; `none` when a null tag would be streamed. -/
def render (rs : String) : ElementExpr → Option String
  | construct c => some (c ++ "(" ++ rs ++ ")")
  | createAttrib (some dt) (some dk) size =>
      some ("createAttrib(" ++ rs ++ ", " ++ dt ++ ", " ++ dk ++ ", " ++ toString size ++ ")")
  | createAttrib _ _ _ => none
  | createAttribIndex => some ("createAttrib(" ++ rs ++ ")")
  | createVectorKind (some dt) (some dk) =>
      some ("createVector(" ++ rs ++ ", " ++ dt ++ ", " ++ dk ++ ")")
  | createVectorKind _ _ => none
  | createUser (some dt) => some ("createUser(" ++ rs ++ ", " ++ dt ++ ")")
  | createUser none => none
  | createVector (some dt) size =>
      some ("createVector(" ++ rs ++ ", " ++ dt ++ ", " ++ toString size ++ ")")
  | createVector none _ => none

end ElementExpr

namespace BuildStmt

def render (ElementBuilderName rs : String) : BuildStmt → Option String
  | add element VarName _ =>
      (element.render rs).map fun x =>
        ElementBuilderName ++ ".add(Element." ++ x ++ ", \"" ++ VarName ++ "\");"
  | addPadding chunk VarName =>
      some (ElementBuilderName ++ ".add(Element." ++ chunk.construct ++ "(" ++ rs ++ "), \""
        ++ VarName ++ "\");")

/-- Bytes a builder line declares: the store size of a real field, or 4, 2 or 1 for a
padding field. -/
def declared : BuildStmt → Nat
  | add _ _ bytes => bytes
  | addPadding chunk _ => chunk.bytes

/-- The padding a builder line inserts: the size of a padding field, `none` for a real
field. -/
def padding? : BuildStmt → Option Nat
  | add .. => none
  | addPadding chunk _ => some chunk.bytes

/-- The chunk of a padding line, `none` for a real field. -/
def padChunk? : BuildStmt → Option PadChunk
  | add .. => none
  | addPadding chunk _ => some chunk

end BuildStmt

/-- Total bytes a sequence of builder lines declares. -/
def declaredBytes (stmts : List BuildStmt) : Nat := (stmts.map BuildStmt.declared).sum

/-- An element expression that streams a null tag (the cases where `ElementExpr.render` has
no text): `operator<<` on a null `char*` sets the output stream bad, the line is cut at the
tag. -/
def ElementExpr.cut : ElementExpr → Bool
  | .construct _ => false
  | .createAttrib DataTypeName DataKindName _ => DataTypeName.isNone || DataKindName.isNone
  | .createAttribIndex => false
  | .createVectorKind DataTypeName DataKindName => DataTypeName.isNone || DataKindName.isNone
  | .createUser DataTypeName => DataTypeName.isNone
  | .createVector DataTypeName _ => DataTypeName.isNone

/-- A builder line that streams a null tag; a padding line streams none. -/
def BuildStmt.cut : BuildStmt → Bool
  | .add element _ _ => element.cut
  | .addPadding _ _ => false

/-- What an output stream takes of a sequence of builder lines: everything up to and
including the first line that streams a null tag.  That line leaves the stream bad, and a
bad stream drops all that is written to it afterwards. -/
def streamWritten : List BuildStmt → List BuildStmt
  | [] => []
  | stmt :: rest => if stmt.cut then [stmt] else stmt :: streamWritten rest

/-! ## The packer walk -/

/-- The fatal outcomes of the generator. -/
abbrev Fatal := String

/-- The variable name streamed into a leaf statement.  The generator passes a null `VarName`
only together with a record type, whose fields are named without it; a null name reaching a
leaf has no defined output and is rejected. -/
def streamVarName : Option String → Except Fatal String
  | some v => .ok v
  | none => .error "null VarName"

/-- The write method streamed into a leaf statement (`GetPackerAPIName`, fatal outside the
table). -/
def streamPackerAPIName (type : DataType) : Except Fatal String :=
  match GetPackerAPIName type with
  | some api => .ok api
  | none => .error "GetPackerAPIName : Unknown primitive data type"

/-- Name of a field of the packer walk: prefixed by `VarName` unless that is null. -/
def packFieldName (VarName : Option String) (F : Field RSExportType) : String :=
  match VarName with
  | some v => v ++ ("." ++ F.name)
  | none => F.name

mutual

/-- The packer walk, `RSReflection::genPackVarOfType`: the lines it writes for a value
`VarName` of type `ET`. -/
def genPackVarOfType : RSExportType → Option String → Except Fatal (List PackStmt)
  | .Primitive _ type _ storeSize _, VarName => do
      let api ← streamPackerAPIName type
      let v ← streamVarName VarName
      pure [.write api v storeSize]
  | .Vector _ type _ _ storeSize _, VarName => do
      let api ← streamPackerAPIName type
      let v ← streamVarName VarName
      pure [.write api v storeSize]
  | .ConstantArray name type _ storeSize _, VarName =>
      if name = "addObj" then do
        let v ← streamVarName VarName
        pure [.write "addObj" v storeSize]
      else do
        let api ← streamPackerAPIName type
        let v ← streamVarName VarName
        pure [.write api v storeSize]
  | .Pointer _ PointeeType storeSize _, VarName =>
      if PointeeType.getClass ≠ .ExportClassRecord then do
        let v ← streamVarName VarName
        pure [.write "addI32" (v ++ ".getPtr()") storeSize]
      else do
        let v ← streamVarName VarName
        pure [.write "addI32" (v ++ ".getAllocation().getPtr()") storeSize]
  | .Record _ fields _ _ allocSize, VarName => do
      let (stmts, Pos) ← genPackFields fields VarName 0
      let Padding := subSizeT allocSize Pos
      pure (stmts ++ if Padding > 0 then [.skip Padding] else [])

/-- The field loop of the record case of `genPackVarOfType`, from position `Pos` on: the
lines written and the final `Pos`. -/
def genPackFields : List (Field RSExportType) → Option String → Nat →
    Except Fatal (List PackStmt × Nat)
  | [], _, Pos => pure ([], Pos)
  | F :: rest, VarName, Pos => do
      let FieldOffset := F.offsetInParent
      let FieldStoreSize := GetTypeStoreSize F.type
      let FieldAllocSize := GetTypeAllocSize F.type
      let FieldName := packFieldName VarName F
      let before : List PackStmt :=
        if FieldOffset > Pos then [.skip (subSizeT FieldOffset Pos)] else []
      let body ← genPackVarOfType F.type (some FieldName)
      let after : List PackStmt :=
        if FieldAllocSize > FieldStoreSize then
          [.skip (subSizeT FieldAllocSize FieldStoreSize)]
        else []
      let (tail, Pos1) ← genPackFields rest VarName (toPos (FieldOffset + FieldAllocSize))
      pure (before ++ body ++ after ++ tail, Pos1)

end

/-! ## The builder walk -/

/-- The counters of `RSReflection::Context`: the counter that numbers the synthetic padding
fields of the builder walk, and the slot counters of the script class. -/
structure Context where
  mPaddingFieldIndex : Nat
  /-- The slot the next exported variable gets. -/
  mNextExportVarSlot : Nat
  /-- The slot the next exported function gets. -/
  mNextExportFuncSlot : Nat
  deriving DecidableEq, Repr

/-- Modelled from the spec: `Context::createPaddingField` is declared outside the sources;
the spec has the context keep a counter used to name the synthetic padding fields
uniquely.  The name is a fixed prefix followed by the counter, which is then advanced. -/
def Context.createPaddingField (C : Context) : String × Context :=
  ("#padding_" ++ toString C.mPaddingFieldIndex,
    { C with mPaddingFieldIndex := C.mPaddingFieldIndex + 1 })

/-- The padding loop `RSReflection::genAddPaddingToElementBuiler`: one synthetic field per
iteration, of 4, 2 or 1 bytes. -/
def genAddPaddingToElementBuiler (C : Context) (PaddingSize : Nat) :
    List BuildStmt × Context :=
  if h : PaddingSize > 0 then
    let (VarName, C1) := C.createPaddingField
    if PaddingSize ≥ 4 then
      let (rest, C2) := genAddPaddingToElementBuiler C1 (PaddingSize - 4)
      (.addPadding .U32 VarName :: rest, C2)
    else if PaddingSize ≥ 2 then
      let (rest, C2) := genAddPaddingToElementBuiler C1 (PaddingSize - 2)
      (.addPadding .U16 VarName :: rest, C2)
    else if h1 : PaddingSize ≥ 1 then
      let (rest, C2) := genAddPaddingToElementBuiler C1 (PaddingSize - 1)
      (.addPadding .U8 VarName :: rest, C2)
    else
      absurd h (by omega)
  else
    ([], C)
termination_by PaddingSize
decreasing_by all_goals omega

/-- The element expression of the generic path of `genAddElementToElementBuilder` for a
primitive, vector or constant-array type (`isVector` tells the class is Vector, `Size` is
the vector arity or 1). -/
def genericElementExpr (isVector : Bool) (type : DataType) (kind : DataKind) (Size : Nat) :
    ElementExpr :=
  let DataKindName := GetElementDataKindName kind
  let DataTypeName := GetElementDataTypeName type
  if kind = DataKindColor ∨ kind = DataKindPosition ∨ kind = DataKindTexture ∨
      kind = DataKindNormal ∨ kind = DataKindPointSize then
    .createAttrib DataTypeName DataKindName Size
  else if kind = DataKindIndex then
    .createAttribIndex
  else if kind = DataKindPixelL ∨ kind = DataKindPixelA ∨ kind = DataKindPixelLA ∨
      kind = DataKindPixelRGB ∨ kind = DataKindPixelRGBA then
    .createVectorKind DataTypeName DataKindName
  else if ¬ isVector then
    .createUser DataTypeName
  else
    .createVector DataTypeName Size

/-- Name of a field of the builder walk: prefixed by `VarName` unless that is empty. -/
def buildFieldName (VarName : String) (F : Field RSExportType) : String :=
  if VarName ≠ "" then VarName ++ "." ++ F.name else F.name

mutual

/-- The builder walk, `RSReflection::genAddElementToElementBuilder`: the lines that reach
the output for a field `VarName` of type `ET`, and the context afterwards.  The macro
`EB_ADD` streams the tags of the generic path with no check: a line with a null tag is cut
there and is the last line of the walk to reach the output (`streamWritten`), while the walk
itself goes on, so the context and `Pos` advance as if every line were written. -/
def genAddElementToElementBuilder (C : Context) :
    RSExportType → String → Except Fatal (List BuildStmt × Context)
  | ET@(.Primitive _ type kind storeSize _), VarName =>
      match GetBuiltinElementConstruct ET with
      | some ElementConstruct => pure ([.add (.construct ElementConstruct) VarName storeSize], C)
      | none => pure ([.add (genericElementExpr false type kind 1) VarName storeSize], C)
  | ET@(.Vector _ type kind numElement storeSize _), VarName =>
      match GetBuiltinElementConstruct ET with
      | some ElementConstruct => pure ([.add (.construct ElementConstruct) VarName storeSize], C)
      | none => pure ([.add (genericElementExpr true type kind numElement) VarName storeSize], C)
  | ET@(.ConstantArray _ type kind storeSize _), VarName =>
      match GetBuiltinElementConstruct ET with
      | some ElementConstruct => pure ([.add (.construct ElementConstruct) VarName storeSize], C)
      | none => pure ([.add (genericElementExpr false type kind 1) VarName storeSize], C)
  | ET@(.Pointer _ _ storeSize _), VarName =>
      match GetBuiltinElementConstruct ET with
      | some ElementConstruct => pure ([.add (.construct ElementConstruct) VarName storeSize], C)
      | none => .error "??"
  | ET@(.Record _ fields _ storeSize _), VarName =>
      match GetBuiltinElementConstruct ET with
      | some ElementConstruct => pure ([.add (.construct ElementConstruct) VarName storeSize], C)
      | none => do
          let (stmts, C1, Pos) ← genAddFields C fields VarName 0
          let siz1 := storeSize
          let (trailing, C2) := genAddPaddingToElementBuiler C1 (subSizeT siz1 Pos)
          pure (streamWritten (stmts ++ trailing), C2)

/-- The field loop of the record case of `genAddElementToElementBuilder`, from position
`Pos` on: the lines that reach the output, the context afterwards and the final `Pos`. -/
def genAddFields (C : Context) :
    List (Field RSExportType) → String → Nat →
      Except Fatal (List BuildStmt × Context × Nat)
  | [], _, Pos => pure ([], C, Pos)
  | F :: rest, VarName, Pos => do
      let FieldOffset := F.offsetInParent
      let FieldStoreSize := GetTypeStoreSize F.type
      let FieldAllocSize := GetTypeAllocSize F.type
      let FieldName := buildFieldName VarName F
      let (before, C1) := genAddPaddingToElementBuiler C (subSizeT FieldOffset Pos)
      let (body, C2) ← genAddElementToElementBuilder C1 F.type FieldName
      let (after, C3) :=
        genAddPaddingToElementBuiler C2 (subSizeT FieldAllocSize FieldStoreSize)
      let (tail, C4, Pos1) ← genAddFields C3 rest VarName (toPos (FieldOffset + FieldAllocSize))
      pure (streamWritten (before ++ body ++ after ++ tail), C4, Pos1)

end

/-! ## Layout conditions and measures used by the statements -/

/-- Bound selector: a record's fields end within its alloc size. -/
def withinAlloc (_storeSize allocSize : Nat) : Nat := allocSize

/-- Bound selector: a record's fields end within its store size. -/
def withinStore (storeSize _allocSize : Nat) : Nat := storeSize

mutual

/-- The fields of every record the walks visit in `ET` (the type itself and, recursively,
the types of its fields; pointees are not visited) are in increasing, non-overlapping
offset order and end within the bound of their record, a `size_t` value: see
`FieldsOrdered`. -/
def OffsetsOrdered (bound : Nat → Nat → Nat) : RSExportType → Bool
  | .Record _ fields _ storeSize allocSize =>
      decide (bound storeSize allocSize < SIZE_MOD) &&
        FieldsOrdered bound fields 0 (bound storeSize allocSize)
  | _ => true

/-- From position `Pos` on, each field starts at or after the end (offset plus alloc size)
of the field before it, its store size fits in its alloc size, its own type is
`OffsetsOrdered`, and the last field ends at or before `limit`. -/
def FieldsOrdered (bound : Nat → Nat → Nat) : List (Field RSExportType) → Nat → Nat → Bool
  | [], Pos, limit => decide (Pos ≤ limit)
  | F :: rest, Pos, limit =>
      decide (Pos ≤ F.offsetInParent) &&
        decide (GetTypeStoreSize F.type ≤ GetTypeAllocSize F.type) &&
        OffsetsOrdered bound F.type &&
        FieldsOrdered bound rest (F.offsetInParent + GetTypeAllocSize F.type) limit

end

mutual

/-- Every leaf the packer walk writes in `ET` has a write method: its data type is a row of
`PrimitiveTypePackerAPINameMap` (a constant array named `addObj` needs none). -/
def PackerAPIMapped : RSExportType → Bool
  | .Primitive _ type _ _ _ => (GetPackerAPIName type).isSome
  | .Vector _ type _ _ _ _ => (GetPackerAPIName type).isSome
  | .ConstantArray name type _ _ _ => decide (name = "addObj") || (GetPackerAPIName type).isSome
  | .Pointer .. => true
  | .Record _ fields _ _ _ => FieldsPackerAPIMapped fields

def FieldsPackerAPIMapped : List (Field RSExportType) → Bool
  | [] => true
  | F :: rest => PackerAPIMapped F.type && FieldsPackerAPIMapped rest

end

/-- A leaf of data type `type` and data kind `kind` whose generic builder constructor
streams no null tag: the kind is the index kind, which streams no tag, or both tags are rows
of their tables. -/
def ElementTagsMapped (type : DataType) (kind : DataKind) : Bool :=
  decide (kind = DataKindIndex) ||
    ((GetElementDataTypeName type).isSome && (GetElementDataKindName kind).isSome)

mutual

/-- Every leaf the builder walk declares in `ET` is written whole: it has a one-call
constructor, or the tags of its generic constructor are not null. -/
def ElementTagged : RSExportType → Bool
  | ET@(.Primitive _ type kind _ _) =>
      (GetBuiltinElementConstruct ET).isSome || ElementTagsMapped type kind
  | ET@(.Vector _ type kind _ _ _) =>
      (GetBuiltinElementConstruct ET).isSome || ElementTagsMapped type kind
  | ET@(.ConstantArray _ type kind _ _) =>
      (GetBuiltinElementConstruct ET).isSome || ElementTagsMapped type kind
  | .Pointer .. => true
  | .Record _ fields _ _ _ => FieldsElementTagged fields

def FieldsElementTagged : List (Field RSExportType) → Bool
  | [] => true
  | F :: rest => ElementTagged F.type && FieldsElementTagged rest

end

mutual

/-- Every record-typed field inside `ET`, at any depth, has a type without trailing padding:
its store size equals its alloc size. -/
def NestedRecordsTight : RSExportType → Bool
  | .Record _ fields _ _ _ => FieldRecordsTight fields
  | _ => true

def FieldRecordsTight : List (Field RSExportType) → Bool
  | [] => true
  | F :: rest =>
      (decide (F.type.getClass ≠ .ExportClassRecord) ||
          decide (GetTypeStoreSize F.type = GetTypeAllocSize F.type)) &&
        NestedRecordsTight F.type && FieldRecordsTight rest

end

/-- Padding profile of a sequence of lines, each given as `some n` (a padding of `n` bytes)
or `none` (a real field): the padding bytes before the first real field, between each two
consecutive real fields, and after the last one; `acc` is the padding met so far. -/
def paddingGaps (acc : Nat) : List (Option Nat) → List Nat
  | [] => [acc]
  | some n :: rest => paddingGaps (acc + n) rest
  | none :: rest => acc :: paddingGaps 0 rest

/-- Padding profile of the packer lines: the bytes skipped around each write. -/
def packPaddingProfile (stmts : List PackStmt) : List Nat :=
  paddingGaps 0 (stmts.map PackStmt.padding?)

/-- Padding profile of the builder lines: the bytes of padding fields around each real
field. -/
def buildPaddingProfile (stmts : List BuildStmt) : List Nat :=
  paddingGaps 0 (stmts.map BuildStmt.padding?)

/-- The padding profile `l1` equals the profile `l2` except in its last entry, the padding
after the last real field, which is larger by `d` bytes. -/
def LastGapLarger (d : Nat) (l1 l2 : List Nat) : Prop :=
  ∃ gs g, l2 = gs ++ [g] ∧ l1 = gs ++ [g + d]

/-- Two line sequences `p` and `b` insert the same padding around the same number of real
fields: followed by any continuations whose profiles agree up to the last gap, whatever the
padding met before, the profiles of the whole still agree up to the last gap. -/
def PaddingAligned (p b : List (Option Nat)) : Prop :=
  ∀ (d acc : Nat) (rp rb : List (Option Nat)),
    (∀ a, LastGapLarger d (paddingGaps a rp) (paddingGaps a rb)) →
    LastGapLarger d (paddingGaps acc (p ++ rp)) (paddingGaps acc (b ++ rb))

/-- The chunk sequence of the greedy 4/2/1 rule as the specification words it: the 4-byte
chunks, then a 2-byte chunk if two or three bytes remain, then a 1-byte chunk if the size
is odd. -/
def greedyChunks (S : Nat) : List PadChunk :=
  List.replicate (S / 4) PadChunk.U32 ++ (if S % 4 ≥ 2 then [PadChunk.U16] else []) ++
    (if S % 2 = 1 then [PadChunk.U8] else [])

/-- A list of field sizes allowed for padding: each is 4, 2 or 1 bytes. -/
def PaddingSizes (l : List Nat) : Prop := ∀ x ∈ l, x = 4 ∨ x = 2 ∨ x = 1

/-! ## Example types -/

def float32Field (name : String) (offset : Nat) : Field RSExportType :=
  ⟨name, .Primitive "float" DataTypeFloat32 DataKindUser 4 4, offset⟩

def uint8Field (name : String) (offset : Nat) : Field RSExportType :=
  ⟨name, .Primitive "uchar" DataTypeUnsigned8 DataKindUser 1 1, offset⟩

def int32Field (name : String) (offset : Nat) : Field RSExportType :=
  ⟨name, .Primitive "int" DataTypeSigned32 DataKindUser 4 4, offset⟩

/-- The record `{float32 x at 0; uint8 flag at 4; float32 y at 8}` of alloc size 12; its
last field ends at 12, so its store size is 12 as well. -/
def exampleRecord : RSExportType :=
  .Record "Example" [float32Field "x" 0, uint8Field "flag" 4, float32Field "y" 8] false 12 12

/-- The record `{int32 a at 0; uint8 b at 4}` with trailing alignment padding: store size 5,
alloc size 8. -/
def paddedRecord : RSExportType :=
  .Record "Padded" [int32Field "a" 0, uint8Field "b" 4] false 5 8

/-- A record of alloc size 8 whose only field, at offset 0, is a `paddedRecord`. -/
def outerRecord : RSExportType :=
  .Record "Outer" [⟨"s", paddedRecord, 0⟩] false 8 8

/-- A record of alloc size 4 whose only field has the data type 30, one past the last row of
the tables. -/
def unmappedRecord : RSExportType :=
  .Record "Unmapped" [⟨"u", .Primitive "unknown" 30 DataKindUser 4 4, 0⟩] false 4 4

/-- The record `{double d at 0; int32 a at 8}` of store size 12 and alloc size 16. -/
def doubleRecord : RSExportType :=
  .Record "Double" [⟨"d", .Primitive "double" DataTypeFloat64 DataKindUser 8 8, 0⟩,
    int32Field "a" 8] false 12 16

/-- A record of store size 13 and alloc size 16 holding an `exampleRecord` at offset 0 and a
byte at offset 12. -/
def nestedRecord : RSExportType :=
  .Record "Nested" [⟨"p", exampleRecord, 0⟩, uint8Field "c" 12] false 13 16

/-! ## Host type names -/

def RS_TYPE_CLASS_NAME_PREFIX : String := "ScriptField_"
def RS_TYPE_ITEM_CLASS_NAME : String := "Item"
def RS_EXPORT_VAR_INDEX_PREFIX : String := "mExportVarIdx_"
def RS_EXPORT_VAR_PREFIX : String := "mExportVar_"

def PrimitiveTypeJavaNameMap : List String :=
  [ "", "",
    "float", "double", "byte", "short", "int", "long",
    "short", "int", "long", "long",
    "int", "int", "int",
    "boolean",
    "Element", "Type", "Allocation", "Sampler", "Script", "Mesh", "ProgramFragment",
    "ProgramVertex", "ProgramRaster", "ProgramStore", "Font", "Matrix2f", "Matrix3f",
    "Matrix4f" ]

/-- The host type name of a data type (`GetPrimitiveTypeName`, which reads only
`EPT->getType()`); outside the table the source asserts, here `none`. -/
def GetPrimitiveTypeName (type : DataType) : Option String :=
  if 0 ≤ type ∧ type < PrimitiveTypeJavaNameMap.length then
    PrimitiveTypeJavaNameMap.get? type.toNat
  else
    none

def VectorTypeJavaNameMap : List (List String) :=
  [ ["Byte2", "Byte3", "Byte4"],
    ["Short2", "Short3", "Short4"],
    ["Int2", "Int3", "Int4"],
    ["Long2", "Long3", "Long4"],
    ["Float2", "Float3", "Float4"] ]

/-- The row of `VectorTypeJavaNameMap` the switch of `GetVectorTypeName` selects; `none` for
the default case, which asserts. -/
def vectorBaseElement (type : DataType) : Option (List String) :=
  if type = DataTypeSigned8 then VectorTypeJavaNameMap.get? 0
  else if type = DataTypeSigned16 ∨ type = DataTypeUnsigned8 then VectorTypeJavaNameMap.get? 1
  else if type = DataTypeSigned32 ∨ type = DataTypeUnsigned16 then VectorTypeJavaNameMap.get? 2
  else if type = DataTypeUnsigned32 then VectorTypeJavaNameMap.get? 3
  else if type = DataTypeFloat32 then VectorTypeJavaNameMap.get? 4
  else if type = DataTypeBool then VectorTypeJavaNameMap.get? 0
  else none

/-- The host type name of a vector type (`GetVectorTypeName`, which reads `EVT->getType()`
and `EVT->getNumElement()`); `none` where the source asserts. -/
def GetVectorTypeName (type : DataType) (numElement : Nat) : Option String :=
  match vectorBaseElement type with
  | none => none
  | some BaseElement =>
      if numElement > 1 ∧ numElement ≤ 4 then BaseElement.get? (numElement - 2) else none

def VectorAccessorMap : List String := ["x", "y", "z", "w"]

/-- The accessor of a vector component (`GetVectorAccessor`); `none` where the source
asserts. -/
def GetVectorAccessor (Index : Nat) : Option String :=
  if Index < VectorAccessorMap.length then VectorAccessorMap.get? Index else none

/-- The host type name of any type (`GetTypeName`). -/
def GetTypeName : RSExportType → Except Fatal String
  | .Primitive _ type _ _ _ =>
      match GetPrimitiveTypeName type with
      | some n => .ok n
      | none => .error "GetPrimitiveTypeName : Unknown primitive data type"
  | .ConstantArray _ type _ _ _ =>
      match GetPrimitiveTypeName type with
      | some n => .ok n
      | none => .error "GetPrimitiveTypeName : Unknown primitive data type"
  | .Pointer _ PointeeType _ _ =>
      if PointeeType.getClass ≠ .ExportClassRecord then .ok "Allocation"
      else .ok (RS_TYPE_CLASS_NAME_PREFIX ++ PointeeType.getName)
  | .Vector _ type _ numElement _ _ =>
      match GetVectorTypeName type numElement with
      | some n => .ok n
      | none => .error "GetVectorTypeName : unsupported vector type"
  | .Record name _ _ _ _ =>
      .ok (RS_TYPE_CLASS_NAME_PREFIX ++ name ++ "." ++ RS_TYPE_ITEM_CLASS_NAME)

/-! ## Initializers and the lines of the script class -/

/-- A floating value of an initializer (`llvm::APFloat`): the precision of its semantics
(24 for IEEE single) and its bits; its printed text is not modelled. -/
structure APFloat where
  precision : Nat
  bits : Nat
  deriving DecidableEq, Repr

/-- An initializer value (`clang::APValue`); `Int` holds `getInt().getSExtValue()`. -/
inductive APValue where
  | Uninit
  | Int (value : Int)
  | Float (value : APFloat)
  | ComplexInt
  | ComplexFloat
  | LValue
  | Vector (elts : List APValue)

namespace APValue

def isUninit : APValue → Bool
  | Uninit => true
  | _ => false

def isInt : APValue → Bool
  | Int _ => true
  | _ => false

end APValue

/-- The right-hand side of an emitted assignment. -/
inductive JavaExpr where
  /-- An expression written verbatim. -/
  | verbatim (text : String)
  /-- The text `true` or `false`. -/
  | boolLit (b : Bool)
  /-- The printed integer. -/
  | intLit (v : Int)
  /-- The print of `apf.convertToFloat()`. -/
  | floatLit (bits : Nat)
  /-- The print of `apf.convertToDouble()`. -/
  | doubleLit (bits : Nat)
  /-- The text `new <TypeName>()`. -/
  | newObject (TypeName : String)
  deriving DecidableEq, Repr

inductive AccessModifier where
  | AM_Public
  | AM_Protected
  | AM_Private
  deriving DecidableEq, Repr

/-- A line, or the opening or closing of a class, method or block, written into a reflected
class. -/
inductive JavaStmt where
  /-- The line `private final static int <IndexName> = <slot>;`. -/
  | privateSlot (IndexName : String) (slot : Nat)
  /-- The line `private <TypeName> <FieldName>;`. -/
  | privateField (TypeName FieldName : String)
  /-- The call `C.startFunction(AM, IsStatic, ReturnType, FunctionName, Args)`. -/
  | startFunction (AM : AccessModifier) (IsStatic : Bool) (ReturnType : Option String)
      (FunctionName : String) (Args : List (String × String))
  /-- The call `C.endFunction()`. -/
  | endFunction
  /-- The line `<lhs> = <rhs>;`. -/
  | assign (lhs : String) (rhs : JavaExpr)
  /-- The line `return <expr>;`. -/
  | ret (expr : String)
  /-- The line `FieldPacker <FieldPackerName> = new FieldPacker(<AllocSize>);`. -/
  | newFieldPacker (FieldPackerName : String) (AllocSize : Nat)
  /-- A line of the packer walk for the packer `FieldPackerName`. -/
  | pack (FieldPackerName : String) (stmt : PackStmt)
  /-- Any other line, verbatim. -/
  | line (text : String)
  /-- The call `C.startClass(AM, IsStatic, ClassName, SuperClassName, ErrorMsg)`, which
  writes the head of the file and opens the block of the class. -/
  | startClass (AM : AccessModifier) (IsStatic : Bool) (ClassName : String)
      (SuperClassName : Option String)
  /-- The call `C.endClass()`. -/
  | endClass
  /-- Text written at the indentation with no end of line, before a `startBlock`. -/
  | blockHead (text : String)
  /-- The call `C.startBlock()`. -/
  | startBlock
  /-- The call `C.endBlock()`. -/
  | endBlock
  /-- The empty line `C.out() << endl`. -/
  | newline
  /-- The line `<TypeName> <name>;` of a member of the item class. -/
  | member (TypeName name : String)
  /-- A line of the builder walk for the builder `ElementBuilderName`. -/
  | build (ElementBuilderName RenderScriptVar : String) (stmt : BuildStmt)
  | fileHeader (LicenseNote InputRSFile PackageName : String)
  deriving DecidableEq, Repr

/-- The value printed for a scalar initializer: the integer, or the single or double value
picked by the precision of the semantics; `none` for an initializer that is not a scalar. -/
def scalarInitExpr : APValue → Option JavaExpr
  | .Int v => some (.intLit v)
  | .Float apf => some (if apf.precision = 24 then .floatLit apf.bits else .doubleLit apf.bits)
  | _ => none

/-- The line of `RSReflection::genInitBoolExportVariable`. -/
def genInitBoolExportVariable (VarName : String) (Val : APValue) :
    Except Fatal (List JavaStmt) :=
  match Val with
  | .Uninit => .error "Not a valid initializer"
  | .Int v =>
      .ok [.assign (RS_EXPORT_VAR_PREFIX ++ VarName)
        (.boolLit (if v = 0 then false else true))]
  | _ => .error "Bool type has wrong initial APValue"

/-- The line of `RSReflection::genInitPrimitiveExportVariable`. -/
def genInitPrimitiveExportVariable (VarName : String) (Val : APValue) :
    Except Fatal (List JavaStmt) :=
  match Val with
  | .Uninit => .error "Not a valid initializer"
  | .Int v => .ok [.assign (RS_EXPORT_VAR_PREFIX ++ VarName) (.intLit v)]
  | .Float apf =>
      .ok [.assign (RS_EXPORT_VAR_PREFIX ++ VarName)
        (if apf.precision = 24 then .floatLit apf.bits else .doubleLit apf.bits)]
  | .ComplexInt | .ComplexFloat | .LValue | .Vector _ =>
      .error "Primitive type cannot have such kind of initializer"

/-- The component loops of the vector case of `genInitExportVariable`: one call of
`genInitPrimitiveExportVariable` for the components `i`, `i + 1`, ... with the values
`vals`, each named `<VarName>.<accessor>`. -/
def genInitVectorComponents (VarName : String) : Nat → List APValue →
    Except Fatal (List JavaStmt)
  | _, [] => .ok []
  | i, ElementVal :: rest =>
      match GetVectorAccessor i with
      | none => .error "Out-of-bound index to access vector member"
      | some accessor => do
          let Name := VarName ++ "." ++ accessor
          let first ← genInitPrimitiveExportVariable Name ElementVal
          let others ← genInitVectorComponents VarName (i + 1) rest
          pure (first ++ others)

/-- The initialization of an exported variable, `RSReflection::genInitExportVariable`: the
lines written into the constructor and the warnings printed on the standard output. -/
def genInitExportVariable (ET : RSExportType) (VarName : String) (Val : APValue) :
    Except Fatal (List JavaStmt × List String) :=
  if Val.isUninit then .error "Not a valid initializer"
  else
    match ET with
    | .Primitive _ type _ _ _ | .ConstantArray _ type _ _ _ =>
        if type = DataTypeBool then
          (genInitBoolExportVariable VarName Val).map fun stmts => (stmts, [])
        else
          (genInitPrimitiveExportVariable VarName Val).map fun stmts => (stmts, [])
    | .Pointer .. =>
        match Val with
        | .Int v =>
            if v ≠ 0 then
              .ok ([],
                ["Initializer which is non-NULL to pointer type variable will be ignored"])
            else .ok ([], [])
        | _ =>
            .ok ([], ["Initializer which is non-NULL to pointer type variable will be ignored"])
    | .Vector _ type _ numElement _ _ =>
        match Val with
        | .Int _ | .Float _ =>
            (genInitVectorComponents VarName 0 (List.replicate numElement Val)).map
              fun stmts => (stmts, [])
        | .Vector elts =>
            match GetVectorTypeName type numElement with
            | none => .error "GetVectorTypeName : unsupported vector type"
            | some TypeName => do
                let NumElements := min numElement elts.length
                let comps ← genInitVectorComponents VarName 0 (elts.take NumElements)
                pure (.assign (RS_EXPORT_VAR_PREFIX ++ VarName) (.newObject TypeName) :: comps,
                  [])
        | _ => .ok ([], [])
    | .Record .. => .error "Unsupported initializer for record type variable currently"

/-! ## Exported variables -/

/-- An exported variable, `RSExportVar`. -/
structure RSExportVar where
  name : String
  type : RSExportType
  isConst : Bool
  init : APValue

/-- Modelled from the spec: `Context::getNextExportVarSlot` is declared outside the sources;
the spec has the context keep a monotonically increasing slot counter for the exported
variables.  The current value is returned and the counter advanced. -/
def Context.getNextExportVarSlot (C : Context) : Nat × Context :=
  (C.mNextExportVarSlot, { C with mNextExportVarSlot := C.mNextExportVarSlot + 1 })

/-- Modelled from the spec: `RSExportPrimitiveType::isRSObjectType` is declared outside the
sources; the spec lists the opaque runtime-object types as element, type, allocation,
sampler, script, mesh, the program types, font and the three matrix types. -/
def isRSObjectType (type : DataType) : Bool :=
  decide (DataTypeRSElement ≤ type ∧ type ≤ DataTypeRSMatrix4x4)

/-- The getter, `RSReflection::genGetExportVariable`. -/
def genGetExportVariable (TypeName VarName : String) : List JavaStmt :=
  [ .startFunction .AM_Public false (some TypeName) ("get_" ++ VarName) [],
    .ret (RS_EXPORT_VAR_PREFIX ++ VarName),
    .endFunction ]

/-- The packer declaration, `RSReflection::genCreateFieldPacker`: the line written, and
whether one was. -/
def genCreateFieldPacker (ET : RSExportType) (FieldPackerName : String) :
    List JavaStmt × Bool :=
  let AllocSize := GetTypeAllocSize ET
  if AllocSize > 0 then ([.newFieldPacker FieldPackerName AllocSize], true) else ([], false)

/-- The declaration of the packer followed, when one was declared, by the packer walk:
`if(genCreateFieldPacker(C, ET, fp)) genPackVarOfType(C, ET, VarName, fp);`. -/
def genCreateAndPack (ET : RSExportType) (VarName : Option String) (FieldPackerName : String) :
    Except Fatal (List JavaStmt) :=
  match genCreateFieldPacker ET FieldPackerName with
  | (decl, true) => do
      let stmts ← genPackVarOfType ET VarName
      pure (decl ++ stmts.map (JavaStmt.pack FieldPackerName))
  | (decl, false) => pure decl

/-- The field, setter and getter of a primitive variable,
`RSReflection::genPrimitiveTypeExportVariable`. -/
def genPrimitiveTypeExportVariable (EV : RSExportVar) : Except Fatal (List JavaStmt) :=
  match EV.type with
  | .Primitive _ type _ _ _ | .ConstantArray _ type _ _ _ =>
      match GetPrimitiveTypeName type with
      | none => .error "GetPrimitiveTypeName : Unknown primitive data type"
      | some TypeName =>
          let field : List JavaStmt :=
            [.privateField TypeName (RS_EXPORT_VAR_PREFIX ++ EV.name)]
          let setter : List JavaStmt :=
            if ¬ EV.isConst then
              [ .startFunction .AM_Public false (some "void") ("set_" ++ EV.name)
                  [(TypeName, "v")],
                .assign (RS_EXPORT_VAR_PREFIX ++ EV.name) (.verbatim "v"),
                (if isRSObjectType type then
                  .line ("setVar(" ++ RS_EXPORT_VAR_INDEX_PREFIX ++ EV.name ++
                    ", (v == null) ? 0 : v.getID());")
                else
                  .line ("setVar(" ++ RS_EXPORT_VAR_INDEX_PREFIX ++ EV.name ++ ", v);")),
                .endFunction ]
            else []
          .ok (field ++ setter ++ genGetExportVariable TypeName EV.name)
  | _ => .error "Variable should be type of primitive here"

/-- The field, binder and getter of a pointer variable,
`RSReflection::genPointerTypeExportVariable`. -/
def genPointerTypeExportVariable (EV : RSExportVar) : Except Fatal (List JavaStmt) :=
  match EV.type with
  | .Pointer _ PointeeType _ _ => do
      let TypeName ← GetTypeName EV.type
      pure ([ .privateField TypeName (RS_EXPORT_VAR_PREFIX ++ EV.name),
          .startFunction .AM_Public false (some "void") ("bind_" ++ EV.name)
            [(TypeName, "v")],
          .assign (RS_EXPORT_VAR_PREFIX ++ EV.name) (.verbatim "v"),
          .line ("if(v == null) bindAllocation(null, " ++ RS_EXPORT_VAR_INDEX_PREFIX ++
            EV.name ++ ");"),
          (if PointeeType.getClass = .ExportClassRecord then
            .line ("else bindAllocation(v.getAllocation(), " ++ RS_EXPORT_VAR_INDEX_PREFIX ++
              EV.name ++ ");")
          else
            .line ("else bindAllocation(v, " ++ RS_EXPORT_VAR_INDEX_PREFIX ++ EV.name ++
              ");")),
          .endFunction ] ++ genGetExportVariable TypeName EV.name)
  | _ => .error "Variable should be type of pointer here"

/-- The setter body shared by the vector and the record variables: the store into the
field, the packer and its walk, and the `setVar` call. -/
def genPackedSetter (ET : RSExportType) (TypeName VarName : String) :
    Except Fatal (List JavaStmt) := do
  let FieldPackerName := "fp"
  let packed ← genCreateAndPack ET (some "v") FieldPackerName
  pure ([ .startFunction .AM_Public false (some "void") ("set_" ++ VarName)
        [(TypeName, "v")],
      .assign (RS_EXPORT_VAR_PREFIX ++ VarName) (.verbatim "v") ] ++ packed ++
    [ .line ("setVar(" ++ RS_EXPORT_VAR_INDEX_PREFIX ++ VarName ++ ", " ++ FieldPackerName ++
        ");"),
      .endFunction ])

/-- The field, setter and getter of a vector variable,
`RSReflection::genVectorTypeExportVariable`. -/
def genVectorTypeExportVariable (EV : RSExportVar) : Except Fatal (List JavaStmt) :=
  match EV.type with
  | .Vector _ type _ numElement _ _ =>
      match GetVectorTypeName type numElement with
      | none => .error "GetVectorTypeName : unsupported vector type"
      | some TypeName => do
          let field : List JavaStmt :=
            [.privateField TypeName (RS_EXPORT_VAR_PREFIX ++ EV.name)]
          let setter ← if ¬ EV.isConst then genPackedSetter EV.type TypeName EV.name
            else pure []
          pure (field ++ setter ++ genGetExportVariable TypeName EV.name)
  | _ => .error "Variable should be type of vector here"

/-- The field, setter and getter of a record variable,
`RSReflection::genRecordTypeExportVariable`. -/
def genRecordTypeExportVariable (EV : RSExportVar) : Except Fatal (List JavaStmt) :=
  match EV.type with
  | .Record name _ _ _ _ => do
      let TypeName := RS_TYPE_CLASS_NAME_PREFIX ++ name ++ "." ++ RS_TYPE_ITEM_CLASS_NAME
      let field : List JavaStmt := [.privateField TypeName (RS_EXPORT_VAR_PREFIX ++ EV.name)]
      let setter ← if ¬ EV.isConst then genPackedSetter EV.type TypeName EV.name
        else pure []
      pure (field ++ setter ++ genGetExportVariable TypeName EV.name)
  | _ => .error "Variable should be type of struct here"

/-- The reflection of one exported variable, `RSReflection::genExportVariable`: the slot
constant, then the field, setter and getter of its type class. -/
def genExportVariable (C : Context) (EV : RSExportVar) :
    Except Fatal (List JavaStmt × Context) := do
  let (slot, C1) := C.getNextExportVarSlot
  let head : JavaStmt := .privateSlot (RS_EXPORT_VAR_INDEX_PREFIX ++ EV.name) slot
  let rest ←
    match EV.type.getClass with
    | .ExportClassPrimitive | .ExportClassConstantArray => genPrimitiveTypeExportVariable EV
    | .ExportClassPointer => genPointerTypeExportVariable EV
    | .ExportClassVector => genVectorTypeExportVariable EV
    | .ExportClassRecord => genRecordTypeExportVariable EV
  pure (head :: rest, C1)

/-- A line opens the setter of the variable `name`: the method `set_<name>` or
`bind_<name>`. -/
def JavaStmt.opensSetter (name : String) : JavaStmt → Bool
  | .startFunction _ _ _ FunctionName _ =>
      decide (FunctionName = "set_" ++ name) || decide (FunctionName = "bind_" ++ name)
  | _ => false

/-- A line opens the getter of the variable `name`: the method `get_<name>`. -/
def JavaStmt.opensGetter (name : String) : JavaStmt → Bool
  | .startFunction _ _ _ FunctionName _ => decide (FunctionName = "get_" ++ name)
  | _ => false

/-- A line declares a private field (the slot constants are not fields of this kind). -/
def JavaStmt.isPrivateField : JavaStmt → Bool
  | .privateField .. => true
  | _ => false

/-! ## Example variables -/

def floatType : RSExportType := .Primitive "float" DataTypeFloat32 DataKindUser 4 4

def float4Type : RSExportType := .Vector "float4" DataTypeFloat32 DataKindUser 4 16 16

def intPointerType : RSExportType :=
  .Pointer "int*" (.Primitive "int" DataTypeSigned32 DataKindUser 4 4) 4 4

/-- A line belongs to the body of a method: it neither opens a method nor declares a
private field or a slot constant. -/
def JavaStmt.isBody : JavaStmt → Bool
  | .startFunction .. => false
  | .privateField .. => false
  | .privateSlot .. => false
  | _ => true

/-- The setter part `setter` of the lines of the variable `EV`, whose host type is
`TypeName`: empty for a constant variable that is not a pointer; otherwise one method taking
the value `v`, named `bind_<name>` for a pointer and `set_<name>` for any other variable
that is not constant, whose other lines are body lines. -/
def SetterOf (EV : RSExportVar) (TypeName : String) (setter : List JavaStmt) : Prop :=
  (setter = [] ∧ EV.isConst = true ∧ EV.type.getClass ≠ .ExportClassPointer) ∨
    ∃ FunctionName body,
      setter =
        .startFunction .AM_Public false (some "void") FunctionName [(TypeName, "v")] ::
          body ∧
      (∀ s ∈ body, s.isBody = true) ∧
      ((FunctionName = "set_" ++ EV.name ∧ EV.isConst = false ∧
          EV.type.getClass ≠ .ExportClassPointer) ∨
        (FunctionName = "bind_" ++ EV.name ∧ EV.type.getClass = .ExportClassPointer))

/-! ## Exported functions -/

def RS_EXPORT_FUNC_INDEX_PREFIX : String := "mExportFuncIdx_"

/-- A parameter of an exported function, `RSExportFunc::Parameter`. -/
structure Parameter where
  type : RSExportType
  name : String

/-- An exported function, `RSExportFunc`; `ParamPacketType` is the record type
`getParamPacketType()` returns, into which the parameters are packed. -/
structure RSExportFunc where
  name : String
  params : List Parameter
  ParamPacketType : RSExportType

/-- Modelled from the spec: `RSExportFunc::hasParam` is declared outside the sources; the
spec has a function invoked directly by slot when it has no parameters. -/
def RSExportFunc.hasParam (EF : RSExportFunc) : Bool := !EF.params.isEmpty

/-- Modelled from the spec: `Context::getNextExportFuncSlot` is declared outside the sources;
the spec has the context keep a monotonically increasing slot counter for the exported
functions.  The current value is returned and the counter advanced. -/
def Context.getNextExportFuncSlot (C : Context) : Nat × Context :=
  (C.mNextExportFuncSlot, { C with mNextExportFuncSlot := C.mNextExportFuncSlot + 1 })

/-- The argument list of the invoke method: the host type name and the name of each
parameter, in order. -/
def genInvokeArgs : List Parameter → Except Fatal (List (String × String))
  | [] => .ok []
  | P :: rest => do
      let TypeName ← GetTypeName P.type
      let others ← genInvokeArgs rest
      pure ((TypeName, P.name) :: others)

/-- The reflection of one exported function, `RSReflection::genExportFunction`: the slot
constant and the method `invoke_<name>`. -/
def genExportFunction (C : Context) (EF : RSExportFunc) :
    Except Fatal (List JavaStmt × Context) := do
  let (slot, C1) := C.getNextExportFuncSlot
  let head : JavaStmt := .privateSlot (RS_EXPORT_FUNC_INDEX_PREFIX ++ EF.name) slot
  let Args ← genInvokeArgs EF.params
  let start : JavaStmt :=
    .startFunction .AM_Public false (some "void") ("invoke_" ++ EF.name) Args
  let body ←
    if ¬ EF.hasParam then
      pure [JavaStmt.line ("invoke(" ++ RS_EXPORT_FUNC_INDEX_PREFIX ++ EF.name ++ ");")]
    else do
      let FieldPackerName := EF.name ++ "_fp"
      let packed ← genCreateAndPack EF.ParamPacketType none FieldPackerName
      pure (packed ++
        [JavaStmt.line ("invoke(" ++ RS_EXPORT_FUNC_INDEX_PREFIX ++ EF.name ++ ", " ++
          FieldPackerName ++ ");")])
  pure (head :: start :: (body ++ [.endFunction]), C1)

/-- The loop of `genScriptClass` over the exported variables. -/
def genExportVariables (C : Context) :
    List RSExportVar → Except Fatal (List JavaStmt × Context)
  | [] => .ok ([], C)
  | EV :: rest =>
      match genExportVariable C EV with
      | .error msg => .error msg
      | .ok (first, C1) =>
          match genExportVariables C1 rest with
          | .error msg => .error msg
          | .ok (others, C2) => .ok (first ++ others, C2)

/-- The loop of `genScriptClass` over the exported functions. -/
def genExportFunctions (C : Context) :
    List RSExportFunc → Except Fatal (List JavaStmt × Context)
  | [] => .ok ([], C)
  | EF :: rest =>
      match genExportFunction C EF with
      | .error msg => .error msg
      | .ok (first, C1) =>
          match genExportFunctions C1 rest with
          | .error msg => .error msg
          | .ok (others, C2) => .ok (first ++ others, C2)

/-- The slot constant a line declares: its name and slot. -/
def JavaStmt.slot? : JavaStmt → Option (String × Nat)
  | .privateSlot IndexName slot => some (IndexName, slot)
  | _ => none

/-! ## The classes and the driver -/

def RS_SCRIPT_CLASS_NAME_PREFIX : String := "ScriptC_"
def RS_SCRIPT_CLASS_SUPER_CLASS_NAME : String := "ScriptC"
def RS_TYPE_CLASS_SUPER_CLASS_NAME : String := "android.renderscript.Script.FieldBase"
def RS_TYPE_ITEM_BUFFER_NAME : String := "mItemArray"
def RS_TYPE_ITEM_BUFFER_PACKER_NAME : String := "mIOBuffer"

/-- What the generator reads of `RSContext`: the exported variables, functions and types, in
iteration order, the path under which the classes are written, and the license note, null
when there is none. -/
structure RSContext where
  exportVars : List RSExportVar
  exportFuncs : List RSExportFunc
  exportTypes : List RSExportType
  reflectJavaPathName : String
  licenseNote : Option String

/-- The helpers of `RSSlangReflectUtils` and the file system, which are outside the sources:
the directory of a package, the class name of a script file, and whether a file can be
opened for writing. -/
structure Host where
  ComputePackagedPath : String → String → String
  JavaClassNameFromRSFileName : String → String
  canOpen : String → Bool

/-- The settings of `RSReflection::Context` fixed by its constructor. -/
structure ContextSettings where
  mInputRSFile : String
  mPackageName : String
  mResourceId : String
  mUseStdout : Bool
  mLicenseNote : String

/-- The default license note, `RSReflection::Context::ApacheLicenseNote`. -/
def ApacheLicenseNote : String :=
  "/*\n" ++
  " * Copyright (C) 2010 The Android Open Source Project\n" ++
  " *\n" ++
  " * Licensed under the Apache License, Version 2.0 (the \"License\");\n" ++
  " * you may not use this file except in compliance with the License.\n" ++
  " * You may obtain a copy of the License at\n" ++
  " *\n" ++
  " *      http://www.apache.org/licenses/LICENSE-2.0\n" ++
  " *\n" ++
  " * Unless required by applicable law or agreed to in writing, software\n" ++
  " * distributed under the License is distributed on an \"AS IS\" BASIS,\n" ++
  " * WITHOUT WARRANTIES OR CONDITIONS OF ANY KIND, either express or implied.\n" ++
  " * See the License for the specific language governing permissions and\n" ++
  " * limitations under the License.\n" ++
  " */\n" ++
  "\n"

/-- The head of a class file, `RSReflection::Context::startClass`: the license note, the
notice naming the script file, the package line, the imports and the hide annotation, kept as
one line of the three values they print, and then the opening of the class. -/
def Context.startClass (S : ContextSettings) (AM : AccessModifier) (IsStatic : Bool)
    (ClassName : String) (SuperClassName : Option String) : List JavaStmt :=
  [ .fileHeader S.mLicenseNote S.mInputRSFile S.mPackageName,
    .startClass AM IsStatic ClassName SuperClassName ]

/-- Modelled from the spec: `Context::clear` is declared outside the sources; the spec has
the context reset when a class is closed, its counters starting again. -/
def Context.clear (_C : Context) : Context := ⟨1, 0, 0⟩

/-- Modelled from the spec: the constructor of `Context` is declared outside the sources;
a new context starts from the cleared state. -/
def Context.initial : Context := ⟨1, 0, 0⟩

/-- The result of `RSReflection::openScriptFile`: the file it tried to open, if any, and the
error message it set when the open failed. -/
structure OpenResult where
  ok : Bool
  attempted : Option String
  ErrorMsg : Option String

/-- The opening of the file of a class, `RSReflection::openScriptFile`. -/
def openScriptFile (host : Host) (rs : RSContext) (S : ContextSettings) (ClassName : String) :
    OpenResult :=
  if ¬ S.mUseStdout then
    let _path := host.ComputePackagedPath rs.reflectJavaPathName S.mPackageName
    let file := _path ++ "/" ++ ClassName ++ ".java"
    if ¬ host.canOpen file then
      { ok := false, attempted := some file,
        ErrorMsg := some ("failed to open file '" ++ file ++ "' for write") }
    else { ok := true, attempted := some file, ErrorMsg := none }
  else { ok := true, attempted := none, ErrorMsg := none }

/-- A class that was written: its name, the file it went to (none in stdout mode), its
lines and the warnings printed while it was written. -/
structure ClassFile where
  ClassName : String
  file : Option String
  lines : List JavaStmt
  warnings : List String

/-- The outcome of a class emitter that did not abort: the class written and the context
afterwards, or the error message of the failed open. -/
inductive ClassResult where
  | written (cls : ClassFile) (C : Context)
  | openFailed (ErrorMsg : String)

/-- The initializations of the constructor of the script class: one call of
`genInitExportVariable` for each variable that has an initializer. -/
def genInitExportVariables : List RSExportVar → Except Fatal (List JavaStmt × List String)
  | [] => .ok ([], [])
  | EV :: rest =>
      if ¬ EV.init.isUninit then
        match genInitExportVariable EV.type EV.name EV.init with
        | .error msg => .error msg
        | .ok (first, warn) =>
            match genInitExportVariables rest with
            | .error msg => .error msg
            | .ok (others, warns) => .ok (first ++ others, warn ++ warns)
      else genInitExportVariables rest

/-- The constructor of the script class, `RSReflection::genScriptClassConstructor`. -/
def genScriptClassConstructor (rs : RSContext) (ClassName : String) :
    Except Fatal (List JavaStmt × List String) :=
  match genInitExportVariables rs.exportVars with
  | .error msg => .error msg
  | .ok (inits, warnings) =>
      .ok ([ JavaStmt.line "// Constructor",
          .startFunction .AM_Public false none ClassName
            [("RenderScript", "rs"), ("Resources", "resources"), ("int", "id"),
              ("boolean", "isRoot")],
          .line "super(rs, resources, id, isRoot);" ] ++ inits ++ [.endFunction], warnings)

/-- The script class, `RSReflection::genScriptClass`. -/
def genScriptClass (host : Host) (rs : RSContext) (S : ContextSettings) (C : Context)
    (ClassName : String) : Except Fatal ClassResult :=
  let opened := openScriptFile host rs S ClassName
  if ¬ opened.ok then .ok (.openFailed (opened.ErrorMsg.getD ""))
  else
    match genScriptClassConstructor rs ClassName with
    | .error msg => .error msg
    | .ok (ctor, warnings) =>
        match genExportVariables C rs.exportVars with
        | .error msg => .error msg
        | .ok (vars, C1) =>
            match genExportFunctions C1 rs.exportFuncs with
            | .error msg => .error msg
            | .ok (funcs, C2) =>
                .ok (.written
                  { ClassName := ClassName, file := opened.attempted,
                    lines :=
                      Context.startClass S .AM_Public false ClassName
                        (some RS_SCRIPT_CLASS_SUPER_CLASS_NAME) ++ ctor ++ vars ++ funcs ++
                        [.endClass],
                    warnings := warnings }
                  C2.clear)

/-- The member declarations of the item class: one line per field, in order. -/
def genItemMembers : List (Field RSExportType) → Except Fatal (List JavaStmt)
  | [] => .ok []
  | F :: rest =>
      match GetTypeName F.type with
      | .error msg => .error msg
      | .ok TypeName =>
          match genItemMembers rest with
          | .error msg => .error msg
          | .ok others => .ok (.member TypeName F.name :: others)

/-- The field is default-constructed by the constructor of the item class: its type is a
vector, a record or a constant array. -/
def constructedInItem (F : Field RSExportType) : Bool :=
  decide (F.type.getClass = .ExportClassVector) ||
    decide (F.type.getClass = .ExportClassRecord) ||
    decide (F.type.getClass = .ExportClassConstantArray)

/-- The body of the constructor of the item class. -/
def genItemConstructions : List (Field RSExportType) → Except Fatal (List JavaStmt)
  | [] => .ok []
  | F :: rest =>
      if constructedInItem F then
        match GetTypeName F.type with
        | .error msg => .error msg
        | .ok TypeName =>
            match genItemConstructions rest with
            | .error msg => .error msg
            | .ok others => .ok (.assign F.name (.newObject TypeName) :: others)
      else genItemConstructions rest

/-- The nested item class of a record type, `RSReflection::genTypeItemClass`, for the record
with the fields `fields` and the alloc size `allocSize`. -/
def genTypeItemClass (fields : List (Field RSExportType)) (allocSize : Nat) :
    Except Fatal (List JavaStmt) :=
  match genItemMembers fields with
  | .error msg => .error msg
  | .ok members =>
      match genItemConstructions fields with
      | .error msg => .error msg
      | .ok constructions =>
          .ok ([ JavaStmt.blockHead ("static public class " ++ RS_TYPE_ITEM_CLASS_NAME),
              .startBlock,
              .line ("public static final int sizeof = " ++ toString allocSize ++ ";"),
              .newline ] ++ members ++
            [ .newline, .blockHead (RS_TYPE_ITEM_CLASS_NAME ++ "()"), .startBlock ] ++
            constructions ++ [.endBlock, .endBlock])

/-- The element factory, `RSReflection::genBuildElement`. -/
def genBuildElement (C : Context) (ERT : RSExportType) (RenderScriptVar : String) :
    Except Fatal (List JavaStmt × Context) :=
  let ElementBuilderName := "eb"
  match genAddElementToElementBuilder C ERT "" with
  | .error msg => .error msg
  | .ok (stmts, C1) =>
      .ok ([JavaStmt.line ("Element.Builder " ++ ElementBuilderName ++
            " = new Element.Builder(" ++ RenderScriptVar ++ ");")] ++
          stmts.map (JavaStmt.build ElementBuilderName RenderScriptVar) ++
          [.line ("return " ++ ElementBuilderName ++ ".create();")], C1)

/-- The element factory method and the constructor of a type class,
`RSReflection::genTypeClassConstructor`. -/
def genTypeClassConstructor (C : Context) (ERT : RSExportType) (ClassName : String) :
    Except Fatal (List JavaStmt × Context) :=
  let RenderScriptVar := "rs"
  match genBuildElement C ERT RenderScriptVar with
  | .error msg => .error msg
  | .ok (element, C1) =>
      .ok ([JavaStmt.startFunction .AM_Public true (some "Element") "createElement"
            [("RenderScript", RenderScriptVar)]] ++ element ++
          [ .endFunction,
            .startFunction .AM_Public false none ClassName
              [("RenderScript", RenderScriptVar), ("int", "count")],
            .line (RS_TYPE_ITEM_BUFFER_NAME ++ " = null;"),
            .line (RS_TYPE_ITEM_BUFFER_PACKER_NAME ++ " = null;"),
            .line ("mElement = createElement(" ++ RenderScriptVar ++ ");"),
            .line ("init(" ++ RenderScriptVar ++ ", count);"),
            .endFunction ], C1)

/-- The method `copyToArray`, `RSReflection::genTypeClassCopyToArray`. -/
def genTypeClassCopyToArray (ERT : RSExportType) : Except Fatal (List JavaStmt) :=
  match genPackVarOfType ERT (some "i") with
  | .error msg => .error msg
  | .ok stmts =>
      .ok ([ JavaStmt.startFunction .AM_Private false (some "void") "copyToArray"
            [(RS_TYPE_ITEM_CLASS_NAME, "i"), ("int", "index")],
          .line ("if (mIOBuffer == null) mIOBuffer = new FieldPacker(Item.sizeof * " ++
            "mType.getX() /* count */);"),
          .line "mIOBuffer.reset(index * Item.sizeof);" ] ++
        stmts.map (JavaStmt.pack RS_TYPE_ITEM_BUFFER_PACKER_NAME) ++ [.endFunction])

/-- The method `set`, `RSReflection::genTypeClasSet`. -/
def genTypeClasSet : List JavaStmt :=
  [ .startFunction .AM_Public false (some "void") "set"
      [(RS_TYPE_ITEM_CLASS_NAME, "i"), ("int", "index"), ("boolean", "copyNow")],
    .line "if (mItemArray == null) mItemArray = new Item[mType.getX() /* count */];",
    .line "mItemArray[index] = i;",
    .blockHead "if (copyNow) ",
    .startBlock,
    .line "copyToArray(i, index);",
    .line "mAllocation.subData1D(index, 1, mIOBuffer.getData());",
    .endBlock,
    .endFunction ]

/-- The method `get`, `RSReflection::genTypeClasGet`. -/
def genTypeClasGet : List JavaStmt :=
  [ .startFunction .AM_Public false (some RS_TYPE_ITEM_CLASS_NAME) "get" [("int", "index")],
    .line "if (mItemArray == null) return null;",
    .line "return mItemArray[index];",
    .endFunction ]

/-- The method `copyAll`, `RSReflection::genTypeClasCopyAll`. -/
def genTypeClasCopyAll : List JavaStmt :=
  [ .startFunction .AM_Public false (some "void") "copyAll" [],
    .line ("for (int ct=0; ct < mItemArray.length; ct++) " ++
      "copyToArray(mItemArray[ct], ct);"),
    .line "mAllocation.data(mIOBuffer.getData());",
    .endFunction ]

/-- The class of a record type, `RSReflection::genTypeClass`; a type that is not a record is
not passed to it. -/
def genTypeClass (host : Host) (rs : RSContext) (S : ContextSettings) (C : Context)
    (ERT : RSExportType) : Except Fatal ClassResult :=
  match ERT with
  | .Record name fields _ _ allocSize =>
      let ClassName := RS_TYPE_CLASS_NAME_PREFIX ++ name
      let opened := openScriptFile host rs S ClassName
      if ¬ opened.ok then .ok (.openFailed (opened.ErrorMsg.getD ""))
      else
        match genTypeItemClass fields allocSize with
        | .error msg => .error msg
        | .ok item =>
            match genTypeClassConstructor C ERT ClassName with
            | .error msg => .error msg
            | .ok (ctor, C1) =>
                match genTypeClassCopyToArray ERT with
                | .error msg => .error msg
                | .ok copyToArray =>
                    .ok (.written
                      { ClassName := ClassName, file := opened.attempted,
                        lines :=
                          Context.startClass S .AM_Public false ClassName
                            (some RS_TYPE_CLASS_SUPER_CLASS_NAME) ++ item ++
                            [ .line ("private " ++ RS_TYPE_ITEM_CLASS_NAME ++ " " ++
                                RS_TYPE_ITEM_BUFFER_NAME ++ "[];"),
                              .line ("private FieldPacker " ++
                                RS_TYPE_ITEM_BUFFER_PACKER_NAME ++ ";") ] ++
                            ctor ++ copyToArray ++ genTypeClasSet ++ genTypeClasGet ++
                            genTypeClasCopyAll ++ [.endClass],
                        warnings := [] }
                      C1.clear)
  | _ => .error "not a record type"

/-- What `reflect` leaves behind when it returns: its result, the classes written, in order,
the last error message and what was printed on the standard error. -/
structure ReflectResult where
  success : Bool
  classes : List ClassFile
  ErrorMsg : String
  cerr : List String

/-- The class name of a file, `GetClassNameFromFileName`: empty for the empty name and for
`-`. -/
def GetClassNameFromFileName (host : Host) (FileName : String) : String :=
  if FileName = "" ∨ FileName = "-" then "" else host.JavaClassNameFromRSFileName FileName

/-- The flag `isArtificial` of a record type; a type that is not a record has none. -/
def RSExportType.isArtificial : RSExportType → Bool
  | .Record _ _ artificial _ _ => artificial
  | _ => false

/-- The loop of `reflect` over the exported types, after the classes `done` were written. -/
def reflectTypes (host : Host) (rs : RSContext) (S : ContextSettings) :
    Context → List ClassFile → List RSExportType → Except Fatal ReflectResult
  | _, done, [] => .ok { success := true, classes := done, ErrorMsg := "", cerr := [] }
  | C, done, ET :: rest =>
      if ET.getClass = .ExportClassRecord then
        if ¬ ET.isArtificial then
          match genTypeClass host rs S C ET with
          | .error msg => .error msg
          | .ok (.openFailed ErrorMsg) =>
              .ok { success := false, classes := done, ErrorMsg := ErrorMsg,
                    cerr := ["Failed to generate type class for struct '" ++ ET.getName ++
                      "' (" ++ ErrorMsg ++ ")"] }
          | .ok (.written cls C1) => reflectTypes host rs S C1 (done ++ [cls]) rest
        else reflectTypes host rs S C done rest
      else reflectTypes host rs S C done rest

/-- Whether `reflect` runs in stdout mode: the package name is null, empty or `-`. -/
def useStdout (OutputPackageName : Option String) : Bool :=
  match OutputPackageName with
  | none => true
  | some name => decide (name = "") || decide (name = "-")

/-- The resource id `reflect` computes from the name of the bitcode file. -/
def resourceId (host : Host) (OutputBCFileName : String) : String :=
  let ResourceId := GetClassNameFromFileName host OutputBCFileName
  if ResourceId = "" then "<Resource ID>" else ResourceId

/-- Modelled from the spec: the constructor of `Context` and `Context::setLicenseNote` are
declared outside the sources; the spec has an optional license text prepended to every
file, and the sources hold the default note.  The settings are those of the context
`reflect` constructs, with the license note of the type graph when it has one. -/
def reflectSettings (host : Host) (rs : RSContext) (OutputPackageName : Option String)
    (InputFileName OutputBCFileName : String) : ContextSettings :=
  if useStdout OutputPackageName then
    ⟨InputFileName, "<Package Name>", resourceId host OutputBCFileName, true,
      rs.licenseNote.getD ApacheLicenseNote⟩
  else
    ⟨InputFileName, OutputPackageName.getD "", resourceId host OutputBCFileName, false,
      rs.licenseNote.getD ApacheLicenseNote⟩

/-- The name of the script class `reflect` computes from the name of the input file. -/
def scriptClassName (host : Host) (InputFileName : String) : String :=
  let ScriptClassName := GetClassNameFromFileName host InputFileName
  RS_SCRIPT_CLASS_NAME_PREFIX ++
    (if ScriptClassName = "" then "<Input Script Name>" else ScriptClassName)

/-- The driver, `RSReflection::reflect`. -/
def reflect (host : Host) (rs : RSContext) (OutputPackageName : Option String)
    (InputFileName OutputBCFileName : String) : Except Fatal ReflectResult :=
  let S := reflectSettings host rs OutputPackageName InputFileName OutputBCFileName
  let C := Context.initial
  let ScriptClassName := scriptClassName host InputFileName
  match genScriptClass host rs S C ScriptClassName with
  | .error msg => .error msg
  | .ok (.openFailed ErrorMsg) =>
      .ok { success := false, classes := [], ErrorMsg := ErrorMsg,
            cerr := ["Failed to generate class " ++ ScriptClassName ++ " (" ++ ErrorMsg ++
              ")"] }
  | .ok (.written cls C1) => reflectTypes host rs S C1 [cls] rs.exportTypes

/-- The class `cls` is the type class `genTypeClass` writes for the type `ET` from some
context. -/
def WrittenTypeClass (host : Host) (rs : RSContext) (S : ContextSettings) (ET : RSExportType)
    (cls : ClassFile) : Prop :=
  ∃ C C1, genTypeClass host rs S C ET = .ok (.written cls C1)

/-- The file of the class `ClassName` under the packaged path of the settings `S`. -/
def classFilePath (host : Host) (rs : RSContext) (S : ContextSettings) (ClassName : String) :
    String :=
  host.ComputePackagedPath rs.reflectJavaPathName S.mPackageName ++ "/" ++ ClassName ++ ".java"

/-! ## The leaves of a type -/

/-- The source expression a leaf type writes for the variable `VarName`: the variable
itself, or for a pointer its handle, through the allocation when the pointee is a record. -/
def leafExpr (ET : RSExportType) (VarName : String) : String :=
  match ET with
  | .Pointer _ PointeeType _ _ =>
      if PointeeType.getClass ≠ .ExportClassRecord then VarName ++ ".getPtr()"
      else VarName ++ ".getAllocation().getPtr()"
  | _ => VarName

mutual

/-- The leaf fields of a type as the specification words them: the fields in declaration
order, depth-first through nested records, each with its type and its name, the prefix and
the field names joined with a dot.  A type that is not a record is its own leaf. -/
def leafFields : RSExportType → Option String → List (RSExportType × String)
  | .Record _ fields _ _ _, VarName => fieldLeaves fields VarName
  | .Primitive n t k s a, VarName => [(.Primitive n t k s a, VarName.getD "")]
  | .Vector n t k c s a, VarName => [(.Vector n t k c s a, VarName.getD "")]
  | .ConstantArray n t k s a, VarName => [(.ConstantArray n t k s a, VarName.getD "")]
  | .Pointer n p s a, VarName => [(.Pointer n p s a, VarName.getD "")]

/-- The leaf fields of a list of fields under the prefix `VarName`. -/
def fieldLeaves : List (Field RSExportType) → Option String → List (RSExportType × String)
  | [], _ => []
  | F :: rest, VarName =>
      leafFields F.type (some (packFieldName VarName F)) ++ fieldLeaves rest VarName

end

/-- The source expression a packer line writes, `none` for a skip. -/
def PackStmt.written? : PackStmt → Option String
  | .write _ arg _ => some arg
  | .skip _ => none

/-! ## Example functions and records -/

/-- The record without fields, of size 0. -/
def emptyRecord : RSExportType := .Record "Empty" [] false 0 0

/-- A function with one parameter of the empty record type; its parameter packet has the
alloc size 0. -/
def emptyParamFunc : RSExportFunc :=
  { name := "f", params := [⟨emptyRecord, "e"⟩],
    ParamPacketType := .Record "f_params" [⟨"e", emptyRecord, 0⟩] false 0 0 }

/-- A function with the parameters `int a` and `float b`, packed at the offsets 0 and 4. -/
def twoParamFunc : RSExportFunc :=
  { name := "g",
    params := [⟨.Primitive "int" DataTypeSigned32 DataKindUser 4 4, "a"⟩, ⟨floatType, "b"⟩],
    ParamPacketType := .Record "g_params" [int32Field "a" 0, float32Field "b" 4] false 8 8 }

/-- A function without parameters. -/
def noParamFunc : RSExportFunc :=
  { name := "h", params := [], ParamPacketType := .Record "h_params" [] false 0 0 }

/-- A host on which every file can be opened. -/
def openHost : Host :=
  { ComputePackagedPath := fun path package => path ++ "/" ++ package,
    JavaClassNameFromRSFileName := fun name => name,
    canOpen := fun _ => true }

/-- A host on which no file can be opened. -/
def closedHost : Host :=
  { ComputePackagedPath := fun path package => path ++ "/" ++ package,
    JavaClassNameFromRSFileName := fun name => name,
    canOpen := fun _ => false }

/-- A type graph with one variable, one function and three exported types: a record, a
primitive and an artificial record. -/
def exampleContext : RSContext :=
  { exportVars := [⟨"f", floatType, false, .Uninit⟩],
    exportFuncs := [twoParamFunc],
    exportTypes := [exampleRecord, floatType, .Record "Hidden" [] true 0 0],
    reflectJavaPathName := "out",
    licenseNote := none }

/-- The fields of a record with a primitive, a vector, a pointer, a record and an array. -/
def mixedFields : List (Field RSExportType) :=
  [ float32Field "x" 0, ⟨"v", float4Type, 16⟩, ⟨"p", intPointerType, 32⟩,
    ⟨"r", exampleRecord, 36⟩,
    ⟨"a", .ConstantArray "int[4]" DataTypeSigned32 DataKindUser 16 16, 48⟩ ]

/-- A host on which only the file of the script class of `exampleContext` can be opened. -/
def scriptOnlyHost : Host :=
  { ComputePackagedPath := fun path package => path ++ "/" ++ package,
    JavaClassNameFromRSFileName := fun name => name,
    canOpen := fun file => decide (file = "out/com.x/ScriptC_script.java") }

/-- A host on which the files of the script class and of the class of `exampleRecord` can be
opened, and no other. -/
def twoClassHost : Host :=
  { ComputePackagedPath := fun path package => path ++ "/" ++ package,
    JavaClassNameFromRSFileName := fun name => name,
    canOpen := fun file =>
      decide (file = "out/com.x/ScriptC_script.java") ||
        decide (file = "out/com.x/ScriptField_Example.java") }

/-- A type graph with one variable, one function and three exported types: two records and a
primitive between them. -/
def twoRecordContext : RSContext :=
  { exportVars := [⟨"f", floatType, false, .Uninit⟩],
    exportFuncs := [twoParamFunc],
    exportTypes := [exampleRecord, floatType, paddedRecord],
    reflectJavaPathName := "out",
    licenseNote := none }

/-! ## Measures of the trailing padding -/

/-- The end of the last field of a list of fields, its offset plus the alloc size of its
type; 0 when there is no field. -/
def lastFieldEnd (fields : List (Field RSExportType)) : Nat :=
  match fields.getLast? with
  | none => 0
  | some F => F.offsetInParent + GetTypeAllocSize F.type

mutual

/-- The offsets and sizes the packer walk reads in `ET` are `size_t` values: the offset of
every field and the store size and alloc size of its type, at every depth, are below
`SIZE_MOD`. -/
def SizesRepresentable : RSExportType → Bool
  | .Record _ fields _ _ _ => FieldSizesRepresentable fields
  | _ => true

def FieldSizesRepresentable : List (Field RSExportType) → Bool
  | [] => true
  | F :: rest =>
      decide (F.offsetInParent < SIZE_MOD) && decide (GetTypeStoreSize F.type < SIZE_MOD) &&
        decide (GetTypeAllocSize F.type < SIZE_MOD) && SizesRepresentable F.type &&
        FieldSizesRepresentable rest

end

/-- A record whose only field, an `int32` at offset 0, ends at 4, beyond the alloc size 2 of
the record. -/
def shortRecord : RSExportType := .Record "Short" [int32Field "a" 0] false 2 2

/-! ## The attribute-stripping pass (`strip_unknown_attributes.cpp`)

The pass works on the LLVM classes `Module`, `Function` and `Argument`, which are library
code outside the sources.  They are modelled by what the pass reads and writes of them: a
module is its list of functions, a function its list of arguments, an argument its number
and the list of attribute kinds it carries. -/

namespace llvm

/-- The kinds of attribute, `llvm::Attribute::AttrKind`: the two the pass names, and the
others by their ordinal. -/
inductive AttrKind where
  | ReadNone
  | ReadOnly
  | Other (kind : Nat)
  deriving DecidableEq, Repr

/-- The kinds an attribute builder collects, `llvm::AttrBuilder`. -/
abbrev AttrBuilder := List AttrKind

/-- The empty builder with one kind added, `AttrBuilder::addAttribute`. -/
def AttrBuilder.addAttribute (B : AttrBuilder) (Val : AttrKind) : AttrBuilder := B ++ [Val]

/-- The attributes of one index, `llvm::AttributeSet::get(Context, Index, B)`. -/
structure AttributeSet where
  Index : Nat
  Attrs : List AttrKind
  deriving DecidableEq, Repr

/-- An argument of a function, `llvm::Argument`, with the attributes it carries (those at the
index `ArgNo + 1` of the attribute set of its function). -/
structure Argument where
  ArgNo : Nat
  Attrs : List AttrKind
  deriving DecidableEq, Repr

/-- The query `Argument::hasAttribute` for one kind. -/
def Argument.hasAttribute (A : Argument) (Kind : AttrKind) : Bool := A.Attrs.contains Kind

/-- The library query `Argument::onlyReadsMemory`: the argument has the `readonly` or the
`readnone` attribute. -/
def Argument.onlyReadsMemory (A : Argument) : Bool :=
  A.hasAttribute .ReadOnly || A.hasAttribute .ReadNone

/-- The library call `Argument::removeAttr`: the attributes of the set are removed from the
argument, the others stay as they are. -/
def Argument.removeAttr (A : Argument) (AS : AttributeSet) : Argument :=
  { A with Attrs := A.Attrs.filter (fun Kind => !AS.Attrs.contains Kind) }

/-- A function, `llvm::Function`: its arguments, in order. -/
structure Function where
  args : List Argument
  deriving DecidableEq, Repr

/-- A module, `llvm::Module`: its functions, in order. -/
structure Module where
  functions : List Function
  deriving DecidableEq, Repr

end llvm

namespace StripUnknownAttributes

/-- The loop of `StripUnknownAttributes::runOnFunction` over the arguments, entered with the
flag `changed`: the arguments afterwards and the flag. -/
def runOnArguments : List llvm.Argument → Bool → List llvm.Argument × Bool
  | [], changed => ([], changed)
  | A :: rest, changed =>
      if A.onlyReadsMemory then
        let B : llvm.AttrBuilder :=
          (llvm.AttrBuilder.addAttribute [] .ReadNone).addAttribute .ReadOnly
        let ToStrip : llvm.AttributeSet := ⟨A.ArgNo + 1, B⟩
        let (rest1, changed1) := runOnArguments rest true
        (A.removeAttr ToStrip :: rest1, changed1)
      else
        let (rest1, changed1) := runOnArguments rest changed
        (A :: rest1, changed1)

/-- The pass on one function, `StripUnknownAttributes::runOnFunction`: the function
afterwards and whether it was changed. -/
def runOnFunction (F : llvm.Function) : llvm.Function × Bool :=
  let (args, changed) := runOnArguments F.args false
  (⟨args⟩, changed)

/-- The loop of `StripUnknownAttributes::runOnModule` over the functions, entered with the
flag `Changed`. -/
def runOnFunctions : List llvm.Function → Bool → List llvm.Function × Bool
  | [], Changed => ([], Changed)
  | F :: rest, Changed =>
      let (F1, changed) := runOnFunction F
      let (rest1, Changed1) := runOnFunctions rest (Changed || changed)
      (F1 :: rest1, Changed1)

/-- The pass, `StripUnknownAttributes::runOnModule`: the module afterwards and whether it
was changed. -/
def runOnModule (M : llvm.Module) : llvm.Module × Bool :=
  let (functions, Changed) := runOnFunctions M.functions false
  (⟨functions⟩, Changed)

/-- The argument `A` as the claim wants it after the pass: without `readnone` and
`readonly`, every other attribute as before. -/
def strippedArgument (A : llvm.Argument) : llvm.Argument :=
  { A with Attrs := A.Attrs.filter (fun Kind => Kind ≠ .ReadNone ∧ Kind ≠ .ReadOnly) }

/-- The module `M` as the claim wants it after the pass: every argument of every function
stripped of `readnone` and `readonly`. -/
def strippedModule (M : llvm.Module) : llvm.Module :=
  ⟨M.functions.map (fun F => ⟨F.args.map strippedArgument⟩)⟩

/-- A module of two functions: the first has an argument with `readonly` and another
attribute and an argument with `readnone`, the second an argument without either. -/
def exampleModule : llvm.Module :=
  ⟨[⟨[⟨0, [.Other 7, .ReadOnly]⟩, ⟨1, [.ReadNone]⟩]⟩, ⟨[⟨0, [.Other 3]⟩]⟩]⟩

end StripUnknownAttributes

/-! ## Nesting of the blocks of a class -/

/-- The block events of `Context`: `startClass`, `startFunction` and `startBlock` open a
block (each through `startBlock`), `endClass`, `endFunction` and `endBlock` close one (each
through `endBlock`). -/
inductive BlockEvent where
  | opens
  | closes
  deriving DecidableEq, Repr

/-- The block event of a line, `none` for a line that neither opens nor closes a block. -/
def JavaStmt.blockEvent? : JavaStmt → Option BlockEvent
  | .startClass .. => some .opens
  | .startFunction .. => some .opens
  | .startBlock => some .opens
  | .endClass => some .closes
  | .endFunction => some .closes
  | .endBlock => some .closes
  | _ => none

/-- The nesting depth after the lines `stmts`, entered at the depth `depth`; `none` when a
block is closed at depth 0, where the depth would go negative. -/
def nestingDepth : Nat → List JavaStmt → Option Nat
  | depth, [] => some depth
  | depth, s :: rest =>
      match s.blockEvent? with
      | none => nestingDepth depth rest
      | some .opens => nestingDepth (depth + 1) rest
      | some .closes =>
          match depth with
          | 0 => none
          | inner + 1 => nestingDepth inner rest

/-- The text a class puts out: its name, its lines and the warnings printed while it was
written; the file it went to is not part of the text. -/
def ClassFile.text (cls : ClassFile) : String × List JavaStmt × List String :=
  (cls.ClassName, cls.lines, cls.warnings)

/-- A host with another package directory than `openHost`, on which every file can be opened
as well. -/
def otherHost : Host :=
  { ComputePackagedPath := fun path package => package ++ "/" ++ path,
    JavaClassNameFromRSFileName := fun name => name,
    canOpen := fun _ => true }

end slang

namespace slang

/-! # Properties -/

/-! ## Induction over the types a walk visits, and machine arithmetic -/


theorem walk_induction {P : RSExportType → Prop} {Q : List (Field RSExportType) → Prop}
    (hPrim : ∀ n t k s a, P (.Primitive n t k s a))
    (hVec : ∀ n t k e s a, P (.Vector n t k e s a))
    (hArr : ∀ n t k s a, P (.ConstantArray n t k s a))
    (hPtr : ∀ n p s a, P (.Pointer n p s a))
    (hRec : ∀ n fields art s a, Q fields → P (.Record n fields art s a))
    (hNil : Q [])
    (hCons : ∀ F rest, P F.type → Q rest → Q (F :: rest)) :
    (∀ ET, P ET) ∧ (∀ fields, Q fields) := by
  have h1 : ∀ ET, P ET := fun ET =>
    @RSExportType.rec P Q (fun F => P F.type) hPrim hVec hArr (fun n p s a _ => hPtr n p s a)
      (fun n fields art s a ih => hRec n fields art s a ih) hNil
      (fun F rest ihF ihr => hCons F rest ihF ihr) (fun _ _ _ ih => ih) ET
  have h2 : ∀ fields, Q fields := fun fs =>
    @RSExportType.rec_1 P Q (fun F => P F.type) hPrim hVec hArr (fun n p s a _ => hPtr n p s a)
      (fun n fields art s a ih => hRec n fields art s a ih) hNil
      (fun F rest ihF ihr => hCons F rest ihF ihr) (fun _ _ _ ih => ih) fs
  exact ⟨h1, h2⟩

theorem subSizeT_of_le (a b : Nat) (hab : b ≤ a) (ha : a < SIZE_MOD) :
    subSizeT a b = a - b := by
  unfold subSizeT SIZE_MOD at *
  omega

theorem toPos_of_lt (n : Nat) (h : n < SIZE_MOD) : toPos n = n := by
  unfold toPos; exact Nat.mod_eq_of_lt h

theorem FieldsOrdered_le (bound : Nat → Nat → Nat) (fields : List (Field RSExportType)) :
    ∀ Pos limit, FieldsOrdered bound fields Pos limit = true → Pos ≤ limit := by
  induction fields with
  | nil => intro Pos limit h; simpa [FieldsOrdered] using h
  | cons F rest ih =>
    intro Pos limit h
    simp only [FieldsOrdered, Bool.and_eq_true, decide_eq_true_eq] at h
    have := ih _ _ h.2
    omega

theorem packedBytes_append (a b : List PackStmt) :
    packedBytes (a ++ b) = packedBytes a + packedBytes b := by
  simp [packedBytes]

theorem packedBytes_skip_if (c : Prop) [Decidable c] (n : Nat) :
    packedBytes (if c then [PackStmt.skip n] else []) = if c then n else 0 := by
  split <;> simp [packedBytes, PackStmt.consumed]

theorem streamPackerAPIName_of_isSome (type : DataType) (h : (GetPackerAPIName type).isSome = true) :
    ∃ api, streamPackerAPIName type = .ok api := by
  unfold streamPackerAPIName
  cases hg : GetPackerAPIName type with
  | none => simp [hg] at h
  | some api => exact ⟨api, rfl⟩

/-! ## The padding loop -/

theorem genAddPadding_zero (C : Context) : genAddPaddingToElementBuiler C 0 = ([], C) := by
  rw [genAddPaddingToElementBuiler]; simp

theorem genAddPadding_ge4 (C : Context) (S : Nat) (h : 4 ≤ S) :
    genAddPaddingToElementBuiler C S =
      (.addPadding .U32 C.createPaddingField.1 ::
          (genAddPaddingToElementBuiler C.createPaddingField.2 (S - 4)).1,
        (genAddPaddingToElementBuiler C.createPaddingField.2 (S - 4)).2) := by
  rw [genAddPaddingToElementBuiler]
  have h0 : S > 0 := by omega
  simp [h0, h]

theorem genAddPadding_ge2 (C : Context) (S : Nat) (h : S = 2 ∨ S = 3) :
    genAddPaddingToElementBuiler C S =
      (.addPadding .U16 C.createPaddingField.1 ::
          (genAddPaddingToElementBuiler C.createPaddingField.2 (S - 2)).1,
        (genAddPaddingToElementBuiler C.createPaddingField.2 (S - 2)).2) := by
  rw [genAddPaddingToElementBuiler]
  have h0 : S > 0 := by omega
  have h4 : ¬ 4 ≤ S := by omega
  have h2 : 2 ≤ S := by omega
  simp [h0, h4, h2]

theorem genAddPadding_one (C : Context) :
    genAddPaddingToElementBuiler C 1 =
      ([.addPadding .U8 C.createPaddingField.1], C.createPaddingField.2) := by
  rw [genAddPaddingToElementBuiler]
  simp [genAddPadding_zero]

theorem greedyChunks_ge4 (S : Nat) (h : 4 ≤ S) :
    greedyChunks S = PadChunk.U32 :: greedyChunks (S - 4) := by
  have h1 : S / 4 = (S - 4) / 4 + 1 := by omega
  have h2 : S % 4 = (S - 4) % 4 := by omega
  have h3 : S % 2 = (S - 4) % 2 := by omega
  simp only [greedyChunks, h1, h2, h3, List.replicate_succ, List.cons_append]

/-- The padding loop emits padding fields only, with the chunks of the greedy rule. -/
theorem genAddPadding_chunks (S : Nat) : ∀ C : Context,
    (genAddPaddingToElementBuiler C S).1.map BuildStmt.padChunk? =
      (greedyChunks S).map some := by
  induction S using Nat.strong_induction_on with
  | _ S ih =>
    intro C
    by_cases h4 : 4 ≤ S
    · rw [genAddPadding_ge4 C S h4, greedyChunks_ge4 S h4]
      simp [BuildStmt.padChunk?, ih (S - 4) (by omega)]
    · have hS : S = 0 ∨ S = 1 ∨ S = 2 ∨ S = 3 := by omega
      rcases hS with h | h | h | h
      · subst h; rw [genAddPadding_zero]; rfl
      · subst h; rw [genAddPadding_one]; rfl
      · subst h
        rw [genAddPadding_ge2 _ _ (Or.inl rfl)]
        simp [genAddPadding_zero, BuildStmt.padChunk?, greedyChunks]
      · subst h
        rw [genAddPadding_ge2 _ _ (Or.inr rfl)]
        simp [genAddPadding_one, BuildStmt.padChunk?, greedyChunks]

/-- The padding fields of the loop add up to the padding size. -/
theorem genAddPadding_declared (S : Nat) : ∀ C : Context,
    declaredBytes (genAddPaddingToElementBuiler C S).1 = S := by
  induction S using Nat.strong_induction_on with
  | _ S ih =>
    intro C
    by_cases h4 : 4 ≤ S
    · rw [genAddPadding_ge4 C S h4]
      have := ih (S - 4) (by omega) C.createPaddingField.2
      simp only [declaredBytes] at this ⊢
      simp only [List.map_cons, List.sum_cons, BuildStmt.declared, PadChunk.bytes, this]
      omega
    · have hS : S = 0 ∨ S = 1 ∨ S = 2 ∨ S = 3 := by omega
      rcases hS with h | h | h | h
      · subst h; rw [genAddPadding_zero]; rfl
      · subst h; rw [genAddPadding_one]; rfl
      · subst h
        rw [genAddPadding_ge2 _ _ (Or.inl rfl)]
        simp [genAddPadding_zero, declaredBytes, BuildStmt.declared, PadChunk.bytes]
      · subst h
        rw [genAddPadding_ge2 _ _ (Or.inr rfl)]
        simp [genAddPadding_one, declaredBytes, BuildStmt.declared, PadChunk.bytes]

/-- Every line of the padding loop is a padding field of 4, 2 or 1 bytes. -/
theorem genAddPadding_sizes (S : Nat) (C : Context) :
    PaddingSizes ((genAddPaddingToElementBuiler C S).1.map BuildStmt.declared) := by
  intro x hx
  rw [List.mem_map] at hx
  obtain ⟨st, hst, rfl⟩ := hx
  have hc := genAddPadding_chunks S C
  have hmem : BuildStmt.padChunk? st ∈ (greedyChunks S).map some := by
    rw [← hc]; exact List.mem_map_of_mem _ hst
  rw [List.mem_map] at hmem
  obtain ⟨c, _, hc2⟩ := hmem
  cases st with
  | add e v b => simp [BuildStmt.padChunk?] at hc2
  | addPadding c2 v => cases c2 <;> simp [BuildStmt.declared, PadChunk.bytes]

theorem genAddPadding_length (S : Nat) (C : Context) :
    (genAddPaddingToElementBuiler C S).1.length =
      S / 4 + (if S % 4 ≥ 2 then 1 else 0) + (if S % 2 = 1 then 1 else 0) := by
  have h := congrArg List.length (genAddPadding_chunks S C)
  simp only [List.length_map] at h
  rw [h, greedyChunks]
  simp only [List.length_append, List.length_replicate]
  split <;> split <;> simp

/-- A list of 4-, 2- and 1-byte sizes has as many entries as it has fours, twos and ones. -/
theorem paddingSizes_counts (l : List Nat) (hl : PaddingSizes l) :
    ∃ a b c : Nat, l.length = a + b + c ∧ l.sum = 4 * a + 2 * b + c := by
  induction l with
  | nil => exact ⟨0, 0, 0, rfl, rfl⟩
  | cons x xs ih =>
    obtain ⟨a, b, c, h1, h2⟩ := ih (fun y hy => hl y (List.mem_cons_of_mem _ hy))
    rcases hl x (List.mem_cons_self _ _) with h | h | h
    · exact ⟨a + 1, b, c, by simp [h1]; omega, by simp [h2, h]; omega⟩
    · exact ⟨a, b + 1, c, by simp [h1]; omega, by simp [h2, h]; omega⟩
    · exact ⟨a, b, c + 1, by simp [h1]; omega, by simp [h2, h]; omega⟩

/-- C6: for every padding size `S`, `genAddPaddingToElementBuiler` emits only padding
fields: `S / 4` four-byte fields, then one two-byte field iff `S % 4 ≥ 2`, then one
one-byte field iff `S` is odd, in that order; their sizes add up to `S`, and nothing is
emitted for `S = 0`. -/
theorem genAddPaddingToElementBuiler_greedy (C : Context) (S : Nat) :
    (genAddPaddingToElementBuiler C S).1.map BuildStmt.padChunk? =
        (List.replicate (S / 4) PadChunk.U32 ++ (if S % 4 ≥ 2 then [PadChunk.U16] else []) ++
          (if S % 2 = 1 then [PadChunk.U8] else [])).map some ∧
      declaredBytes (genAddPaddingToElementBuiler C S).1 = S ∧
      (genAddPaddingToElementBuiler C 0).1 = [] :=
  ⟨genAddPadding_chunks S C, genAddPadding_declared S C, by rw [genAddPadding_zero]⟩

/-- C7: the fields `genAddPaddingToElementBuiler` emits for a padding size `S` are a way of
writing `S` as a sum of 4-, 2- and 1-byte fields, no such way has fewer fields, and for
`S = 7` three fields are emitted. -/
theorem genAddPaddingToElementBuiler_minimal (C : Context) (S : Nat) :
    PaddingSizes ((genAddPaddingToElementBuiler C S).1.map BuildStmt.declared) ∧
      ((genAddPaddingToElementBuiler C S).1.map BuildStmt.declared).sum = S ∧
      (∀ l : List Nat, PaddingSizes l → l.sum = S →
        (genAddPaddingToElementBuiler C S).1.length ≤ l.length) ∧
      (genAddPaddingToElementBuiler C 7).1.length = 3 := by
  refine ⟨genAddPadding_sizes S C, genAddPadding_declared S C, ?_, ?_⟩
  · intro l hl hs
    obtain ⟨a, b, c, h1, h2⟩ := paddingSizes_counts l hl
    rw [genAddPadding_length, h1]
    split <;> split <;> omega
  · rw [genAddPadding_length]; rfl

/-- Witness of C7 at `S = 7` against the seven one-byte fields. -/
theorem genAddPaddingToElementBuiler_minimal_witness :
    (genAddPaddingToElementBuiler ⟨1, 0, 0⟩ 7).1.length ≤ [1, 1, 1, 1, 1, 1, 1].length :=
  (genAddPaddingToElementBuiler_minimal ⟨1, 0, 0⟩ 7).2.2.1 [1, 1, 1, 1, 1, 1, 1]
    (by intro x hx; simp at hx; simp [hx]) (by decide)

/-! ## Bytes consumed by the packer walk -/

/-- Bytes the packer walk consumes on a well laid out type whose nested records have no
trailing padding: the alloc size of a record, the store size of any other type. -/
theorem genPack_bytes :
    (∀ ET : RSExportType, ∀ VarName : Option String,
      (ET.getClass = .ExportClassRecord ∨ VarName.isSome = true) →
      OffsetsOrdered withinAlloc ET = true → PackerAPIMapped ET = true →
      NestedRecordsTight ET = true →
      ∃ stmts, genPackVarOfType ET VarName = .ok stmts ∧
        packedBytes stmts =
          if ET.getClass = .ExportClassRecord then GetTypeAllocSize ET
          else GetTypeStoreSize ET) ∧
    (∀ fields : List (Field RSExportType), ∀ (VarName : Option String) (Pos limit : Nat),
      limit < SIZE_MOD →
      FieldsOrdered withinAlloc fields Pos limit = true →
      FieldsPackerAPIMapped fields = true → FieldRecordsTight fields = true →
      ∃ stmts Pos1, genPackFields fields VarName Pos = .ok (stmts, Pos1) ∧
        Pos1 = Pos + packedBytes stmts ∧ Pos1 ≤ limit) := by
  apply walk_induction
  · intro n t k s a VarName hv _ hm _
    rcases hv with hv | hv
    · simp [RSExportType.getClass] at hv
    · obtain ⟨v, rfl⟩ := Option.isSome_iff_exists.mp hv
      obtain ⟨api, hapi⟩ := streamPackerAPIName_of_isSome t (by simpa [PackerAPIMapped] using hm)
      exact ⟨[.write api v s], by simp [genPackVarOfType, hapi, streamVarName, bind, Except.bind, pure, Except.pure],
        by simp [packedBytes, PackStmt.consumed, RSExportType.getClass, GetTypeStoreSize]⟩
  · intro n t k e s a VarName hv _ hm _
    rcases hv with hv | hv
    · simp [RSExportType.getClass] at hv
    · obtain ⟨v, rfl⟩ := Option.isSome_iff_exists.mp hv
      obtain ⟨api, hapi⟩ := streamPackerAPIName_of_isSome t (by simpa [PackerAPIMapped] using hm)
      exact ⟨[.write api v s], by simp [genPackVarOfType, hapi, streamVarName, bind, Except.bind, pure, Except.pure],
        by simp [packedBytes, PackStmt.consumed, RSExportType.getClass, GetTypeStoreSize]⟩
  · intro n t k s a VarName hv _ hm _
    rcases hv with hv | hv
    · simp [RSExportType.getClass] at hv
    · obtain ⟨v, rfl⟩ := Option.isSome_iff_exists.mp hv
      by_cases hn : n = "addObj"
      · exact ⟨[.write "addObj" v s], by simp [genPackVarOfType, hn, streamVarName, bind, Except.bind, pure, Except.pure],
          by simp [packedBytes, PackStmt.consumed, RSExportType.getClass, GetTypeStoreSize]⟩
      · obtain ⟨api, hapi⟩ := streamPackerAPIName_of_isSome t (by simpa [PackerAPIMapped, hn] using hm)
        exact ⟨[.write api v s], by simp [genPackVarOfType, hn, hapi, streamVarName, bind, Except.bind, pure, Except.pure],
          by simp [packedBytes, PackStmt.consumed, RSExportType.getClass, GetTypeStoreSize]⟩
  · intro n p s a VarName hv _ _ _
    rcases hv with hv | hv
    · simp [RSExportType.getClass] at hv
    · obtain ⟨v, rfl⟩ := Option.isSome_iff_exists.mp hv
      by_cases hc : p.getClass = .ExportClassRecord
      · exact ⟨[.write "addI32" (v ++ ".getAllocation().getPtr()") s],
          by simp [genPackVarOfType, hc, streamVarName, bind, Except.bind, pure, Except.pure],
          by simp [packedBytes, PackStmt.consumed, RSExportType.getClass, GetTypeStoreSize]⟩
      · exact ⟨[.write "addI32" (v ++ ".getPtr()") s],
          by simp [genPackVarOfType, hc, streamVarName, bind, Except.bind, pure, Except.pure],
          by simp [packedBytes, PackStmt.consumed, RSExportType.getClass, GetTypeStoreSize]⟩
  · intro n fields art s a ih VarName _ ho hm ht
    simp only [OffsetsOrdered, withinAlloc, Bool.and_eq_true, decide_eq_true_eq] at ho
    obtain ⟨stmts, Pos1, hrun, hpos, hle⟩ := ih VarName 0 a ho.1 ho.2
      (by simpa [PackerAPIMapped] using hm) (by simpa [NestedRecordsTight] using ht)
    refine ⟨stmts ++ (if subSizeT a Pos1 > 0 then [.skip (subSizeT a Pos1)] else []), ?_, ?_⟩
    · simp [genPackVarOfType, hrun, bind, Except.bind, pure, Except.pure]
    · rw [packedBytes_append, packedBytes_skip_if, subSizeT_of_le a Pos1 hle ho.1]
      simp only [RSExportType.getClass, GetTypeAllocSize, if_true]
      split <;> omega
  · intro VarName Pos limit _ ho _ _
    exact ⟨[], Pos, rfl, by simp [packedBytes], by simpa [FieldsOrdered] using ho⟩
  · intro F rest ihF ihR VarName Pos limit hlim ho hm ht
    simp only [FieldsOrdered, Bool.and_eq_true, decide_eq_true_eq] at ho
    simp only [FieldsPackerAPIMapped, Bool.and_eq_true] at hm
    simp only [FieldRecordsTight, Bool.and_eq_true, Bool.or_eq_true, decide_eq_true_eq] at ht
    obtain ⟨⟨⟨hpo, hsa⟩, hoF⟩, hoR⟩ := ho
    have hend := FieldsOrdered_le _ _ _ _ hoR
    obtain ⟨body, hbody, hbytes⟩ := ihF (some (packFieldName VarName F)) (Or.inr rfl) hoF hm.1 ht.1.2
    have hnext : toPos (F.offsetInParent + GetTypeAllocSize F.type) =
        F.offsetInParent + GetTypeAllocSize F.type := toPos_of_lt _ (by omega)
    obtain ⟨tail, Pos1, htail, hpos1, hle1⟩ :=
      ihR VarName (F.offsetInParent + GetTypeAllocSize F.type) limit hlim hoR hm.2 ht.2
    refine ⟨(if F.offsetInParent > Pos then [.skip (subSizeT F.offsetInParent Pos)] else []) ++
        body ++
        (if GetTypeAllocSize F.type > GetTypeStoreSize F.type then
          [.skip (subSizeT (GetTypeAllocSize F.type) (GetTypeStoreSize F.type))] else []) ++
        tail, Pos1, ?_, ?_, hle1⟩
    · simp [genPackFields, hbody, hnext, htail, bind, Except.bind, pure, Except.pure]
    · rw [packedBytes_append, packedBytes_append, packedBytes_append, packedBytes_skip_if,
        packedBytes_skip_if, hbytes, subSizeT_of_le _ _ hpo (by omega),
        subSizeT_of_le _ _ hsa (by omega), hpos1]
      rcases ht.1.1 with hcl | heq
      · simp only [hcl, if_false]
        split <;> split <;> omega
      · split <;> split <;> split <;> omega


/-! ## Bytes declared by the builder walk -/

theorem declaredBytes_append (a b : List BuildStmt) :
    declaredBytes (a ++ b) = declaredBytes a + declaredBytes b := by
  simp [declaredBytes]

/-! ## Lines that reach the output -/

theorem streamWritten_of_whole : ∀ stmts : List BuildStmt,
    (∀ stmt ∈ stmts, stmt.cut = false) → streamWritten stmts = stmts
  | [], _ => rfl
  | stmt :: rest, h => by
    have hs : stmt.cut = false := h stmt (List.mem_cons_self _ _)
    have hr := streamWritten_of_whole rest (fun x hx => h x (List.mem_cons_of_mem _ hx))
    simp [streamWritten, hs, hr]

/-- A line that streams no null tag has its full text. -/
theorem render_isSome_of_whole (stmt : BuildStmt) (ElementBuilderName rs : String)
    (h : stmt.cut = false) : (stmt.render ElementBuilderName rs).isSome = true := by
  cases stmt with
  | addPadding c v => rfl
  | add e v b =>
    cases e with
    | construct c => rfl
    | createAttribIndex => rfl
    | createAttrib dt dk n =>
      cases dt <;> cases dk <;> first | rfl | simp [BuildStmt.cut, ElementExpr.cut] at h
    | createVectorKind dt dk =>
      cases dt <;> cases dk <;> first | rfl | simp [BuildStmt.cut, ElementExpr.cut] at h
    | createUser dt => cases dt <;> first | rfl | simp [BuildStmt.cut, ElementExpr.cut] at h
    | createVector dt n => cases dt <;> first | rfl | simp [BuildStmt.cut, ElementExpr.cut] at h

/-- A line that streams a null tag has no full text. -/
theorem render_none_of_cut (stmt : BuildStmt) (ElementBuilderName rs : String)
    (h : stmt.cut = true) : stmt.render ElementBuilderName rs = none := by
  cases stmt with
  | addPadding c v => simp [BuildStmt.cut] at h
  | add e v b =>
    cases e with
    | construct c => simp [BuildStmt.cut, ElementExpr.cut] at h
    | createAttribIndex => simp [BuildStmt.cut, ElementExpr.cut] at h
    | createAttrib dt dk n =>
      cases dt <;> cases dk <;> first | rfl | simp [BuildStmt.cut, ElementExpr.cut] at h
    | createVectorKind dt dk =>
      cases dt <;> cases dk <;> first | rfl | simp [BuildStmt.cut, ElementExpr.cut] at h
    | createUser dt => cases dt <;> first | rfl | simp [BuildStmt.cut, ElementExpr.cut] at h
    | createVector dt n => cases dt <;> first | rfl | simp [BuildStmt.cut, ElementExpr.cut] at h

/-- A padding line streams no tag. -/
theorem genAddPadding_whole (S : Nat) (C : Context) :
    ∀ stmt ∈ (genAddPaddingToElementBuiler C S).1, stmt.cut = false := by
  intro stmt hmem
  have h1 : stmt.padChunk? ∈ (genAddPaddingToElementBuiler C S).1.map BuildStmt.padChunk? :=
    List.mem_map_of_mem _ hmem
  rw [genAddPadding_chunks] at h1
  obtain ⟨c, _, hc⟩ := List.mem_map.mp h1
  cases stmt with
  | add e v b => simp [BuildStmt.padChunk?] at hc
  | addPadding c v => rfl

/-- The generic constructor of a leaf whose tags are mapped streams no null tag. -/
theorem genericElementExpr_whole (isVector : Bool) (type : DataType) (kind : DataKind)
    (Size : Nat) (h : ElementTagsMapped type kind = true) :
    (genericElementExpr isVector type kind Size).cut = false := by
  simp only [ElementTagsMapped, Bool.or_eq_true, decide_eq_true_eq, Bool.and_eq_true] at h
  unfold genericElementExpr
  rcases h with h | ⟨h1, h2⟩
  · subst h
    simp [ElementExpr.cut, DataKindIndex, DataKindColor, DataKindPosition, DataKindTexture,
      DataKindNormal, DataKindPointSize]
  · obtain ⟨dt, hdt⟩ := Option.isSome_iff_exists.mp h1
    obtain ⟨dk, hdk⟩ := Option.isSome_iff_exists.mp h2
    simp only [hdt, hdk]
    split_ifs <;> simp [ElementExpr.cut]

/-- On a type that is not a record the builder walk declares one real field, of the store
size of the type, and leaves the context unchanged. -/
theorem genAdd_leaf (C : Context) (ET : RSExportType) (VarName : String)
    (h : ET.getClass ≠ .ExportClassRecord) :
    ∃ element, genAddElementToElementBuilder C ET VarName =
      .ok ([.add element VarName (GetTypeStoreSize ET)], C) := by
  cases ET with
  | Primitive n t k s a =>
    simp only [genAddElementToElementBuilder, GetTypeStoreSize]
    split <;> exact ⟨_, rfl⟩
  | Vector n t k e s a =>
    simp only [genAddElementToElementBuilder, GetTypeStoreSize]
    split <;> exact ⟨_, rfl⟩
  | ConstantArray n t k s a =>
    simp only [genAddElementToElementBuilder, GetTypeStoreSize]
    split <;> exact ⟨_, rfl⟩
  | Pointer n p s a =>
    exact ⟨.construct "USER_I32", by
      simp [genAddElementToElementBuilder, GetBuiltinElementConstruct, GetTypeStoreSize, pure,
        Except.pure]⟩
  | Record n f art s a => simp [RSExportType.getClass] at h

/-- A leaf that is tagged is declared by a line that streams no null tag. -/
theorem genAdd_leaf_whole (C : Context) (ET : RSExportType) (VarName : String)
    (h : ET.getClass ≠ .ExportClassRecord) (ht : ElementTagged ET = true) :
    ∃ element, genAddElementToElementBuilder C ET VarName =
      .ok ([.add element VarName (GetTypeStoreSize ET)], C) ∧ element.cut = false := by
  cases ET with
  | Primitive n t k s a =>
    simp only [ElementTagged, Bool.or_eq_true] at ht
    simp only [genAddElementToElementBuilder, GetTypeStoreSize]
    split
    · exact ⟨_, rfl, rfl⟩
    · next hb =>
      exact ⟨_, rfl, genericElementExpr_whole _ _ _ _ (ht.resolve_left (by simp [hb]))⟩
  | Vector n t k e s a =>
    simp only [ElementTagged, Bool.or_eq_true] at ht
    simp only [genAddElementToElementBuilder, GetTypeStoreSize]
    split
    · exact ⟨_, rfl, rfl⟩
    · next hb =>
      exact ⟨_, rfl, genericElementExpr_whole _ _ _ _ (ht.resolve_left (by simp [hb]))⟩
  | ConstantArray n t k s a =>
    simp only [ElementTagged, Bool.or_eq_true] at ht
    simp only [genAddElementToElementBuilder, GetTypeStoreSize]
    split
    · exact ⟨_, rfl, rfl⟩
    · next hb =>
      exact ⟨_, rfl, genericElementExpr_whole _ _ _ _ (ht.resolve_left (by simp [hb]))⟩
  | Pointer n p s a =>
    exact ⟨.construct "USER_I32", by
      simp [genAddElementToElementBuilder, GetBuiltinElementConstruct, GetTypeStoreSize, pure,
        Except.pure], rfl⟩
  | Record n f art s a => simp [RSExportType.getClass] at h

theorem whole_append {a b : List BuildStmt} (ha : ∀ stmt ∈ a, stmt.cut = false)
    (hb : ∀ stmt ∈ b, stmt.cut = false) : ∀ stmt ∈ a ++ b, stmt.cut = false := by
  intro stmt hmem
  rcases List.mem_append.mp hmem with h | h
  · exact ha stmt h
  · exact hb stmt h

/-- On a type all of whose leaves are tagged the builder walk succeeds and none of its lines
streams a null tag: every line of the walk reaches the output. -/
theorem genAdd_tagged :
    (∀ ET : RSExportType, ∀ (C : Context) (VarName : String),
      ElementTagged ET = true →
      ∃ stmts C1, genAddElementToElementBuilder C ET VarName = .ok (stmts, C1) ∧
        ∀ stmt ∈ stmts, stmt.cut = false) ∧
    (∀ fields : List (Field RSExportType), ∀ (C : Context) (VarName : String) (Pos : Nat),
      FieldsElementTagged fields = true →
      ∃ stmts C1 Pos1, genAddFields C fields VarName Pos = .ok (stmts, C1, Pos1) ∧
        ∀ stmt ∈ stmts, stmt.cut = false) := by
  have leaf : ∀ ET : RSExportType, ET.getClass ≠ .ExportClassRecord →
      ∀ (C : Context) (VarName : String), ElementTagged ET = true →
      ∃ stmts C1, genAddElementToElementBuilder C ET VarName = .ok (stmts, C1) ∧
        ∀ stmt ∈ stmts, stmt.cut = false := by
    intro ET h C VarName ht
    obtain ⟨e, he, hc⟩ := genAdd_leaf_whole C ET VarName h ht
    exact ⟨_, _, he, by simpa [BuildStmt.cut] using hc⟩
  apply walk_induction
  · intro n t k s a; exact leaf _ (by simp [RSExportType.getClass])
  · intro n t k e s a; exact leaf _ (by simp [RSExportType.getClass])
  · intro n t k s a; exact leaf _ (by simp [RSExportType.getClass])
  · intro n p s a; exact leaf _ (by simp [RSExportType.getClass])
  · intro n fields art s a ih C VarName ht
    obtain ⟨stmts, C1, Pos1, hrun, hw⟩ := ih C VarName 0 (by simpa [ElementTagged] using ht)
    have hall := whole_append hw (genAddPadding_whole (subSizeT s Pos1) C1)
    refine ⟨stmts ++ (genAddPaddingToElementBuiler C1 (subSizeT s Pos1)).1,
      (genAddPaddingToElementBuiler C1 (subSizeT s Pos1)).2, ?_, hall⟩
    simp [genAddElementToElementBuilder, GetBuiltinElementConstruct, hrun, bind, Except.bind,
      pure, Except.pure, streamWritten_of_whole _ hall]
  · intro C VarName Pos _
    exact ⟨[], C, Pos, rfl, by simp⟩
  · intro F rest ihF ihR C VarName Pos ht
    simp only [FieldsElementTagged, Bool.and_eq_true] at ht
    obtain ⟨body, C2, hbody, hwb⟩ :=
      ihF (genAddPaddingToElementBuiler C (subSizeT F.offsetInParent Pos)).2
        (buildFieldName VarName F) ht.1
    obtain ⟨tail, C4, Pos1, htail, hwt⟩ :=
      ihR (genAddPaddingToElementBuiler C2
          (subSizeT (GetTypeAllocSize F.type) (GetTypeStoreSize F.type))).2
        VarName (toPos (F.offsetInParent + GetTypeAllocSize F.type)) ht.2
    have hall := whole_append (whole_append (whole_append
      (genAddPadding_whole (subSizeT F.offsetInParent Pos) C) hwb)
      (genAddPadding_whole (subSizeT (GetTypeAllocSize F.type) (GetTypeStoreSize F.type)) C2))
      hwt
    refine ⟨_, C4, Pos1, ?_, hall⟩
    simp [genAddFields, hbody, htail, bind, Except.bind, pure, Except.pure]
    simpa using streamWritten_of_whole _ hall

/-- The lines of a successful builder walk over a tagged type stream no null tag. -/
theorem genAdd_whole_of_ok {ET : RSExportType} {C C1 : Context} {VarName : String}
    {stmts : List BuildStmt} (ht : ElementTagged ET = true)
    (h : genAddElementToElementBuilder C ET VarName = .ok (stmts, C1)) :
    ∀ stmt ∈ stmts, stmt.cut = false := by
  obtain ⟨stmts1, C2, h1, hw⟩ := genAdd_tagged.1 ET C VarName ht
  rw [h1] at h
  injection h with h
  injection h with h2 h3
  exact h2 ▸ hw

theorem genAddFields_whole_of_ok {fields : List (Field RSExportType)} {C C1 : Context}
    {VarName : String} {Pos Pos1 : Nat} {stmts : List BuildStmt}
    (ht : FieldsElementTagged fields = true)
    (h : genAddFields C fields VarName Pos = .ok (stmts, C1, Pos1)) :
    ∀ stmt ∈ stmts, stmt.cut = false := by
  obtain ⟨stmts1, C2, Pos2, h1, hw⟩ := genAdd_tagged.2 fields C VarName Pos ht
  rw [h1] at h
  injection h with h
  injection h with h2 h3
  exact h2 ▸ hw

/-- The record case of the builder walk over tagged fields: every line reaches the output. -/
theorem genAdd_record_ok {n : String} {fields : List (Field RSExportType)} {art : Bool}
    {s a : Nat} {C C1 : Context} {VarName : String} {stmts : List BuildStmt} {Pos : Nat}
    (ht : FieldsElementTagged fields = true)
    (h : genAddFields C fields VarName 0 = .ok (stmts, C1, Pos)) :
    genAddElementToElementBuilder C (.Record n fields art s a) VarName =
      .ok (stmts ++ (genAddPaddingToElementBuiler C1 (subSizeT s Pos)).1,
        (genAddPaddingToElementBuiler C1 (subSizeT s Pos)).2) := by
  have hall := whole_append (genAddFields_whole_of_ok ht h)
    (genAddPadding_whole (subSizeT s Pos) C1)
  simp [genAddElementToElementBuilder, GetBuiltinElementConstruct, h, bind, Except.bind,
    pure, Except.pure, streamWritten_of_whole _ hall]

/-- One turn of the field loop of the builder walk over tagged fields: every line reaches
the output. -/
theorem genAddFields_cons_ok {F : Field RSExportType} {rest : List (Field RSExportType)}
    {C C2 C4 : Context} {VarName : String} {Pos Pos1 : Nat} {body tail : List BuildStmt}
    (htF : ElementTagged F.type = true) (htR : FieldsElementTagged rest = true)
    (hbody : genAddElementToElementBuilder
      (genAddPaddingToElementBuiler C (subSizeT F.offsetInParent Pos)).2 F.type
      (buildFieldName VarName F) = .ok (body, C2))
    (htail : genAddFields
      (genAddPaddingToElementBuiler C2
        (subSizeT (GetTypeAllocSize F.type) (GetTypeStoreSize F.type))).2 rest VarName
      (toPos (F.offsetInParent + GetTypeAllocSize F.type)) = .ok (tail, C4, Pos1)) :
    genAddFields C (F :: rest) VarName Pos =
      .ok ((genAddPaddingToElementBuiler C (subSizeT F.offsetInParent Pos)).1 ++ body ++
        (genAddPaddingToElementBuiler C2
          (subSizeT (GetTypeAllocSize F.type) (GetTypeStoreSize F.type))).1 ++ tail,
        C4, Pos1) := by
  have hall := whole_append (whole_append (whole_append
    (genAddPadding_whole (subSizeT F.offsetInParent Pos) C) (genAdd_whole_of_ok htF hbody))
    (genAddPadding_whole (subSizeT (GetTypeAllocSize F.type) (GetTypeStoreSize F.type)) C2))
    (genAddFields_whole_of_ok htR htail)
  simp [genAddFields, hbody, htail, bind, Except.bind, pure, Except.pure]
  simpa using streamWritten_of_whole _ hall

/-- Bytes the builder walk declares on a type whose records have their fields in order and
ending within their store size, and whose leaves are all tagged: the store size of the
type. -/
theorem genAdd_bytes :
    (∀ ET : RSExportType, ∀ (C : Context) (VarName : String),
      OffsetsOrdered withinStore ET = true → ElementTagged ET = true →
      ∃ stmts C1, genAddElementToElementBuilder C ET VarName = .ok (stmts, C1) ∧
        declaredBytes stmts = GetTypeStoreSize ET) ∧
    (∀ fields : List (Field RSExportType), ∀ (C : Context) (VarName : String)
        (Pos limit : Nat),
      limit < SIZE_MOD →
      FieldsOrdered withinStore fields Pos limit = true →
      FieldsElementTagged fields = true →
      ∃ stmts C1 Pos1, genAddFields C fields VarName Pos = .ok (stmts, C1, Pos1) ∧
        Pos1 = Pos + declaredBytes stmts ∧ Pos1 ≤ limit) := by
  have leaf : ∀ ET : RSExportType, ET.getClass ≠ .ExportClassRecord →
      ∀ (C : Context) (VarName : String), OffsetsOrdered withinStore ET = true →
      ElementTagged ET = true →
      ∃ stmts C1, genAddElementToElementBuilder C ET VarName = .ok (stmts, C1) ∧
        declaredBytes stmts = GetTypeStoreSize ET := by
    intro ET h C VarName _ _
    obtain ⟨e, he⟩ := genAdd_leaf C ET VarName h
    exact ⟨_, _, he, by simp [declaredBytes, BuildStmt.declared]⟩
  apply walk_induction
  · intro n t k s a; exact leaf _ (by simp [RSExportType.getClass])
  · intro n t k e s a; exact leaf _ (by simp [RSExportType.getClass])
  · intro n t k s a; exact leaf _ (by simp [RSExportType.getClass])
  · intro n p s a; exact leaf _ (by simp [RSExportType.getClass])
  · intro n fields art s a ih C VarName ho hT
    simp only [OffsetsOrdered, withinStore, Bool.and_eq_true, decide_eq_true_eq] at ho
    have hT : FieldsElementTagged fields = true := by simpa [ElementTagged] using hT
    obtain ⟨stmts, C1, Pos1, hrun, hpos, hle⟩ := ih C VarName 0 s ho.1 ho.2 hT
    refine ⟨stmts ++ (genAddPaddingToElementBuiler C1 (subSizeT s Pos1)).1,
      (genAddPaddingToElementBuiler C1 (subSizeT s Pos1)).2, genAdd_record_ok hT hrun, ?_⟩
    rw [declaredBytes_append, genAddPadding_declared, subSizeT_of_le s Pos1 hle ho.1]
    simp only [GetTypeStoreSize]
    omega
  · intro C VarName Pos limit _ ho _
    exact ⟨[], C, Pos, rfl, by simp [declaredBytes], by simpa [FieldsOrdered] using ho⟩
  · intro F rest ihF ihR C VarName Pos limit hlim ho hT
    simp only [FieldsOrdered, Bool.and_eq_true, decide_eq_true_eq] at ho
    simp only [FieldsElementTagged, Bool.and_eq_true] at hT
    obtain ⟨⟨⟨hpo, hsa⟩, hoF⟩, hoR⟩ := ho
    have hend := FieldsOrdered_le _ _ _ _ hoR
    have hnext : toPos (F.offsetInParent + GetTypeAllocSize F.type) =
        F.offsetInParent + GetTypeAllocSize F.type := toPos_of_lt _ (by omega)
    obtain ⟨body, C2, hbody, hbytes⟩ :=
      ihF (genAddPaddingToElementBuiler C (subSizeT F.offsetInParent Pos)).2
        (buildFieldName VarName F) hoF hT.1
    obtain ⟨tail, C4, Pos1, htail, hpos1, hle1⟩ :=
      ihR (genAddPaddingToElementBuiler C2
          (subSizeT (GetTypeAllocSize F.type) (GetTypeStoreSize F.type))).2
        VarName (F.offsetInParent + GetTypeAllocSize F.type) limit hlim hoR hT.2
    refine ⟨(genAddPaddingToElementBuiler C (subSizeT F.offsetInParent Pos)).1 ++ body ++
        (genAddPaddingToElementBuiler C2
          (subSizeT (GetTypeAllocSize F.type) (GetTypeStoreSize F.type))).1 ++ tail,
      C4, Pos1, genAddFields_cons_ok hT.1 hT.2 hbody (by rw [hnext]; exact htail), ?_, hle1⟩
    rw [declaredBytes_append, declaredBytes_append, declaredBytes_append,
      genAddPadding_declared, genAddPadding_declared, hbytes,
      subSizeT_of_le _ _ hpo (by omega), subSizeT_of_le _ _ hsa (by omega), hpos1]
    omega

/-- The builder walk never fails: the fatal branch for a pointer is not reached. -/
theorem genAdd_total :
    (∀ ET : RSExportType, ∀ (C : Context) (VarName : String),
      ∃ r, genAddElementToElementBuilder C ET VarName = .ok r) ∧
    (∀ fields : List (Field RSExportType), ∀ (C : Context) (VarName : String) (Pos : Nat),
      ∃ r, genAddFields C fields VarName Pos = .ok r) := by
  have leaf : ∀ ET : RSExportType, ET.getClass ≠ .ExportClassRecord →
      ∀ (C : Context) (VarName : String),
      ∃ r, genAddElementToElementBuilder C ET VarName = .ok r := by
    intro ET h C VarName
    obtain ⟨e, he⟩ := genAdd_leaf C ET VarName h
    exact ⟨_, he⟩
  apply walk_induction
  · intro n t k s a; exact leaf _ (by simp [RSExportType.getClass])
  · intro n t k e s a; exact leaf _ (by simp [RSExportType.getClass])
  · intro n t k s a; exact leaf _ (by simp [RSExportType.getClass])
  · intro n p s a; exact leaf _ (by simp [RSExportType.getClass])
  · intro n fields art s a ih C VarName
    obtain ⟨⟨stmts, C1, Pos1⟩, hrun⟩ := ih C VarName 0
    simp [genAddElementToElementBuilder, GetBuiltinElementConstruct, hrun, bind, Except.bind,
      pure, Except.pure]
  · intro C VarName Pos
    exact ⟨_, rfl⟩
  · intro F rest ihF ihR C VarName Pos
    obtain ⟨⟨body, C2⟩, hbody⟩ :=
      ihF (genAddPaddingToElementBuiler C (subSizeT F.offsetInParent Pos)).2
        (buildFieldName VarName F)
    obtain ⟨⟨tail, C4, Pos1⟩, htail⟩ :=
      ihR (genAddPaddingToElementBuiler C2
          (subSizeT (GetTypeAllocSize F.type) (GetTypeStoreSize F.type))).2
        VarName (toPos (F.offsetInParent + GetTypeAllocSize F.type))
    simp [genAddFields, hbody, htail, bind, Except.bind, pure, Except.pure]


/-! ## Padding inserted by the two walks -/

theorem PaddingAligned.nil : PaddingAligned [] [] := by
  intro d acc rp rb h
  simpa using h acc

theorem PaddingAligned.append {p1 b1 p2 b2 : List (Option Nat)}
    (h1 : PaddingAligned p1 b1) (h2 : PaddingAligned p2 b2) :
    PaddingAligned (p1 ++ p2) (b1 ++ b2) := by
  intro d acc rp rb h
  rw [List.append_assoc, List.append_assoc]
  exact h1 d acc _ _ (fun a => h2 d a rp rb h)

theorem PaddingAligned.field : PaddingAligned [none] [none] := by
  intro d acc rp rb h
  obtain ⟨gs, g, h1, h2⟩ := h 0
  exact ⟨acc :: gs, g, by simp [paddingGaps, h1], by simp [paddingGaps, h2]⟩

theorem paddingGaps_skip_if (c : Prop) [Decidable c] (n acc : Nat) (r : List (Option Nat)) :
    paddingGaps acc ((if c then [PackStmt.skip n] else []).map PackStmt.padding? ++ r) =
      paddingGaps (acc + if c then n else 0) r := by
  split <;> simp [paddingGaps, PackStmt.padding?]

theorem paddingGaps_genAddPadding (S : Nat) : ∀ (C : Context) (acc : Nat)
    (r : List (Option Nat)),
    paddingGaps acc ((genAddPaddingToElementBuiler C S).1.map BuildStmt.padding? ++ r) =
      paddingGaps (acc + S) r := by
  induction S using Nat.strong_induction_on with
  | _ S ih =>
    intro C acc r
    by_cases h4 : 4 ≤ S
    · rw [genAddPadding_ge4 C S h4]
      have e : acc + 4 + (S - 4) = acc + S := by omega
      simp only [List.map_cons, List.cons_append, BuildStmt.padding?, PadChunk.bytes]
      rw [paddingGaps, ih (S - 4) (by omega), e]
    · have hS : S = 0 ∨ S = 1 ∨ S = 2 ∨ S = 3 := by omega
      rcases hS with h | h | h | h
      · subst h; rw [genAddPadding_zero]; rfl
      · subst h; rw [genAddPadding_one]; rfl
      · subst h
        rw [genAddPadding_ge2 _ _ (Or.inl rfl)]
        simp [genAddPadding_zero, BuildStmt.padding?, PadChunk.bytes, paddingGaps]
      · subst h
        rw [genAddPadding_ge2 _ _ (Or.inr rfl)]
        simp [genAddPadding_one, BuildStmt.padding?, PadChunk.bytes, paddingGaps, Nat.add_assoc]

/-- A conditional skip of the packer and a padding run of the builder of the same size are
aligned. -/
theorem PaddingAligned.padding (c : Prop) [Decidable c] (n S : Nat) (C : Context)
    (h : (if c then n else 0) = S) :
    PaddingAligned ((if c then [PackStmt.skip n] else []).map PackStmt.padding?)
      ((genAddPaddingToElementBuiler C S).1.map BuildStmt.padding?) := by
  intro d acc rp rb hr
  rw [paddingGaps_skip_if, paddingGaps_genAddPadding, h]
  exact hr _

/-- On a well laid out type all of whose records have no trailing padding, the packer walk
and the builder walk both succeed and their lines are aligned. -/
theorem walks_aligned :
    (∀ ET : RSExportType, ∀ (VarName : Option String) (C : Context) (V : String),
      (ET.getClass = .ExportClassRecord ∨ VarName.isSome = true) →
      OffsetsOrdered withinStore ET = true → PackerAPIMapped ET = true →
      NestedRecordsTight ET = true →
      (ET.getClass = .ExportClassRecord → GetTypeStoreSize ET = GetTypeAllocSize ET) →
      ElementTagged ET = true →
      ∃ ps bs C1, genPackVarOfType ET VarName = .ok ps ∧
        genAddElementToElementBuilder C ET V = .ok (bs, C1) ∧
        PaddingAligned (ps.map PackStmt.padding?) (bs.map BuildStmt.padding?)) ∧
    (∀ fields : List (Field RSExportType), ∀ (VarName : Option String) (C : Context)
        (V : String) (Pos limit : Nat),
      limit < SIZE_MOD →
      FieldsOrdered withinStore fields Pos limit = true →
      FieldsPackerAPIMapped fields = true → FieldRecordsTight fields = true →
      FieldsElementTagged fields = true →
      ∃ ps bs C1 Pos1, genPackFields fields VarName Pos = .ok (ps, Pos1) ∧
        genAddFields C fields V Pos = .ok (bs, C1, Pos1) ∧
        PaddingAligned (ps.map PackStmt.padding?) (bs.map BuildStmt.padding?) ∧
        Pos1 ≤ limit) := by
  have leaf : ∀ ET : RSExportType, ET.getClass ≠ .ExportClassRecord →
      ∀ (VarName : Option String) (C : Context) (V : String),
      (ET.getClass = .ExportClassRecord ∨ VarName.isSome = true) →
      OffsetsOrdered withinStore ET = true → PackerAPIMapped ET = true →
      NestedRecordsTight ET = true →
      (ET.getClass = .ExportClassRecord → GetTypeStoreSize ET = GetTypeAllocSize ET) →
      ElementTagged ET = true →
      ∃ ps bs C1, genPackVarOfType ET VarName = .ok ps ∧
        genAddElementToElementBuilder C ET V = .ok (bs, C1) ∧
        PaddingAligned (ps.map PackStmt.padding?) (bs.map BuildStmt.padding?) := by
    intro ET hcl VarName C V hv _ hm _ _ _
    obtain ⟨e, he⟩ := genAdd_leaf C ET V hcl
    have hv2 : VarName.isSome = true := hv.resolve_left hcl
    obtain ⟨v, rfl⟩ := Option.isSome_iff_exists.mp hv2
    have hp : ∃ api arg, genPackVarOfType ET (some v) = .ok [.write api arg (GetTypeStoreSize ET)] := by
      cases ET with
      | Primitive n t k s a =>
        obtain ⟨api, hapi⟩ := streamPackerAPIName_of_isSome t (by simpa [PackerAPIMapped] using hm)
        exact ⟨api, v, by simp [genPackVarOfType, hapi, streamVarName, bind, Except.bind, pure, Except.pure, GetTypeStoreSize]⟩
      | Vector n t k e s a =>
        obtain ⟨api, hapi⟩ := streamPackerAPIName_of_isSome t (by simpa [PackerAPIMapped] using hm)
        exact ⟨api, v, by simp [genPackVarOfType, hapi, streamVarName, bind, Except.bind, pure, Except.pure, GetTypeStoreSize]⟩
      | ConstantArray n t k s a =>
        by_cases hn : n = "addObj"
        · exact ⟨"addObj", v, by simp [genPackVarOfType, hn, streamVarName, bind, Except.bind, pure, Except.pure, GetTypeStoreSize]⟩
        · obtain ⟨api, hapi⟩ := streamPackerAPIName_of_isSome t (by simpa [PackerAPIMapped, hn] using hm)
          exact ⟨api, v, by simp [genPackVarOfType, hn, hapi, streamVarName, bind, Except.bind, pure, Except.pure, GetTypeStoreSize]⟩
      | Pointer n p s a =>
        by_cases hc : p.getClass = .ExportClassRecord
        · exact ⟨"addI32", v ++ ".getAllocation().getPtr()", by simp [genPackVarOfType, hc, streamVarName, bind, Except.bind, pure, Except.pure, GetTypeStoreSize]⟩
        · exact ⟨"addI32", v ++ ".getPtr()", by simp [genPackVarOfType, hc, streamVarName, bind, Except.bind, pure, Except.pure, GetTypeStoreSize]⟩
      | Record n f art s a => simp [RSExportType.getClass] at hcl
    obtain ⟨api, arg, hp⟩ := hp
    exact ⟨_, _, _, hp, he, by simpa [PackStmt.padding?, BuildStmt.padding?] using PaddingAligned.field⟩
  apply walk_induction
  · intro n t k s a; exact leaf _ (by simp [RSExportType.getClass])
  · intro n t k e s a; exact leaf _ (by simp [RSExportType.getClass])
  · intro n t k s a; exact leaf _ (by simp [RSExportType.getClass])
  · intro n p s a; exact leaf _ (by simp [RSExportType.getClass])
  · intro n fields art s a ih VarName C V _ ho hm ht hsa hT
    simp only [OffsetsOrdered, withinStore, Bool.and_eq_true, decide_eq_true_eq] at ho
    have hsa : s = a := by simpa [GetTypeStoreSize, GetTypeAllocSize] using hsa rfl
    subst hsa
    have hT : FieldsElementTagged fields = true := by simpa [ElementTagged] using hT
    obtain ⟨ps, bs, C1, Pos1, hp, hb, hal, hle⟩ := ih VarName C V 0 s ho.1 ho.2
      (by simpa [PackerAPIMapped] using hm) (by simpa [NestedRecordsTight] using ht) hT
    refine ⟨ps ++ (if subSizeT s Pos1 > 0 then [.skip (subSizeT s Pos1)] else []),
      bs ++ (genAddPaddingToElementBuiler C1 (subSizeT s Pos1)).1,
      (genAddPaddingToElementBuiler C1 (subSizeT s Pos1)).2, ?_, genAdd_record_ok hT hb, ?_⟩
    · simp [genPackVarOfType, hp, bind, Except.bind, pure, Except.pure]
    · rw [List.map_append, List.map_append]
      refine hal.append (PaddingAligned.padding _ _ _ _ ?_)
      split <;> omega
  · intro VarName C V Pos limit _ ho _ _ _
    exact ⟨[], [], C, Pos, rfl, rfl, PaddingAligned.nil, by simpa [FieldsOrdered] using ho⟩
  · intro F rest ihF ihR VarName C V Pos limit hlim ho hm ht hT
    simp only [FieldsOrdered, Bool.and_eq_true, decide_eq_true_eq] at ho
    simp only [FieldsElementTagged, Bool.and_eq_true] at hT
    simp only [FieldsPackerAPIMapped, Bool.and_eq_true] at hm
    simp only [FieldRecordsTight, Bool.and_eq_true, Bool.or_eq_true, decide_eq_true_eq] at ht
    obtain ⟨⟨⟨hpo, hsa⟩, hoF⟩, hoR⟩ := ho
    have hend := FieldsOrdered_le _ _ _ _ hoR
    have hnext : toPos (F.offsetInParent + GetTypeAllocSize F.type) =
        F.offsetInParent + GetTypeAllocSize F.type := toPos_of_lt _ (by omega)
    obtain ⟨pbody, bbody, C2, hpb, hbb, halb⟩ :=
      ihF (some (packFieldName VarName F))
        (genAddPaddingToElementBuiler C (subSizeT F.offsetInParent Pos)).2
        (buildFieldName V F) (Or.inr rfl) hoF hm.1 ht.1.2
        (fun hc => ht.1.1.resolve_left (fun hne => hne hc)) hT.1
    obtain ⟨ptail, btail, C4, Pos1, hpt, hbt, halt, hle1⟩ :=
      ihR VarName
        (genAddPaddingToElementBuiler C2
          (subSizeT (GetTypeAllocSize F.type) (GetTypeStoreSize F.type))).2
        V (F.offsetInParent + GetTypeAllocSize F.type) limit hlim hoR hm.2 ht.2 hT.2
    refine ⟨(if F.offsetInParent > Pos then [.skip (subSizeT F.offsetInParent Pos)] else []) ++
        pbody ++
        (if GetTypeAllocSize F.type > GetTypeStoreSize F.type then
          [.skip (subSizeT (GetTypeAllocSize F.type) (GetTypeStoreSize F.type))] else []) ++
        ptail,
      (genAddPaddingToElementBuiler C (subSizeT F.offsetInParent Pos)).1 ++ bbody ++
        (genAddPaddingToElementBuiler C2
          (subSizeT (GetTypeAllocSize F.type) (GetTypeStoreSize F.type))).1 ++ btail,
      C4, Pos1, ?_, genAddFields_cons_ok hT.1 hT.2 hbb (by rw [hnext]; exact hbt), ?_, hle1⟩
    · simp [genPackFields, hpb, hnext, hpt, bind, Except.bind, pure, Except.pure]
    · simp only [List.map_append]
      refine PaddingAligned.append (PaddingAligned.append (PaddingAligned.append ?_ halb) ?_) halt
      · refine PaddingAligned.padding _ _ _ _ ?_
        rw [subSizeT_of_le _ _ hpo (by omega)]
        split <;> omega
      · refine PaddingAligned.padding _ _ _ _ ?_
        rw [subSizeT_of_le _ _ hsa (by omega)]
        split <;> omega


/-! ## Evaluation of the walks on the example types -/

theorem genPack_exampleRecord :
    genPackVarOfType exampleRecord none =
      .ok [.write "addF32" "x" 4, .write "addU8" "flag" 1, .skip 3, .write "addF32" "y" 4] :=
  rfl

theorem genPack_paddedRecord :
    genPackVarOfType paddedRecord none =
      .ok [.write "addI32" "a" 4, .write "addU8" "b" 1, .skip 3] := rfl

theorem genPack_outerRecord :
    genPackVarOfType outerRecord none =
      .ok [.write "addI32" "s.a" 4, .write "addU8" "s.b" 1, .skip 3, .skip 3] := rfl

theorem genAdd_paddedRecord (C : Context) :
    genAddElementToElementBuilder C paddedRecord "" =
      .ok ([.add (.construct "I32") "a" 4, .add (.construct "U8") "b" 1], C) := by
  have e0 : subSizeT 0 0 = 0 := rfl
  have e1 : subSizeT 4 4 = 0 := rfl
  have e2 : subSizeT 4 (toPos (0 + 4)) = 0 := rfl
  have e3 : subSizeT 1 1 = 0 := rfl
  have e4 : subSizeT 5 (toPos (4 + 1)) = 0 := rfl
  have b1 : GetBuiltinElementConstructPrimitive DataTypeSigned32 DataKindUser = some "I32" :=
    rfl
  have b2 : GetBuiltinElementConstructPrimitive DataTypeUnsigned8 DataKindUser = some "U8" :=
    rfl
  simp [paddedRecord, genAddElementToElementBuilder, genAddFields, int32Field, uint8Field,
    GetBuiltinElementConstruct, GetTypeStoreSize, GetTypeAllocSize, e0, e1, e2, e3, e4,
    genAddPadding_zero, buildFieldName, b1, b2]
  simp only [streamWritten, BuildStmt.cut, ElementExpr.cut, Bool.false_eq_true, if_false]
  rfl

theorem genAdd_exampleRecord (C : Context) :
    genAddElementToElementBuilder C exampleRecord "" =
      .ok ([.add (.construct "F32") "x" 4, .add (.construct "U8") "flag" 1,
          .addPadding .U16 C.createPaddingField.1,
          .addPadding .U8 C.createPaddingField.2.createPaddingField.1,
          .add (.construct "F32") "y" 4],
        C.createPaddingField.2.createPaddingField.2) := by
  have e0 : subSizeT 0 0 = 0 := rfl
  have e1 : subSizeT 4 4 = 0 := rfl
  have e2 : subSizeT 4 (toPos (0 + 4)) = 0 := rfl
  have e3 : subSizeT 1 1 = 0 := rfl
  have e4 : subSizeT 8 (toPos (4 + 1)) = 3 := rfl
  have e5 : subSizeT 12 (toPos (8 + 4)) = 0 := rfl
  have b1 : GetBuiltinElementConstructPrimitive DataTypeFloat32 DataKindUser = some "F32" :=
    rfl
  have b2 : GetBuiltinElementConstructPrimitive DataTypeUnsigned8 DataKindUser = some "U8" :=
    rfl
  simp [exampleRecord, genAddElementToElementBuilder, genAddFields, float32Field, uint8Field,
    GetBuiltinElementConstruct, GetTypeStoreSize, GetTypeAllocSize, e0, e1, e2, e3, e4, e5,
    genAddPadding_zero, genAddPadding_ge2, genAddPadding_one, Context.createPaddingField,
    buildFieldName, b1, b2]
  simp only [streamWritten, BuildStmt.cut, ElementExpr.cut, Bool.false_eq_true, if_false]
  rfl

theorem string_append_left_cancel (v a b : String) (h : v ++ a = v ++ b) : a = b := by
  have h1 := congrArg String.data h
  simp only [String.data_append] at h1
  exact String.ext (List.append_cancel_left h1)

/-! ## The claims -/

/-- C1, as stated, fails on two inputs whose records have their fields in increasing,
non-overlapping offset order ending within their alloc size.  On `outerRecord` the packer
walk consumes 11 bytes for the alloc size 8: the trailing padding of the nested record is
skipped both by the nested walk and after the field.  On `unmappedRecord`, whose field has a
data type outside the packer table, the walk stops with the fatal error of
`GetPackerAPIName` and emits no complete statement sequence. -/
theorem genPackVarOfType_allocSize_counterexample :
    (OffsetsOrdered withinAlloc outerRecord = true ∧
      genPackVarOfType outerRecord none =
        .ok [.write "addI32" "s.a" 4, .write "addU8" "s.b" 1, .skip 3, .skip 3] ∧
      packedBytes [.write "addI32" "s.a" 4, .write "addU8" "s.b" 1, .skip 3, .skip 3] = 11 ∧
      GetTypeAllocSize outerRecord = 8) ∧
    (OffsetsOrdered withinAlloc unmappedRecord = true ∧
      genPackVarOfType unmappedRecord none =
        .error "GetPackerAPIName : Unknown primitive data type") :=
  ⟨⟨by decide, genPack_outerRecord, by decide, rfl⟩, by decide, rfl⟩

/-- C1, amended: for every record type whose fields, at every depth, are in increasing,
non-overlapping offset order and end within the alloc size of their record, whose leaves
have a packer write method, and whose record-typed fields have a store size equal to their
alloc size, the statements `genPackVarOfType` emits consume exactly the alloc size of the
record, a write counting as the store size of the type written and `skip(n)` as `n`. -/
theorem genPackVarOfType_consumes_allocSize (name : String)
    (fields : List (Field RSExportType)) (artificial : Bool) (storeSize allocSize : Nat)
    (VarName : Option String)
    (hOrdered :
      OffsetsOrdered withinAlloc (.Record name fields artificial storeSize allocSize) = true)
    (hMapped : PackerAPIMapped (.Record name fields artificial storeSize allocSize) = true)
    (hTight :
      NestedRecordsTight (.Record name fields artificial storeSize allocSize) = true) :
    ∃ stmts,
      genPackVarOfType (.Record name fields artificial storeSize allocSize) VarName =
        .ok stmts ∧
      packedBytes stmts = allocSize := by
  obtain ⟨stmts, h1, h2⟩ := genPack_bytes.1
    (.Record name fields artificial storeSize allocSize) VarName (Or.inl rfl) hOrdered hMapped
    hTight
  exact ⟨stmts, h1, by simpa [RSExportType.getClass, GetTypeAllocSize] using h2⟩

/-- Witness of C1 (amended) on `nestedRecord`, a record with a nested record and trailing
padding. -/
theorem genPackVarOfType_consumes_allocSize_witness :
    OffsetsOrdered withinAlloc nestedRecord = true ∧
      PackerAPIMapped nestedRecord = true ∧ NestedRecordsTight nestedRecord = true ∧
      ∃ stmts, genPackVarOfType nestedRecord none = .ok stmts ∧ packedBytes stmts = 16 :=
  ⟨by decide, by decide, by decide,
    genPackVarOfType_consumes_allocSize "Nested" [⟨"p", exampleRecord, 0⟩, uint8Field "c" 12]
      false 13 16 none (by decide) (by decide) (by decide)⟩

/-- C2, as stated, fails: the fields of `paddedRecord` are in increasing, non-overlapping
offset order and end within its alloc size 8, yet the builder walk declares 5 bytes, its
store size. -/
theorem genAddElementToElementBuilder_allocSize_counterexample :
    OffsetsOrdered withinAlloc paddedRecord = true ∧
      genAddElementToElementBuilder ⟨1, 0, 0⟩ paddedRecord "" =
        .ok ([.add (.construct "I32") "a" 4, .add (.construct "U8") "b" 1], ⟨1, 0, 0⟩) ∧
      declaredBytes [.add (.construct "I32") "a" 4, .add (.construct "U8") "b" 1] = 5 ∧
      GetTypeAllocSize paddedRecord = 8 :=
  ⟨by decide, genAdd_paddedRecord ⟨1, 0, 0⟩, by decide, rfl⟩

/-- C2, amended: for every record type whose fields, at every depth, are in increasing,
non-overlapping offset order and end within the store size of their record, and whose
leaves, at every depth, have a one-call constructor or a generic constructor with no null
tag (`ElementTagged`: no leaf such as a user `double` or `long`, whose data-type tag is
null), the lines of the builder walk all reach the output with their full text, and the
fields they declare add up to exactly the store size of the record; they add up to its alloc
size exactly when the two sizes are equal. -/
theorem genAddElementToElementBuilder_declares_storeSize (name : String)
    (fields : List (Field RSExportType)) (artificial : Bool) (storeSize allocSize : Nat)
    (C : Context) (VarName : String)
    (hOrdered :
      OffsetsOrdered withinStore (.Record name fields artificial storeSize allocSize) = true)
    (hTagged : ElementTagged (.Record name fields artificial storeSize allocSize) = true) :
    ∃ stmts C1,
      genAddElementToElementBuilder C (.Record name fields artificial storeSize allocSize)
        VarName = .ok (stmts, C1) ∧
      (∀ stmt ∈ stmts, stmt.cut = false ∧ (stmt.render "eb" "rs").isSome = true) ∧
      declaredBytes stmts = storeSize ∧
      (declaredBytes stmts = allocSize ↔ storeSize = allocSize) := by
  obtain ⟨stmts, C1, h1, h2⟩ := genAdd_bytes.1 _ C VarName hOrdered hTagged
  simp only [GetTypeStoreSize] at h2
  exact ⟨stmts, C1, h1,
    fun stmt hs => ⟨genAdd_whole_of_ok hTagged h1 stmt hs,
      render_isSome_of_whole stmt "eb" "rs" (genAdd_whole_of_ok hTagged h1 stmt hs)⟩,
    h2, by rw [h2]⟩

/-- Witness of C2 (amended) on `exampleRecord`, whose store and alloc sizes are both 12. -/
theorem genAddElementToElementBuilder_declares_storeSize_witness :
    OffsetsOrdered withinStore exampleRecord = true ∧ ElementTagged exampleRecord = true ∧
      ∃ stmts C1, genAddElementToElementBuilder ⟨1, 0, 0⟩ exampleRecord "" = .ok (stmts, C1) ∧
        (∀ stmt ∈ stmts, stmt.cut = false ∧ (stmt.render "eb" "rs").isSome = true) ∧
        declaredBytes stmts = 12 ∧ (declaredBytes stmts = 12 ↔ (12 : Nat) = 12) :=
  ⟨by decide, by decide,
    genAddElementToElementBuilder_declares_storeSize "Example"
      [float32Field "x" 0, uint8Field "flag" 4, float32Field "y" 8] false 12 12 ⟨1, 0, 0⟩ ""
      (by decide) (by decide)⟩

/-- C3, as stated, fails: after the last field of `paddedRecord` the packer walk skips 3
bytes and the builder walk declares no padding field. -/
theorem padding_walks_counterexample :
    genPackVarOfType paddedRecord none =
        .ok [.write "addI32" "a" 4, .write "addU8" "b" 1, .skip 3] ∧
      genAddElementToElementBuilder ⟨1, 0, 0⟩ paddedRecord "" =
        .ok ([.add (.construct "I32") "a" 4, .add (.construct "U8") "b" 1], ⟨1, 0, 0⟩) ∧
      packPaddingProfile [.write "addI32" "a" 4, .write "addU8" "b" 1, .skip 3] = [0, 0, 3] ∧
      buildPaddingProfile [.add (.construct "I32") "a" 4, .add (.construct "U8") "b" 1] =
        [0, 0, 0] :=
  ⟨genPack_paddedRecord, genAdd_paddedRecord ⟨1, 0, 0⟩, by decide, by decide⟩

/-- C3, amended: for every record type whose fields, at every depth, are in increasing,
non-overlapping offset order and end within the store size of their record, whose store
size is at most its alloc size, whose leaves have a packer write method and, in the builder,
a one-call constructor or a generic constructor with no null tag (`ElementTagged`: no leaf
such as a user `double` or `long`), and whose record-typed fields have a store size equal to
their alloc size, both walks succeed, every line of the builder walk reaches the output with
its full text, and the two walks insert the same bytes of padding before the first field and
between any two consecutive fields; after the last field the packer skips exactly
`allocSize - storeSize` bytes more than the builder declares. -/
theorem padding_walks_agree (name : String) (fields : List (Field RSExportType))
    (artificial : Bool) (storeSize allocSize : Nat) (VarName : Option String) (C : Context)
    (V : String)
    (hOrdered :
      OffsetsOrdered withinStore (.Record name fields artificial storeSize allocSize) = true)
    (hSize : storeSize ≤ allocSize)
    (hRep : allocSize < SIZE_MOD)
    (hMapped : PackerAPIMapped (.Record name fields artificial storeSize allocSize) = true)
    (hTagged : ElementTagged (.Record name fields artificial storeSize allocSize) = true)
    (hTight :
      NestedRecordsTight (.Record name fields artificial storeSize allocSize) = true) :
    ∃ ps bs C1,
      genPackVarOfType (.Record name fields artificial storeSize allocSize) VarName =
        .ok ps ∧
      genAddElementToElementBuilder C (.Record name fields artificial storeSize allocSize) V =
        .ok (bs, C1) ∧
      (∀ stmt ∈ bs, stmt.cut = false ∧ (stmt.render "eb" "rs").isSome = true) ∧
      ∃ gs g, buildPaddingProfile bs = gs ++ [g] ∧
        packPaddingProfile ps = gs ++ [g + (allocSize - storeSize)] := by
  simp only [OffsetsOrdered, withinStore, Bool.and_eq_true, decide_eq_true_eq] at hOrdered
  have hT : FieldsElementTagged fields = true := by simpa [ElementTagged] using hTagged
  obtain ⟨ps, bs, C1, Pos1, hp, hb, hal, hle⟩ :=
    walks_aligned.2 fields VarName C V 0 storeSize hOrdered.1 hOrdered.2
      (by simpa [PackerAPIMapped] using hMapped) (by simpa [NestedRecordsTight] using hTight)
      hT
  have hrun : genAddElementToElementBuilder C
      (.Record name fields artificial storeSize allocSize) V =
      .ok (bs ++ (genAddPaddingToElementBuiler C1 (subSizeT storeSize Pos1)).1,
        (genAddPaddingToElementBuiler C1 (subSizeT storeSize Pos1)).2) :=
    genAdd_record_ok hT hb
  refine ⟨ps ++ (if subSizeT allocSize Pos1 > 0 then [.skip (subSizeT allocSize Pos1)]
      else []),
    bs ++ (genAddPaddingToElementBuiler C1 (subSizeT storeSize Pos1)).1,
    (genAddPaddingToElementBuiler C1 (subSizeT storeSize Pos1)).2, ?_, hrun,
    fun stmt hs => ⟨genAdd_whole_of_ok hTagged hrun stmt hs,
      render_isSome_of_whole stmt "eb" "rs" (genAdd_whole_of_ok hTagged hrun stmt hs)⟩, ?_⟩
  · simp [genPackVarOfType, hp, bind, Except.bind, pure, Except.pure]
  · have key := hal (allocSize - storeSize) 0
      ((if subSizeT allocSize Pos1 > 0 then [PackStmt.skip (subSizeT allocSize Pos1)]
        else []).map PackStmt.padding?)
      ((genAddPaddingToElementBuiler C1 (subSizeT storeSize Pos1)).1.map BuildStmt.padding?)
      (by
        intro acc
        have h1 := paddingGaps_skip_if (subSizeT allocSize Pos1 > 0)
          (subSizeT allocSize Pos1) acc []
        have h2 := paddingGaps_genAddPadding (subSizeT storeSize Pos1) C1 acc []
        simp only [List.append_nil] at h1 h2
        rw [h1, h2, subSizeT_of_le allocSize Pos1 (by omega) hRep,
          subSizeT_of_le storeSize Pos1 hle (by omega)]
        refine ⟨[], acc + (storeSize - Pos1), by simp [paddingGaps], ?_⟩
        simp only [paddingGaps, List.nil_append, List.cons.injEq, and_true]
        split <;> omega)
    obtain ⟨gs, g, hg1, hg2⟩ := key
    exact ⟨gs, g, by simpa [buildPaddingProfile] using hg1,
      by simpa [packPaddingProfile] using hg2⟩

/-- Witness of C3 (amended) on `nestedRecord`, of store size 13 and alloc size 16. -/
theorem padding_walks_agree_witness :
    OffsetsOrdered withinStore nestedRecord = true ∧ (13 : Nat) ≤ 16 ∧ 16 < SIZE_MOD ∧
      PackerAPIMapped nestedRecord = true ∧ ElementTagged nestedRecord = true ∧
      NestedRecordsTight nestedRecord = true ∧
      ∃ ps bs C1, genPackVarOfType nestedRecord none = .ok ps ∧
        genAddElementToElementBuilder ⟨1, 0, 0⟩ nestedRecord "" = .ok (bs, C1) ∧
        (∀ stmt ∈ bs, stmt.cut = false ∧ (stmt.render "eb" "rs").isSome = true) ∧
        ∃ gs g, buildPaddingProfile bs = gs ++ [g] ∧
          packPaddingProfile ps = gs ++ [g + (16 - 13)] :=
  ⟨by decide, by decide, by decide, by decide, by decide, by decide,
    padding_walks_agree "Nested" [⟨"p", exampleRecord, 0⟩, uint8Field "c" 12] false 13 16
      none ⟨1, 0, 0⟩ "" (by decide) (by decide) (by decide) (by decide) (by decide)
      (by decide)⟩

/-- C4, as stated, fails: on `exampleRecord` the packer walk does not emit the sequence
ending in `skip(0)`. -/
theorem genPackVarOfType_example_counterexample :
    genPackVarOfType exampleRecord none ≠
      .ok [.write "addF32" "x" 4, .write "addU8" "flag" 1, .skip 3, .write "addF32" "y" 4,
        .skip 0] := by
  rw [genPack_exampleRecord]
  simp

/-- C4, amended: for the record `{float32 x at 0; uint8 flag at 4; float32 y at 8}` of
alloc size 12, `genPackVarOfType` emits exactly write-f32(x), write-u8(flag), skip(3),
write-f32(y), and no trailing skip, the trailing padding being 0; the lines written for a
packer named `fp` are given. -/
theorem genPackVarOfType_example :
    genPackVarOfType exampleRecord none =
        .ok [.write "addF32" "x" 4, .write "addU8" "flag" 1, .skip 3,
          .write "addF32" "y" 4] ∧
      (genPackVarOfType exampleRecord none).map (List.map (PackStmt.render "fp")) =
        .ok ["fp.addF32(x);", "fp.addU8(flag);", "fp.skip(3);", "fp.addF32(y);"] :=
  ⟨genPack_exampleRecord, by rw [genPack_exampleRecord]; rfl⟩

/-- C5: for the record `{float32 x at 0; uint8 flag at 4; float32 y at 8}` of alloc size 12
the builder walk emits exactly, in this order: the add of the user float32 field `x`, the
add of the user uint8 field `flag`, one 2-byte padding field, one 1-byte padding field, the
add of the user float32 field `y`; the two padding fields take the next two names of `createPaddingField`. -/
theorem genAddElementToElementBuilder_example (C : Context) :
    genAddElementToElementBuilder C exampleRecord "" =
      .ok ([.add (.construct "F32") "x" 4, .add (.construct "U8") "flag" 1,
          .addPadding .U16 C.createPaddingField.1,
          .addPadding .U8 C.createPaddingField.2.createPaddingField.1,
          .add (.construct "F32") "y" 4],
        C.createPaddingField.2.createPaddingField.2) :=
  genAdd_exampleRecord C

/-- C8: for every pointer type `genPackVarOfType` emits exactly one statement, an `addI32`
write, whose argument is `<var>.getAllocation().getPtr()` iff the pointee is a record and
`<var>.getPtr()` iff it is not; nothing is emitted for the pointee. -/
theorem genPackVarOfType_pointer (name : String) (PointeeType : RSExportType)
    (storeSize allocSize : Nat) (VarName : String) :
    ∃ arg, genPackVarOfType (.Pointer name PointeeType storeSize allocSize) (some VarName) =
        .ok [.write "addI32" arg storeSize] ∧
      (arg = VarName ++ ".getAllocation().getPtr()" ↔
        PointeeType.getClass = .ExportClassRecord) ∧
      (arg = VarName ++ ".getPtr()" ↔ PointeeType.getClass ≠ .ExportClassRecord) := by
  have hne : VarName ++ ".getAllocation().getPtr()" ≠ VarName ++ ".getPtr()" := by
    intro h
    exact absurd (string_append_left_cancel _ _ _ h) (by decide)
  by_cases hc : PointeeType.getClass = .ExportClassRecord
  · refine ⟨VarName ++ ".getAllocation().getPtr()", ?_, ?_, ?_⟩
    · simp [genPackVarOfType, hc, streamVarName]
    · simp [hc]
    · simp [hc, hne]
  · refine ⟨VarName ++ ".getPtr()", ?_, ?_, ?_⟩
    · simp [genPackVarOfType, hc, streamVarName]
    · simp [hc, hne.symm]
    · simp [hc]

/-- C9: a vector of 4 float32 components of color kind has the builtin constructor
`ATTRIB_COLOR_F32_4` and the builder declares it by that one call; a vector of 4 float32
components of user kind has no builtin constructor and the builder declares it by the
generic `createVector` call with the float32 type tag and size 4. -/
theorem genAddElementToElementBuilder_float4 (name : String) (storeSize allocSize : Nat)
    (C : Context) (VarName : String) :
    GetBuiltinElementConstruct
        (.Vector name DataTypeFloat32 DataKindColor 4 storeSize allocSize) =
        some "ATTRIB_COLOR_F32_4" ∧
      genAddElementToElementBuilder C
        (.Vector name DataTypeFloat32 DataKindColor 4 storeSize allocSize) VarName =
        .ok ([.add (.construct "ATTRIB_COLOR_F32_4") VarName storeSize], C) ∧
      GetBuiltinElementConstruct
        (.Vector name DataTypeFloat32 DataKindUser 4 storeSize allocSize) = none ∧
      genAddElementToElementBuilder C
        (.Vector name DataTypeFloat32 DataKindUser 4 storeSize allocSize) VarName =
        .ok ([.add (.createVector (some "Element.DataType.FLOAT_32") 4) VarName storeSize],
          C) :=
  ⟨rfl, rfl, rfl, rfl⟩

/-- C10: for every pointer type, whatever its pointee, `GetBuiltinElementConstruct` gives
the builtin constructor `USER_I32` and `genAddElementToElementBuilder` emits exactly one add
call for it; the walk never ends in the fatal branch, on any type. -/
theorem genAddElementToElementBuilder_pointer (name : String) (PointeeType : RSExportType)
    (storeSize allocSize : Nat) (C : Context) (VarName : String) :
    GetBuiltinElementConstruct (.Pointer name PointeeType storeSize allocSize) =
        some "USER_I32" ∧
      genAddElementToElementBuilder C (.Pointer name PointeeType storeSize allocSize)
        VarName = .ok ([.add (.construct "USER_I32") VarName storeSize], C) ∧
      ∀ (ET : RSExportType) (C0 : Context) (V : String),
        ∃ r, genAddElementToElementBuilder C0 ET V = .ok r :=
  ⟨rfl, rfl, genAdd_total.1⟩

/-! ## The name tables -/

/-- Outside the rows `0 .. 29` both name tables have no entry. -/
theorem name_tables_out_of_range (type : Int) (h : type < 0 ∨ 30 ≤ type) :
    GetPrimitiveTypeName type = none ∧ GetPackerAPIName type = none := by
  have hlen1 : (PrimitiveTypeJavaNameMap.length : Int) = 30 := rfl
  have hlen2 : (PrimitiveTypePackerAPINameMap.length : Int) = 30 := rfl
  have hc : ¬ (0 ≤ type ∧ type < 30) := by omega
  constructor
  · unfold GetPrimitiveTypeName
    rw [hlen1]
    exact if_neg hc
  · unfold GetPackerAPIName
    rw [hlen2]
    exact if_neg hc

/-- On the rows `2 .. 29` both name tables give a name that is not empty. -/
theorem name_tables_mapped (type : DataType) (h : 2 ≤ type ∧ type < 30) :
    ∃ n api, GetPrimitiveTypeName type = some n ∧ n ≠ "" ∧
      GetPackerAPIName type = some api ∧ api ≠ "" := by
  obtain ⟨h1, h2⟩ := h
  interval_cases type <;> exact ⟨_, _, rfl, by decide, rfl, by decide⟩

/-- C11, as stated, fails: on the placeholder row 0 `GetPrimitiveTypeName` and
`GetPackerAPIName` return the empty name and do not fail. -/
theorem name_tables_placeholder_counterexample :
    GetPrimitiveTypeName 0 = some "" ∧ GetPackerAPIName 0 = some "" :=
  ⟨rfl, rfl⟩

/-- C11, amended: for every data type outside the range of the tables
`GetPrimitiveTypeName` and `GetPackerAPIName` fail; on the two placeholder rows, 0 and 1,
they return the empty name without failing; on every other row they return a name that is
not empty. -/
theorem name_tables_unmapped (type : DataType) :
    ((type < 0 ∨ 30 ≤ type) →
        GetPrimitiveTypeName type = none ∧ GetPackerAPIName type = none) ∧
      ((type = 0 ∨ type = 1) →
        GetPrimitiveTypeName type = some "" ∧ GetPackerAPIName type = some "") ∧
      ((2 ≤ type ∧ type < 30) →
        ∃ n api, GetPrimitiveTypeName type = some n ∧ n ≠ "" ∧
          GetPackerAPIName type = some api ∧ api ≠ "") := by
  refine ⟨name_tables_out_of_range type, ?_, name_tables_mapped type⟩
  rintro (h | h) <;> subst h <;> exact ⟨rfl, rfl⟩

/-- Witness of C11 (amended): one value outside the tables, one placeholder row, one mapped
row. -/
theorem name_tables_unmapped_witness :
    (GetPrimitiveTypeName 30 = none ∧ GetPackerAPIName 30 = none) ∧
      (GetPrimitiveTypeName 1 = some "" ∧ GetPackerAPIName 1 = some "") ∧
      (∃ n api, GetPrimitiveTypeName DataTypeFloat32 = some n ∧ n ≠ "" ∧
        GetPackerAPIName DataTypeFloat32 = some api ∧ api ≠ "") :=
  ⟨(name_tables_unmapped 30).1 (Or.inr (by decide)),
    (name_tables_unmapped 1).2.1 (Or.inr rfl),
    (name_tables_unmapped DataTypeFloat32).2.2 (by decide)⟩

/-- C12, evaluated on its own example: a primitive of user kind and data type float64 has
no builtin constructor and no data-type tag, and `genAddElementToElementBuilder` does not
fail on it: it returns normally with one add declaration whose tag is the null pointer, a
line that has no text. -/
theorem genAddElementToElementBuilder_float64 (name : String) (storeSize allocSize : Nat)
    (C : Context) (VarName : String) :
    GetBuiltinElementConstruct
        (.Primitive name DataTypeFloat64 DataKindUser storeSize allocSize) = none ∧
      GetElementDataTypeName DataTypeFloat64 = none ∧
      genAddElementToElementBuilder C
        (.Primitive name DataTypeFloat64 DataKindUser storeSize allocSize) VarName =
        .ok ([.add (.createUser none) VarName storeSize], C) ∧
      (BuildStmt.add (.createUser none) VarName storeSize).render "eb" "rs" = none :=
  ⟨rfl, rfl, rfl, rfl⟩

/-- The row the switch of `GetVectorTypeName` selects is a row of the table. -/
theorem vectorBaseElement_mem (type : DataType) (row : List String)
    (h : vectorBaseElement type = some row) : row ∈ VectorTypeJavaNameMap := by
  unfold vectorBaseElement at h
  split_ifs at h <;> simp [VectorTypeJavaNameMap] at h <;> subst h <;>
    simp [VectorTypeJavaNameMap]

/-- C13: for every arity `n` in 2, 3, 4 `GetVectorTypeName` gives signed-16 and unsigned-8
vectors the name `Short<n>` and signed-32 and unsigned-16 vectors the name `Int<n>`; every
name it returns is a family name followed by the arity; and the names of the Short and Int
families differ from each other and from the names of the Byte, Long and Float families,
whatever the arities. -/
theorem GetVectorTypeName_families (n : Nat) (hn : n = 2 ∨ n = 3 ∨ n = 4) :
    GetVectorTypeName DataTypeSigned16 n = some ("Short" ++ toString n) ∧
      GetVectorTypeName DataTypeUnsigned8 n = some ("Short" ++ toString n) ∧
      GetVectorTypeName DataTypeSigned32 n = some ("Int" ++ toString n) ∧
      GetVectorTypeName DataTypeUnsigned16 n = some ("Int" ++ toString n) ∧
      (∀ (type : DataType) (name : String), GetVectorTypeName type n = some name →
        ∃ family, family ∈ ["Byte", "Short", "Int", "Long", "Float"] ∧
          name = family ++ toString n) ∧
      (∀ m : Nat, m = 2 ∨ m = 3 ∨ m = 4 →
        GetVectorTypeName DataTypeSigned16 n ≠ GetVectorTypeName DataTypeSigned32 m ∧
        GetVectorTypeName DataTypeSigned16 n ≠ GetVectorTypeName DataTypeSigned8 m ∧
        GetVectorTypeName DataTypeSigned16 n ≠ GetVectorTypeName DataTypeUnsigned32 m ∧
        GetVectorTypeName DataTypeSigned16 n ≠ GetVectorTypeName DataTypeFloat32 m ∧
        GetVectorTypeName DataTypeSigned32 n ≠ GetVectorTypeName DataTypeSigned8 m ∧
        GetVectorTypeName DataTypeSigned32 n ≠ GetVectorTypeName DataTypeUnsigned32 m ∧
        GetVectorTypeName DataTypeSigned32 n ≠ GetVectorTypeName DataTypeFloat32 m) := by
  have hfam : ∀ (type : DataType) (name : String), GetVectorTypeName type n = some name →
      ∃ family, family ∈ ["Byte", "Short", "Int", "Long", "Float"] ∧
        name = family ++ toString n := by
    intro type name h
    unfold GetVectorTypeName at h
    cases hrow : vectorBaseElement type with
    | none => simp [hrow] at h
    | some row =>
      have hmem := vectorBaseElement_mem type row hrow
      simp only [hrow] at h
      simp only [VectorTypeJavaNameMap, List.mem_cons, List.mem_singleton, List.not_mem_nil,
        or_false] at hmem
      rcases hmem with rfl | rfl | rfl | rfl | rfl <;> rcases hn with rfl | rfl | rfl <;>
        simp at h <;> subst h
      all_goals first
        | exact ⟨"Byte", by simp, by decide⟩
        | exact ⟨"Short", by simp, by decide⟩
        | exact ⟨"Int", by simp, by decide⟩
        | exact ⟨"Long", by simp, by decide⟩
        | exact ⟨"Float", by simp, by decide⟩
  refine ⟨?_, ?_, ?_, ?_, hfam, ?_⟩
  · rcases hn with rfl | rfl | rfl <;> decide
  · rcases hn with rfl | rfl | rfl <;> decide
  · rcases hn with rfl | rfl | rfl <;> decide
  · rcases hn with rfl | rfl | rfl <;> decide
  · intro m hm
    rcases hn with rfl | rfl | rfl <;> rcases hm with rfl | rfl | rfl <;> decide

/-- Witness of C13 at the arities 3 and 4. -/
theorem GetVectorTypeName_families_witness :
    GetVectorTypeName DataTypeSigned16 3 = some "Short3" ∧
      GetVectorTypeName DataTypeUnsigned8 3 = some "Short3" ∧
      GetVectorTypeName DataTypeSigned16 3 ≠ GetVectorTypeName DataTypeSigned32 4 :=
  ⟨(GetVectorTypeName_families 3 (Or.inr (Or.inl rfl))).1,
    (GetVectorTypeName_families 3 (Or.inr (Or.inl rfl))).2.1,
    ((GetVectorTypeName_families 3 (Or.inr (Or.inl rfl))).2.2.2.2.2 4
      (Or.inr (Or.inr rfl))).1⟩

/-! ## Initializers -/

theorem genInitPrimitive_of_scalar (Name : String) (Val : APValue) (e : JavaExpr)
    (h : scalarInitExpr Val = some e) :
    genInitPrimitiveExportVariable Name Val =
      .ok [.assign (RS_EXPORT_VAR_PREFIX ++ Name) e] := by
  cases Val <;> simp [scalarInitExpr] at h <;> subst h <;> rfl

/-- The component loop on scalar values that fit the accessors: it gives one assignment per
value, the `j`-th to the component `i + j`. -/
theorem genInitVectorComponents_scalars (VarName : String) (vals : List APValue) :
    ∀ i : Nat, i + vals.length ≤ 4 →
      (∀ val ∈ vals, (scalarInitExpr val).isSome = true) →
      ∃ comps, genInitVectorComponents VarName i vals = .ok comps ∧
        comps.length = vals.length ∧
        ∀ j, j < vals.length →
          ∃ accessor val e, VectorAccessorMap.get? (i + j) = some accessor ∧
            vals.get? j = some val ∧ scalarInitExpr val = some e ∧
            comps.get? j =
              some (.assign (RS_EXPORT_VAR_PREFIX ++ (VarName ++ "." ++ accessor)) e) := by
  induction vals with
  | nil =>
    intro i _ _
    exact ⟨[], rfl, rfl, fun j hj => absurd hj (by simp)⟩
  | cons val rest ih =>
    intro i hi hs
    have hlt : i < 4 := by simp at hi; omega
    obtain ⟨e, he⟩ := Option.isSome_iff_exists.mp (hs val (List.mem_cons_self _ _))
    obtain ⟨comps, hrun, hlen, hget⟩ := ih (i + 1) (by simp at hi ⊢; omega)
      (fun v hv => hs v (List.mem_cons_of_mem _ hv))
    have hacc : ∃ accessor, GetVectorAccessor i = some accessor ∧
        VectorAccessorMap.get? i = some accessor := by
      have : i = 0 ∨ i = 1 ∨ i = 2 ∨ i = 3 := by omega
      rcases this with rfl | rfl | rfl | rfl <;> exact ⟨_, rfl, rfl⟩
    obtain ⟨accessor, hacc1, hacc2⟩ := hacc
    refine ⟨.assign (RS_EXPORT_VAR_PREFIX ++ (VarName ++ "." ++ accessor)) e :: comps, ?_, ?_,
      ?_⟩
    · simp [genInitVectorComponents, hacc1, genInitPrimitive_of_scalar _ _ _ he, hrun, bind,
        Except.bind, pure, Except.pure]
    · simp [hlen]
    · intro j hj
      cases j with
      | zero => exact ⟨accessor, val, e, by simpa using hacc2, rfl, he, rfl⟩
      | succ k =>
        obtain ⟨a, v, e2, h1, h2, h3, h4⟩ := hget k (by simp at hj; omega)
        refine ⟨a, v, e2, ?_, by simpa using h2, h3, by simpa using h4⟩
        rw [← h1]; congr 1; omega

/-- C14: for every boolean-typed variable with an integer initializer `v`,
`genInitExportVariable` emits the one assignment of `false` to the field when `v = 0` and of
`true` when `v` is not 0, negative values included, and prints no warning. -/
theorem genInitExportVariable_bool (name : String) (kind : DataKind)
    (storeSize allocSize : Nat) (VarName : String) (v : Int) :
    (v = 0 →
        genInitExportVariable (.Primitive name DataTypeBool kind storeSize allocSize) VarName
          (.Int v) = .ok ([.assign (RS_EXPORT_VAR_PREFIX ++ VarName) (.boolLit false)], [])) ∧
      (v ≠ 0 →
        genInitExportVariable (.Primitive name DataTypeBool kind storeSize allocSize) VarName
          (.Int v) = .ok ([.assign (RS_EXPORT_VAR_PREFIX ++ VarName) (.boolLit true)], [])) := by
  constructor
  · intro h
    simp [genInitExportVariable, APValue.isUninit, genInitBoolExportVariable, h, Except.map]
  · intro h
    simp [genInitExportVariable, APValue.isUninit, genInitBoolExportVariable, h, Except.map]

/-- Witness of C14 at the values 0 and -3. -/
theorem genInitExportVariable_bool_witness :
    genInitExportVariable (.Primitive "bool" DataTypeBool DataKindUser 1 1) "b" (.Int 0) =
        .ok ([.assign (RS_EXPORT_VAR_PREFIX ++ "b") (.boolLit false)], []) ∧
      genInitExportVariable (.Primitive "bool" DataTypeBool DataKindUser 1 1) "b" (.Int (-3)) =
        .ok ([.assign (RS_EXPORT_VAR_PREFIX ++ "b") (.boolLit true)], []) :=
  ⟨(genInitExportVariable_bool "bool" DataKindUser 1 1 "b" 0).1 rfl,
    (genInitExportVariable_bool "bool" DataKindUser 1 1 "b" (-3)).2 (by decide)⟩

/-- C15: for every vector variable of arity `n` whose type has a host name, with an
initializer list of length `m` whose first `min n m` values are scalars,
`genInitExportVariable` emits the construction of the vector and then one assignment for
each of the first `min n m` components, in x, y, z, w order, the `i`-th assigning the `i`-th
value of the list, and nothing else. -/
theorem genInitExportVariable_vector_list (name : String) (type : DataType) (kind : DataKind)
    (numElement storeSize allocSize : Nat) (VarName : String) (elts : List APValue)
    (TypeName : String)
    (hName : GetVectorTypeName type numElement = some TypeName)
    (hScalar : ∀ val ∈ elts.take (min numElement elts.length),
      (scalarInitExpr val).isSome = true) :
    ∃ comps,
      genInitExportVariable (.Vector name type kind numElement storeSize allocSize) VarName
          (.Vector elts) =
        .ok (.assign (RS_EXPORT_VAR_PREFIX ++ VarName) (.newObject TypeName) :: comps, []) ∧
      comps.length = min numElement elts.length ∧
      ∀ i, i < min numElement elts.length →
        ∃ accessor val e, ["x", "y", "z", "w"].get? i = some accessor ∧
          elts.get? i = some val ∧ scalarInitExpr val = some e ∧
          comps.get? i =
            some (.assign (RS_EXPORT_VAR_PREFIX ++ (VarName ++ "." ++ accessor)) e) := by
  have hn : numElement ≤ 4 := by
    unfold GetVectorTypeName at hName
    cases hrow : vectorBaseElement type with
    | none => simp [hrow] at hName
    | some row =>
      simp only [hrow] at hName
      by_contra hcon
      rw [if_neg (by omega)] at hName
      cases hName
  have hlen : (elts.take (min numElement elts.length)).length = min numElement elts.length := by
    simp
  obtain ⟨comps, hrun, hl, hget⟩ := genInitVectorComponents_scalars VarName
    (elts.take (min numElement elts.length)) 0 (by rw [hlen]; omega) hScalar
  refine ⟨comps, ?_, by rw [hl, hlen], ?_⟩
  · simp [genInitExportVariable, APValue.isUninit, hName, hrun, bind, Except.bind, pure,
      Except.pure]
  · intro i hi
    obtain ⟨a, v, e, h1, h2, h3, h4⟩ := hget i (by rw [hlen]; exact hi)
    refine ⟨a, v, e, by simpa [VectorAccessorMap] using h1, ?_, h3, h4⟩
    rw [List.get?_eq_getElem?, List.getElem?_take_of_lt (by omega)] at h2
    rw [List.get?_eq_getElem?]
    exact h2

/-- Witness of C15: with arity 4 and a list of 2 values only x and y are assigned. -/
theorem genInitExportVariable_vector_list_witness :
    genInitExportVariable float4Type "v" (.Vector [.Int 1, .Int 2]) =
        .ok ([.assign "mExportVar_v" (.newObject "Float4"),
          .assign "mExportVar_v.x" (.intLit 1), .assign "mExportVar_v.y" (.intLit 2)], []) ∧
      ∃ comps,
        genInitExportVariable (.Vector "float4" DataTypeFloat32 DataKindUser 4 16 16) "v"
            (.Vector [.Int 1, .Int 2]) =
          .ok (.assign (RS_EXPORT_VAR_PREFIX ++ "v") (.newObject "Float4") :: comps, []) ∧
        comps.length = min 4 [APValue.Int 1, APValue.Int 2].length ∧
        ∀ i, i < min 4 [APValue.Int 1, APValue.Int 2].length →
          ∃ accessor val e, ["x", "y", "z", "w"].get? i = some accessor ∧
            [APValue.Int 1, APValue.Int 2].get? i = some val ∧ scalarInitExpr val = some e ∧
            comps.get? i =
              some (.assign (RS_EXPORT_VAR_PREFIX ++ ("v" ++ "." ++ accessor)) e) :=
  ⟨rfl,
    genInitExportVariable_vector_list "float4" DataTypeFloat32 DataKindUser 4 16 16 "v"
      [.Int 1, .Int 2] "Float4" rfl
      (by intro val hval; simp at hval; rcases hval with rfl | rfl <;> rfl)⟩

/-- C16: for every vector variable of arity `n`, at most 4, with a scalar initializer, integer
or floating, `genInitExportVariable` emits exactly `n` assignments, the `i`-th to the `i`-th
component in x, y, z, w order, every one assigning the value of the scalar. -/
theorem genInitExportVariable_vector_scalar (name : String) (type : DataType)
    (kind : DataKind) (numElement storeSize allocSize : Nat) (VarName : String)
    (Val : APValue) (e : JavaExpr)
    (hn : numElement ≤ 4)
    (hScalar : scalarInitExpr Val = some e) :
    ∃ comps,
      genInitExportVariable (.Vector name type kind numElement storeSize allocSize) VarName
          Val = .ok (comps, []) ∧
      comps.length = numElement ∧
      ∀ i, i < numElement →
        ∃ accessor, ["x", "y", "z", "w"].get? i = some accessor ∧
          comps.get? i =
            some (.assign (RS_EXPORT_VAR_PREFIX ++ (VarName ++ "." ++ accessor)) e) := by
  obtain ⟨comps, hrun, hl, hget⟩ := genInitVectorComponents_scalars VarName
    (List.replicate numElement Val) 0 (by simp; omega)
    (by intro val hval; rw [List.eq_of_mem_replicate hval, hScalar]; rfl)
  refine ⟨comps, ?_, by simpa using hl, ?_⟩
  · cases Val <;> simp [scalarInitExpr] at hScalar <;>
      simp [genInitExportVariable, APValue.isUninit, hrun, Except.map]
  · intro i hi
    obtain ⟨a, v, e2, h1, h2, h3, h4⟩ := hget i (by simpa using hi)
    have hv : v = Val := by
      have := List.get?_mem h2
      exact List.eq_of_mem_replicate this
    subst hv
    rw [hScalar] at h3
    cases h3
    exact ⟨a, by simpa [VectorAccessorMap] using h1, h4⟩

/-- Witness of C16 on a vector of arity 4 and the integer 3. -/
theorem genInitExportVariable_vector_scalar_witness :
    ∃ comps,
      genInitExportVariable (.Vector "float4" DataTypeFloat32 DataKindUser 4 16 16) "v"
          (.Int 3) = .ok (comps, []) ∧
      comps.length = 4 ∧
      ∀ i, i < 4 →
        ∃ accessor, ["x", "y", "z", "w"].get? i = some accessor ∧
          comps.get? i =
            some (.assign (RS_EXPORT_VAR_PREFIX ++ ("v" ++ "." ++ accessor)) (.intLit 3)) :=
  genInitExportVariable_vector_scalar "float4" DataTypeFloat32 DataKindUser 4 16 16 "v"
    (.Int 3) (.intLit 3) (by decide) rfl

/-- C17: for a pointer-typed variable with any initializer `genInitExportVariable` does not
fail and emits no statement; it prints one warning when the initializer is not the integer
0 and none when it is. -/
theorem genInitExportVariable_pointer (name : String) (PointeeType : RSExportType)
    (storeSize allocSize : Nat) (VarName : String) (Val : APValue)
    (hInit : Val.isUninit = false) :
    ∃ warnings,
      genInitExportVariable (.Pointer name PointeeType storeSize allocSize) VarName Val =
        .ok ([], warnings) ∧
      ((Val = .Int 0 ∧ warnings = []) ∨
        (Val ≠ .Int 0 ∧
          warnings =
            ["Initializer which is non-NULL to pointer type variable will be ignored"])) := by
  cases Val with
  | Uninit => simp [APValue.isUninit] at hInit
  | Int v =>
    by_cases hv : v = 0
    · subst hv
      exact ⟨[], by simp [genInitExportVariable, APValue.isUninit], Or.inl ⟨rfl, rfl⟩⟩
    · exact ⟨["Initializer which is non-NULL to pointer type variable will be ignored"], by simp [genInitExportVariable, APValue.isUninit, hv],
        Or.inr ⟨by simpa using hv, rfl⟩⟩
  | Float f =>
    exact ⟨["Initializer which is non-NULL to pointer type variable will be ignored"], by simp [genInitExportVariable, APValue.isUninit], Or.inr ⟨by simp, rfl⟩⟩
  | ComplexInt =>
    exact ⟨["Initializer which is non-NULL to pointer type variable will be ignored"], by simp [genInitExportVariable, APValue.isUninit], Or.inr ⟨by simp, rfl⟩⟩
  | ComplexFloat =>
    exact ⟨["Initializer which is non-NULL to pointer type variable will be ignored"], by simp [genInitExportVariable, APValue.isUninit], Or.inr ⟨by simp, rfl⟩⟩
  | LValue =>
    exact ⟨["Initializer which is non-NULL to pointer type variable will be ignored"], by simp [genInitExportVariable, APValue.isUninit], Or.inr ⟨by simp, rfl⟩⟩
  | Vector l =>
    exact ⟨["Initializer which is non-NULL to pointer type variable will be ignored"], by simp [genInitExportVariable, APValue.isUninit], Or.inr ⟨by simp, rfl⟩⟩

/-- Witness of C17 on a pointer to int with the initializer 5. -/
theorem genInitExportVariable_pointer_witness :
    ∃ warnings,
      genInitExportVariable (.Pointer "int*" (.Primitive "int" DataTypeSigned32 DataKindUser 4 4)
          4 4) "p" (.Int 5) = .ok ([], warnings) ∧
      ((APValue.Int 5 = .Int 0 ∧ warnings = []) ∨
        (APValue.Int 5 ≠ .Int 0 ∧
          warnings =
            ["Initializer which is non-NULL to pointer type variable will be ignored"])) :=
  genInitExportVariable_pointer "int*" (.Primitive "int" DataTypeSigned32 DataKindUser 4 4)
    4 4 "p" (.Int 5) rfl

/-- C18: for a record-typed variable `genInitExportVariable` fails for every initializer and
emits no statement. -/
theorem genInitExportVariable_record (name : String) (fields : List (Field RSExportType))
    (artificial : Bool) (storeSize allocSize : Nat) (VarName : String) (Val : APValue) :
    ∃ msg,
      genInitExportVariable (.Record name fields artificial storeSize allocSize) VarName Val =
        .error msg := by
  unfold genInitExportVariable
  split <;> exact ⟨_, rfl⟩

/-! ## Exported variables -/

theorem genCreateAndPack_body (ET : RSExportType) (VarName : Option String)
    (FieldPackerName : String) (packed : List JavaStmt)
    (h : genCreateAndPack ET VarName FieldPackerName = .ok packed) :
    ∀ s ∈ packed, s.isBody = true := by
  unfold genCreateAndPack genCreateFieldPacker at h
  by_cases ha : GetTypeAllocSize ET > 0
  · simp only [ha, if_true] at h
    cases hp : genPackVarOfType ET VarName with
    | error msg => simp [hp, bind, Except.bind] at h
    | ok stmts =>
      simp only [hp, bind, Except.bind, pure, Except.pure, Except.ok.injEq] at h
      subst h
      intro s hs
      simp only [List.mem_append, List.mem_singleton, List.mem_map] at hs
      rcases hs with rfl | ⟨p, _, rfl⟩ <;> rfl
  · simp only [ha, if_false, pure, Except.pure, Except.ok.injEq] at h
    subst h
    intro s hs
    simp at hs

theorem genPackedSetter_shape (ET : RSExportType) (TypeName VarName : String)
    (setter : List JavaStmt) (h : genPackedSetter ET TypeName VarName = .ok setter) :
    ∃ body, setter =
        .startFunction .AM_Public false (some "void") ("set_" ++ VarName) [(TypeName, "v")] ::
          body ∧
      ∀ s ∈ body, s.isBody = true := by
  unfold genPackedSetter at h
  cases hp : genCreateAndPack ET (some "v") "fp" with
  | error msg => simp [hp, bind, Except.bind] at h
  | ok packed =>
    simp only [hp, bind, Except.bind, pure, Except.pure, Except.ok.injEq] at h
    subst h
    refine ⟨[.assign (RS_EXPORT_VAR_PREFIX ++ VarName) (.verbatim "v")] ++ packed ++
      [ .line ("setVar(" ++ RS_EXPORT_VAR_INDEX_PREFIX ++ VarName ++ ", " ++ "fp" ++ ");"),
        .endFunction ], by simp, ?_⟩
    intro s hs
    simp only [List.mem_append, List.mem_cons, List.mem_singleton, List.not_mem_nil,
      or_false] at hs
    rcases hs with (rfl | hs) | rfl | rfl
    · rfl
    · exact genCreateAndPack_body _ _ _ _ hp s hs
    · rfl
    · rfl

theorem genPrimitiveTypeExportVariable_shape (EV : RSExportVar) (rest : List JavaStmt)
    (h : genPrimitiveTypeExportVariable EV = .ok rest) :
    ∃ TypeName setter,
      rest = .privateField TypeName (RS_EXPORT_VAR_PREFIX ++ EV.name) ::
          (setter ++ genGetExportVariable TypeName EV.name) ∧
      SetterOf EV TypeName setter := by
  obtain ⟨name, type, isConst, init⟩ := EV
  cases type with
  | Primitive n t k s a | ConstantArray n t k s a =>
    unfold genPrimitiveTypeExportVariable at h
    simp only at h
    cases hT : GetPrimitiveTypeName t with
    | none => simp [hT] at h
    | some TypeName =>
      simp only [hT, Except.ok.injEq] at h
      subst h
      cases isConst with
      | true =>
        exact ⟨TypeName, [], by simp, Or.inl ⟨rfl, rfl, by simp [RSExportType.getClass]⟩⟩
      | false =>
        refine ⟨TypeName,
          [ .startFunction .AM_Public false (some "void") ("set_" ++ name) [(TypeName, "v")],
            .assign (RS_EXPORT_VAR_PREFIX ++ name) (.verbatim "v"),
            (if isRSObjectType t then
              .line ("setVar(" ++ RS_EXPORT_VAR_INDEX_PREFIX ++ name ++
                ", (v == null) ? 0 : v.getID());")
            else
              .line ("setVar(" ++ RS_EXPORT_VAR_INDEX_PREFIX ++ name ++ ", v);")),
            .endFunction ], by simp, Or.inr ⟨"set_" ++ name, _, rfl, ?_,
          Or.inl ⟨rfl, rfl, by simp [RSExportType.getClass]⟩⟩⟩
        intro s hs
        simp only [List.mem_cons, List.mem_singleton, List.not_mem_nil, or_false] at hs
        rcases hs with rfl | rfl | rfl
        · rfl
        · split <;> rfl
        · rfl
  | Vector n t k e s a => simp [genPrimitiveTypeExportVariable] at h
  | Pointer n p s a => simp [genPrimitiveTypeExportVariable] at h
  | Record n f art s a => simp [genPrimitiveTypeExportVariable] at h

theorem packedVariable_shape (EV : RSExportVar) (TypeName : String) (rest : List JavaStmt)
    (hcl : EV.type.getClass ≠ .ExportClassPointer)
    (h : (do
        let setter ← if ¬ EV.isConst then genPackedSetter EV.type TypeName EV.name else pure []
        pure ([JavaStmt.privateField TypeName (RS_EXPORT_VAR_PREFIX ++ EV.name)] ++ setter ++
          genGetExportVariable TypeName EV.name) : Except Fatal (List JavaStmt)) = .ok rest) :
    ∃ TypeName setter,
      rest = .privateField TypeName (RS_EXPORT_VAR_PREFIX ++ EV.name) ::
          (setter ++ genGetExportVariable TypeName EV.name) ∧
      SetterOf EV TypeName setter := by
  obtain ⟨name, type, isConst, init⟩ := EV
  cases isConst with
  | true =>
    simp [bind, Except.bind, pure, Except.pure] at h
    subst h
    exact ⟨TypeName, [], by simp, Or.inl ⟨rfl, rfl, hcl⟩⟩
  | false =>
    cases hs : genPackedSetter type TypeName name with
    | error msg => simp [hs, bind, Except.bind] at h
    | ok setter =>
      simp [hs, bind, Except.bind, pure, Except.pure] at h
      subst h
      obtain ⟨body, hb1, hb2⟩ := genPackedSetter_shape _ _ _ _ hs
      exact ⟨TypeName, setter, by simp, Or.inr ⟨_, body, hb1, hb2, Or.inl ⟨rfl, rfl, hcl⟩⟩⟩

theorem genPointerTypeExportVariable_shape (EV : RSExportVar) (rest : List JavaStmt)
    (h : genPointerTypeExportVariable EV = .ok rest) :
    ∃ TypeName setter,
      rest = .privateField TypeName (RS_EXPORT_VAR_PREFIX ++ EV.name) ::
          (setter ++ genGetExportVariable TypeName EV.name) ∧
      SetterOf EV TypeName setter := by
  obtain ⟨name, type, isConst, init⟩ := EV
  cases type with
  | Pointer n p s a =>
    unfold genPointerTypeExportVariable at h
    simp only at h
    cases hT : GetTypeName (.Pointer n p s a) with
    | error msg => simp [hT, bind, Except.bind] at h
    | ok TypeName =>
      simp only [hT, bind, Except.bind, pure, Except.pure, Except.ok.injEq] at h
      subst h
      refine ⟨TypeName,
        [ .startFunction .AM_Public false (some "void") ("bind_" ++ name) [(TypeName, "v")],
          .assign (RS_EXPORT_VAR_PREFIX ++ name) (.verbatim "v"),
          .line ("if(v == null) bindAllocation(null, " ++ RS_EXPORT_VAR_INDEX_PREFIX ++
            name ++ ");"),
          (if p.getClass = .ExportClassRecord then
            .line ("else bindAllocation(v.getAllocation(), " ++
              RS_EXPORT_VAR_INDEX_PREFIX ++ name ++ ");")
          else
            .line ("else bindAllocation(v, " ++ RS_EXPORT_VAR_INDEX_PREFIX ++ name ++
              ");")),
          .endFunction ], by simp,
        Or.inr ⟨"bind_" ++ name, _, rfl, ?_, Or.inr ⟨rfl, rfl⟩⟩⟩
      intro s hs
      simp only [List.mem_cons, List.mem_singleton, List.not_mem_nil, or_false] at hs
      rcases hs with rfl | rfl | rfl | rfl
      · rfl
      · rfl
      · split <;> rfl
      · rfl
  | Primitive n t k s a => simp [genPointerTypeExportVariable] at h
  | ConstantArray n t k s a => simp [genPointerTypeExportVariable] at h
  | Vector n t k e s a => simp [genPointerTypeExportVariable] at h
  | Record n f art s a => simp [genPointerTypeExportVariable] at h

/-- The lines `genExportVariable` writes: the slot constant, the private field, the setter
or binder if there is one, and the getter. -/
theorem genExportVariable_shape (C : Context) (EV : RSExportVar) (stmts : List JavaStmt)
    (C1 : Context) (h : genExportVariable C EV = .ok (stmts, C1)) :
    ∃ TypeName setter,
      stmts =
        .privateSlot (RS_EXPORT_VAR_INDEX_PREFIX ++ EV.name) C.mNextExportVarSlot ::
          .privateField TypeName (RS_EXPORT_VAR_PREFIX ++ EV.name) ::
            (setter ++ genGetExportVariable TypeName EV.name) ∧
      SetterOf EV TypeName setter := by
  have sub : ∃ rest, stmts =
      .privateSlot (RS_EXPORT_VAR_INDEX_PREFIX ++ EV.name) C.mNextExportVarSlot :: rest ∧
      ∃ TypeName setter,
        rest = .privateField TypeName (RS_EXPORT_VAR_PREFIX ++ EV.name) ::
            (setter ++ genGetExportVariable TypeName EV.name) ∧
        SetterOf EV TypeName setter := by
    unfold genExportVariable at h
    simp only [Context.getNextExportVarSlot, bind, Except.bind, pure, Except.pure] at h
    obtain ⟨name, type, isConst, init⟩ := EV
    cases type with
    | Primitive n t k s a =>
      simp only [RSExportType.getClass] at h
      cases hr : genPrimitiveTypeExportVariable ⟨name, .Primitive n t k s a, isConst, init⟩ with
      | error msg => simp [hr] at h
      | ok rest =>
        simp only [hr, Except.ok.injEq, Prod.mk.injEq] at h
        exact ⟨rest, h.1.symm, genPrimitiveTypeExportVariable_shape _ _ hr⟩
    | ConstantArray n t k s a =>
      simp only [RSExportType.getClass] at h
      cases hr : genPrimitiveTypeExportVariable ⟨name, .ConstantArray n t k s a, isConst, init⟩
        with
      | error msg => simp [hr] at h
      | ok rest =>
        simp only [hr, Except.ok.injEq, Prod.mk.injEq] at h
        exact ⟨rest, h.1.symm, genPrimitiveTypeExportVariable_shape _ _ hr⟩
    | Pointer n p s a =>
      simp only [RSExportType.getClass] at h
      cases hr : genPointerTypeExportVariable ⟨name, .Pointer n p s a, isConst, init⟩ with
      | error msg => simp [hr] at h
      | ok rest =>
        simp only [hr, Except.ok.injEq, Prod.mk.injEq] at h
        exact ⟨rest, h.1.symm, genPointerTypeExportVariable_shape _ _ hr⟩
    | Vector n t k e s a =>
      simp only [RSExportType.getClass] at h
      cases hr : genVectorTypeExportVariable ⟨name, .Vector n t k e s a, isConst, init⟩ with
      | error msg => simp [hr] at h
      | ok rest =>
        simp only [hr, Except.ok.injEq, Prod.mk.injEq] at h
        refine ⟨rest, h.1.symm, ?_⟩
        unfold genVectorTypeExportVariable at hr
        simp only at hr
        cases hT : GetVectorTypeName t e with
        | none => simp [hT] at hr
        | some TypeName =>
          simp only [hT] at hr
          exact packedVariable_shape ⟨name, .Vector n t k e s a, isConst, init⟩ TypeName rest
            (by simp [RSExportType.getClass]) hr
    | Record n f art s a =>
      simp only [RSExportType.getClass] at h
      cases hr : genRecordTypeExportVariable ⟨name, .Record n f art s a, isConst, init⟩ with
      | error msg => simp [hr] at h
      | ok rest =>
        simp only [hr, Except.ok.injEq, Prod.mk.injEq] at h
        refine ⟨rest, h.1.symm, ?_⟩
        unfold genRecordTypeExportVariable at hr
        simp only at hr
        exact packedVariable_shape ⟨name, .Record n f art s a, isConst, init⟩ _ rest
          (by simp [RSExportType.getClass]) hr
  obtain ⟨rest, h1, T, setter, h2, h3⟩ := sub
  exact ⟨T, setter, by rw [h1, h2], h3⟩

theorem getter_name_ne (n : String) :
    "get_" ++ n ≠ "set_" ++ n ∧ "get_" ++ n ≠ "bind_" ++ n := by
  have e1 : ("get_" : String).data = ['g', 'e', 't', '_'] := rfl
  have e2 : ("set_" : String).data = ['s', 'e', 't', '_'] := rfl
  have e3 : ("bind_" : String).data = ['b', 'i', 'n', 'd', '_'] := rfl
  constructor
  · intro h
    have := congrArg String.data h
    simp [String.data_append, e1, e2] at this
  · intro h
    have := congrArg String.data h
    simp [String.data_append, e1, e3] at this

theorem isBody_not_opener (name : String) (s : JavaStmt) (h : s.isBody = true) :
    s.opensSetter name = false ∧ s.opensGetter name = false ∧ s.isPrivateField = false := by
  cases s <;> simp [JavaStmt.isBody] at h <;> exact ⟨rfl, rfl, rfl⟩

/-- C19, as stated, fails: a constant pointer variable gets its `bind_` method. -/
theorem genExportVariable_setter_counterexample :
    genExportVariable ⟨1, 0, 0⟩ ⟨"p", intPointerType, true, .Uninit⟩ =
        .ok ([ .privateSlot "mExportVarIdx_p" 0,
            .privateField "Allocation" "mExportVar_p",
            .startFunction .AM_Public false (some "void") "bind_p" [("Allocation", "v")],
            .assign "mExportVar_p" (.verbatim "v"),
            .line "if(v == null) bindAllocation(null, mExportVarIdx_p);",
            .line "else bindAllocation(v, mExportVarIdx_p);",
            .endFunction,
            .startFunction .AM_Public false (some "Allocation") "get_p" [],
            .ret "mExportVar_p",
            .endFunction ], ⟨1, 1, 0⟩) ∧
      (JavaStmt.startFunction .AM_Public false (some "void") "bind_p"
        [("Allocation", "v")]).opensSetter "p" = true :=
  ⟨rfl, by decide⟩

/-- C19, amended: whenever `genExportVariable` returns, the lines it wrote open a setter
method (`set_<name>` or `bind_<name>`) if and only if the variable is a pointer or is not
constant: a pointer variable always gets its `bind_` method, a variable of any other type
class gets its `set_` method exactly when it is not constant. -/
theorem genExportVariable_setter (C : Context) (EV : RSExportVar) (stmts : List JavaStmt)
    (C1 : Context) (h : genExportVariable C EV = .ok (stmts, C1)) :
    stmts.any (JavaStmt.opensSetter EV.name) = true ↔
      (EV.type.getClass = .ExportClassPointer ∨ EV.isConst = false) := by
  obtain ⟨TypeName, setter, hs, hshape⟩ := genExportVariable_shape C EV stmts C1 h
  have hget : (genGetExportVariable TypeName EV.name).any (JavaStmt.opensSetter EV.name) =
      false := by
    simp [genGetExportVariable, JavaStmt.opensSetter, (getter_name_ne EV.name).1,
      (getter_name_ne EV.name).2]
  subst hs
  simp only [List.any_cons, List.any_append, hget, JavaStmt.opensSetter, Bool.false_or,
    Bool.or_false]
  rcases hshape with ⟨rfl, hc, hcl⟩ | ⟨F, body, rfl, _, hF⟩
  · simp [hc, hcl]
  · rcases hF with ⟨rfl, hc, hcl⟩ | ⟨rfl, hcl⟩
    · simp [JavaStmt.opensSetter, hc]
    · simp [JavaStmt.opensSetter, hcl]

/-- Witness of C19 (amended) on a float variable that is not constant. -/
theorem genExportVariable_setter_witness :
    List.any
        [ JavaStmt.privateSlot "mExportVarIdx_f" 0,
          .privateField "float" "mExportVar_f",
          .startFunction .AM_Public false (some "void") "set_f" [("float", "v")],
          .assign "mExportVar_f" (.verbatim "v"),
          .line "setVar(mExportVarIdx_f, v);",
          .endFunction,
          .startFunction .AM_Public false (some "float") "get_f" [],
          .ret "mExportVar_f",
          .endFunction ] (JavaStmt.opensSetter "f") = true ↔
      (floatType.getClass = .ExportClassPointer ∨ false = false) :=
  genExportVariable_setter ⟨1, 0, 0⟩ ⟨"f", floatType, false, .Uninit⟩ _ ⟨1, 1, 0⟩ rfl

/-- C20: whenever `genExportVariable` returns, for a variable of any type class, constant or
not, the lines it wrote declare exactly one private field, the field `mExportVar_<name>`,
and open exactly one getter `get_<name>`, whose return type is the type of the field and
whose body, the last lines written, is the return of that field. -/
theorem genExportVariable_field_getter (C : Context) (EV : RSExportVar)
    (stmts : List JavaStmt) (C1 : Context) (h : genExportVariable C EV = .ok (stmts, C1)) :
    ∃ TypeName pre,
      stmts.filter JavaStmt.isPrivateField =
        [.privateField TypeName (RS_EXPORT_VAR_PREFIX ++ EV.name)] ∧
      stmts.filter (JavaStmt.opensGetter EV.name) =
        [.startFunction .AM_Public false (some TypeName) ("get_" ++ EV.name) []] ∧
      stmts = pre ++
        [ .startFunction .AM_Public false (some TypeName) ("get_" ++ EV.name) [],
          .ret (RS_EXPORT_VAR_PREFIX ++ EV.name),
          .endFunction ] := by
  obtain ⟨TypeName, setter, hs, hshape⟩ := genExportVariable_shape C EV stmts C1 h
  have hset : setter.filter JavaStmt.isPrivateField = [] ∧
      setter.filter (JavaStmt.opensGetter EV.name) = [] := by
    rcases hshape with ⟨rfl, _, _⟩ | ⟨F, body, rfl, hb, hF⟩
    · exact ⟨rfl, rfl⟩
    · have hb1 : body.filter JavaStmt.isPrivateField = [] :=
        List.filter_eq_nil_iff.mpr (fun s hsb => by
          simp [(isBody_not_opener EV.name s (hb s hsb)).2.2])
      have hb2 : body.filter (JavaStmt.opensGetter EV.name) = [] :=
        List.filter_eq_nil_iff.mpr (fun s hsb => by
          simp [(isBody_not_opener EV.name s (hb s hsb)).2.1])
      have hF2 : F ≠ "get_" ++ EV.name := by
        rcases hF with ⟨rfl, _, _⟩ | ⟨rfl, _⟩
        · exact (getter_name_ne EV.name).1.symm
        · exact (getter_name_ne EV.name).2.symm
      constructor
      · simp [List.filter_cons, JavaStmt.isPrivateField, hb1]
      · simp [List.filter_cons, JavaStmt.opensGetter, hF2, hb2]
  refine ⟨TypeName,
    .privateSlot (RS_EXPORT_VAR_INDEX_PREFIX ++ EV.name) C.mNextExportVarSlot ::
      .privateField TypeName (RS_EXPORT_VAR_PREFIX ++ EV.name) :: setter, ?_, ?_, ?_⟩
  · subst hs
    simp [List.filter_cons, List.filter_append, JavaStmt.isPrivateField, hset.1,
      genGetExportVariable]
  · subst hs
    simp [List.filter_cons, List.filter_append, JavaStmt.opensGetter, hset.2,
      genGetExportVariable]
  · subst hs
    simp [genGetExportVariable]

/-- Witness of C20 on a constant float variable. -/
theorem genExportVariable_field_getter_witness :
    ∃ TypeName pre,
      List.filter JavaStmt.isPrivateField
          [ JavaStmt.privateSlot "mExportVarIdx_f" 0,
            .privateField "float" "mExportVar_f",
            .startFunction .AM_Public false (some "float") "get_f" [],
            .ret "mExportVar_f",
            .endFunction ] =
        [.privateField TypeName (RS_EXPORT_VAR_PREFIX ++ "f")] ∧
      List.filter (JavaStmt.opensGetter "f")
          [ JavaStmt.privateSlot "mExportVarIdx_f" 0,
            .privateField "float" "mExportVar_f",
            .startFunction .AM_Public false (some "float") "get_f" [],
            .ret "mExportVar_f",
            .endFunction ] =
        [.startFunction .AM_Public false (some TypeName) ("get_" ++ "f") []] ∧
      [ JavaStmt.privateSlot "mExportVarIdx_f" 0,
          .privateField "float" "mExportVar_f",
          .startFunction .AM_Public false (some "float") "get_f" [],
          .ret "mExportVar_f",
          .endFunction ] = pre ++
        [ .startFunction .AM_Public false (some TypeName) ("get_" ++ "f") [],
          .ret (RS_EXPORT_VAR_PREFIX ++ "f"),
          .endFunction ] :=
  genExportVariable_field_getter ⟨1, 0, 0⟩ ⟨"f", floatType, true, .Uninit⟩ _ ⟨1, 1, 0⟩ rfl

/-! ## The packer walk of arrays and the leaves of records -/

/-- C27: for a constant array type, `genPackVarOfType` writes exactly one line, a write of
the variable; its method is `addObj` when the name of the type is exactly `addObj`, and
otherwise the method `GetPackerAPIName` gives for the data type of the array. -/
theorem genPackVarOfType_constantArray (name : String) (type : DataType) (kind : DataKind)
    (storeSize allocSize : Nat) (VarName api : String)
    (hapi : name ≠ "addObj" → GetPackerAPIName type = some api) :
    genPackVarOfType (.ConstantArray name type kind storeSize allocSize) (some VarName) =
      .ok [.write (if name = "addObj" then "addObj" else api) VarName storeSize] := by
  by_cases hn : name = "addObj"
  · simp [genPackVarOfType, hn, streamVarName, bind, Except.bind, pure, Except.pure]
  · simp [genPackVarOfType, hn, hapi hn, streamPackerAPIName, streamVarName, bind, Except.bind,
      pure, Except.pure]

theorem genPackVarOfType_constantArray_witness :
    genPackVarOfType (.ConstantArray "int[4]" DataTypeSigned32 DataKindUser 16 16)
        (some "v") = .ok [.write "addI32" "v" 16] ∧
      genPackVarOfType (.ConstantArray "addObj" DataTypeSigned32 DataKindUser 16 16)
        (some "v") = .ok [.write "addObj" "v" 16] :=
  ⟨genPackVarOfType_constantArray "int[4]" DataTypeSigned32 DataKindUser 16 16 "v" "addI32"
      (fun _ => rfl),
    genPackVarOfType_constantArray "addObj" DataTypeSigned32 DataKindUser 16 16 "v" "addI32"
      (fun h => absurd rfl h)⟩

theorem genPack_leaves :
    (∀ ET : RSExportType, ∀ VarName : Option String,
      (ET.getClass = .ExportClassRecord ∨ VarName.isSome = true) →
      PackerAPIMapped ET = true →
      ∃ stmts, genPackVarOfType ET VarName = .ok stmts ∧
        stmts.filterMap PackStmt.written? =
          (leafFields ET VarName).map (fun leaf => leafExpr leaf.1 leaf.2)) ∧
    (∀ fields : List (Field RSExportType), ∀ (VarName : Option String) (Pos : Nat),
      FieldsPackerAPIMapped fields = true →
      ∃ stmts Pos1, genPackFields fields VarName Pos = .ok (stmts, Pos1) ∧
        stmts.filterMap PackStmt.written? =
          (fieldLeaves fields VarName).map (fun leaf => leafExpr leaf.1 leaf.2)) := by
  apply walk_induction
  · intro n t k s a VarName hv hm
    rcases hv with hv | hv
    · simp [RSExportType.getClass] at hv
    · obtain ⟨v, rfl⟩ := Option.isSome_iff_exists.mp hv
      obtain ⟨api, hapi⟩ := streamPackerAPIName_of_isSome t (by simpa [PackerAPIMapped] using hm)
      exact ⟨[.write api v s],
        by simp [genPackVarOfType, hapi, streamVarName, bind, Except.bind, pure, Except.pure],
        by simp [PackStmt.written?, leafFields, leafExpr]⟩
  · intro n t k e s a VarName hv hm
    rcases hv with hv | hv
    · simp [RSExportType.getClass] at hv
    · obtain ⟨v, rfl⟩ := Option.isSome_iff_exists.mp hv
      obtain ⟨api, hapi⟩ := streamPackerAPIName_of_isSome t (by simpa [PackerAPIMapped] using hm)
      exact ⟨[.write api v s],
        by simp [genPackVarOfType, hapi, streamVarName, bind, Except.bind, pure, Except.pure],
        by simp [PackStmt.written?, leafFields, leafExpr]⟩
  · intro n t k s a VarName hv hm
    rcases hv with hv | hv
    · simp [RSExportType.getClass] at hv
    · obtain ⟨v, rfl⟩ := Option.isSome_iff_exists.mp hv
      by_cases hn : n = "addObj"
      · exact ⟨[.write "addObj" v s],
          by simp [genPackVarOfType, hn, streamVarName, bind, Except.bind, pure, Except.pure],
          by simp [PackStmt.written?, leafFields, leafExpr]⟩
      · obtain ⟨api, hapi⟩ :=
          streamPackerAPIName_of_isSome t (by simpa [PackerAPIMapped, hn] using hm)
        exact ⟨[.write api v s],
          by simp [genPackVarOfType, hn, hapi, streamVarName, bind, Except.bind, pure,
            Except.pure],
          by simp [PackStmt.written?, leafFields, leafExpr]⟩
  · intro n p s a VarName hv _
    rcases hv with hv | hv
    · simp [RSExportType.getClass] at hv
    · obtain ⟨v, rfl⟩ := Option.isSome_iff_exists.mp hv
      by_cases hc : p.getClass = .ExportClassRecord
      · exact ⟨[.write "addI32" (v ++ ".getAllocation().getPtr()") s],
          by simp [genPackVarOfType, hc, streamVarName, bind, Except.bind, pure, Except.pure],
          by simp [PackStmt.written?, leafFields, leafExpr, hc]⟩
      · exact ⟨[.write "addI32" (v ++ ".getPtr()") s],
          by simp [genPackVarOfType, hc, streamVarName, bind, Except.bind, pure, Except.pure],
          by simp [PackStmt.written?, leafFields, leafExpr, hc]⟩
  · intro n fields art s a ih VarName _ hm
    obtain ⟨stmts, Pos1, hrun, hleaves⟩ := ih VarName 0 (by simpa [PackerAPIMapped] using hm)
    refine ⟨stmts ++ (if subSizeT a Pos1 > 0 then [.skip (subSizeT a Pos1)] else []), ?_, ?_⟩
    · simp [genPackVarOfType, hrun, bind, Except.bind, pure, Except.pure]
    · rw [List.filterMap_append, hleaves]
      split <;> simp [PackStmt.written?, leafFields]
  · intro VarName Pos _
    exact ⟨[], Pos, rfl, rfl⟩
  · intro F rest ihF ihr VarName Pos hm
    simp only [FieldsPackerAPIMapped, Bool.and_eq_true] at hm
    obtain ⟨body, hbody, hbl⟩ := ihF (some (packFieldName VarName F)) (Or.inr rfl) hm.1
    obtain ⟨tail, Pos1, htail, htl⟩ :=
      ihr VarName (toPos (F.offsetInParent + GetTypeAllocSize F.type)) hm.2
    refine ⟨(if F.offsetInParent > Pos then [.skip (subSizeT F.offsetInParent Pos)] else []) ++
        body ++
        (if GetTypeAllocSize F.type > GetTypeStoreSize F.type then
          [.skip (subSizeT (GetTypeAllocSize F.type) (GetTypeStoreSize F.type))] else []) ++
        tail, Pos1, ?_, ?_⟩
    · simp [genPackFields, hbody, htail, bind, Except.bind, pure, Except.pure]
    · simp only [List.filterMap_append, hbl, htl, fieldLeaves, List.map_append]
      split <;> split <;> simp [PackStmt.written?]

/-- C29: for a record type whose leaves all have a write method, the packer walk returns,
and the expressions its write lines name, in the order written, are those of the leaf
fields of the record in declaration order, depth-first through nested records: each leaf is
named by the prefix and the field names joined with a dot, and is written as that name, a
pointer leaf through its handle.  No field is skipped, duplicated or reordered. -/
theorem genPackVarOfType_leaf_order (name : String) (fields : List (Field RSExportType))
    (artificial : Bool) (storeSize allocSize : Nat) (VarName : Option String)
    (hm : FieldsPackerAPIMapped fields = true) :
    ∃ stmts,
      genPackVarOfType (.Record name fields artificial storeSize allocSize) VarName =
        .ok stmts ∧
      stmts.filterMap PackStmt.written? =
        (leafFields (.Record name fields artificial storeSize allocSize) VarName).map
          (fun leaf => leafExpr leaf.1 leaf.2) :=
  genPack_leaves.1 (.Record name fields artificial storeSize allocSize) VarName (Or.inl rfl)
    (by simpa [PackerAPIMapped] using hm)

theorem genPackVarOfType_leaf_order_witness :
    FieldsPackerAPIMapped [⟨"p", exampleRecord, 0⟩, uint8Field "c" 12] = true ∧
      ∃ stmts,
        genPackVarOfType nestedRecord (some "i") = .ok stmts ∧
        stmts.filterMap PackStmt.written? =
          (leafFields nestedRecord (some "i")).map (fun leaf => leafExpr leaf.1 leaf.2) :=
  ⟨by decide,
    genPackVarOfType_leaf_order "Nested" [⟨"p", exampleRecord, 0⟩, uint8Field "c" 12] false 13
      16 (some "i") (by decide)⟩

/-! ## The binder of a pointer variable and the item class -/

/-- C30: for every exported variable of pointer type, `genExportVariable` returns, and the
method `bind_<name>` it writes binds null when its argument `v` is null, and otherwise binds
`v.getAllocation()` when the pointee is a record and `v` itself when it is not. -/
theorem genExportVariable_pointer_bind (C : Context) (name n : String)
    (PointeeType : RSExportType) (storeSize allocSize : Nat) (isConst : Bool) (init : APValue) :
    ∃ TypeName,
      GetTypeName (.Pointer n PointeeType storeSize allocSize) = .ok TypeName ∧
      genExportVariable C ⟨name, .Pointer n PointeeType storeSize allocSize, isConst, init⟩ =
        .ok ([ .privateSlot (RS_EXPORT_VAR_INDEX_PREFIX ++ name) C.mNextExportVarSlot,
            .privateField TypeName (RS_EXPORT_VAR_PREFIX ++ name),
            .startFunction .AM_Public false (some "void") ("bind_" ++ name) [(TypeName, "v")],
            .assign (RS_EXPORT_VAR_PREFIX ++ name) (.verbatim "v"),
            .line ("if(v == null) bindAllocation(null, " ++ RS_EXPORT_VAR_INDEX_PREFIX ++
              name ++ ");"),
            .line (if PointeeType.getClass = .ExportClassRecord then
                "else bindAllocation(v.getAllocation(), " ++ RS_EXPORT_VAR_INDEX_PREFIX ++
                  name ++ ");"
              else "else bindAllocation(v, " ++ RS_EXPORT_VAR_INDEX_PREFIX ++ name ++ ");"),
            .endFunction ] ++ genGetExportVariable TypeName name,
          C.getNextExportVarSlot.2) := by
  have hcl : (RSExportType.Pointer n PointeeType storeSize allocSize).getClass =
      .ExportClassPointer := rfl
  by_cases hc : PointeeType.getClass = .ExportClassRecord
  · have hT : GetTypeName (.Pointer n PointeeType storeSize allocSize) =
        .ok (RS_TYPE_CLASS_NAME_PREFIX ++ PointeeType.getName) := by simp [GetTypeName, hc]
    refine ⟨_, hT, ?_⟩
    simp only [genExportVariable, genPointerTypeExportVariable, hcl, hT, hc, if_true,
      Context.getNextExportVarSlot, bind, Except.bind, pure, Except.pure]
    rfl
  · have hT : GetTypeName (.Pointer n PointeeType storeSize allocSize) = .ok "Allocation" := by
      simp [GetTypeName, hc]
    refine ⟨_, hT, ?_⟩
    simp only [genExportVariable, genPointerTypeExportVariable, hcl, hT, hc, if_false,
      Context.getNextExportVarSlot, bind, Except.bind, pure, Except.pure]
    rfl

theorem genItemMembers_spec (fields : List (Field RSExportType))
    (hT : ∀ F ∈ fields, ∃ TypeName, GetTypeName F.type = .ok TypeName) :
    ∃ members, genItemMembers fields = .ok members ∧
      List.Forall₂ (fun F s => ∃ TypeName, GetTypeName F.type = .ok TypeName ∧
        s = JavaStmt.member TypeName F.name) fields members := by
  induction fields with
  | nil => exact ⟨[], rfl, List.Forall₂.nil⟩
  | cons F rest ih =>
    obtain ⟨TypeName, hF⟩ := hT F (List.mem_cons_self _ _)
    obtain ⟨others, hrun, hall⟩ := ih (fun G hG => hT G (List.mem_cons_of_mem _ hG))
    exact ⟨.member TypeName F.name :: others, by simp [genItemMembers, hF, hrun],
      List.Forall₂.cons ⟨TypeName, hF, rfl⟩ hall⟩

theorem genItemConstructions_spec (fields : List (Field RSExportType))
    (hT : ∀ F ∈ fields, ∃ TypeName, GetTypeName F.type = .ok TypeName) :
    ∃ constructions, genItemConstructions fields = .ok constructions ∧
      List.Forall₂ (fun F s => ∃ TypeName, GetTypeName F.type = .ok TypeName ∧
          s = JavaStmt.assign F.name (.newObject TypeName))
        (fields.filter (fun F =>
          decide (F.type.getClass = .ExportClassVector ∨
            F.type.getClass = .ExportClassRecord ∨
            F.type.getClass = .ExportClassConstantArray)))
        constructions := by
  induction fields with
  | nil => exact ⟨[], rfl, List.Forall₂.nil⟩
  | cons F rest ih =>
    obtain ⟨TypeName, hF⟩ := hT F (List.mem_cons_self _ _)
    obtain ⟨others, hrun, hall⟩ := ih (fun G hG => hT G (List.mem_cons_of_mem _ hG))
    by_cases hc : F.type.getClass = .ExportClassVector ∨
        F.type.getClass = .ExportClassRecord ∨ F.type.getClass = .ExportClassConstantArray
    · refine ⟨.assign F.name (.newObject TypeName) :: others, ?_, ?_⟩
      · have hci : constructedInItem F = true := by
          simpa [constructedInItem, or_assoc] using hc
        simp [genItemConstructions, hci, hF, hrun]
      · rw [List.filter_cons_of_pos (by simpa using hc)]
        exact List.Forall₂.cons ⟨TypeName, hF, rfl⟩ hall
    · refine ⟨others, ?_, ?_⟩
      · have hci : constructedInItem F = false := by
          simp only [not_or] at hc
          simp [constructedInItem, hc.1, hc.2.1, hc.2.2]
        simp [genItemConstructions, hci, hrun]
      · rw [List.filter_cons_of_neg (by simpa using hc)]
        exact hall

/-- C28: for a record whose fields all have a host type name, `genTypeItemClass` returns the
class `Item`: after the size constant it declares one member for each field of the record,
in declaration order, with the host type name and the name of the field; its constructor
default-constructs exactly the fields whose type is a vector, a record or a constant array,
in declaration order, and no primitive or pointer field. -/
theorem genTypeItemClass_members (fields : List (Field RSExportType)) (allocSize : Nat)
    (hT : ∀ F ∈ fields, ∃ TypeName, GetTypeName F.type = .ok TypeName) :
    ∃ members constructions,
      genTypeItemClass fields allocSize =
        .ok ([ JavaStmt.blockHead "static public class Item",
            .startBlock,
            .line ("public static final int sizeof = " ++ toString allocSize ++ ";"),
            .newline ] ++ members ++
          [ .newline, .blockHead "Item()", .startBlock ] ++ constructions ++
          [ .endBlock, .endBlock ]) ∧
      List.Forall₂ (fun F s => ∃ TypeName, GetTypeName F.type = .ok TypeName ∧
        s = JavaStmt.member TypeName F.name) fields members ∧
      List.Forall₂ (fun F s => ∃ TypeName, GetTypeName F.type = .ok TypeName ∧
          s = JavaStmt.assign F.name (.newObject TypeName))
        (fields.filter (fun F =>
          decide (F.type.getClass = .ExportClassVector ∨
            F.type.getClass = .ExportClassRecord ∨
            F.type.getClass = .ExportClassConstantArray)))
        constructions := by
  obtain ⟨members, hm, hmembers⟩ := genItemMembers_spec fields hT
  obtain ⟨constructions, hc, hconstructions⟩ := genItemConstructions_spec fields hT
  refine ⟨members, constructions, ?_, hmembers, hconstructions⟩
  simp only [genTypeItemClass, hm, hc]
  rfl

theorem genTypeItemClass_members_witness :
    ∃ members constructions,
      genTypeItemClass mixedFields 64 =
        .ok ([ JavaStmt.blockHead "static public class Item",
            .startBlock,
            .line ("public static final int sizeof = " ++ toString 64 ++ ";"),
            .newline ] ++ members ++
          [ .newline, .blockHead "Item()", .startBlock ] ++ constructions ++
          [ .endBlock, .endBlock ]) ∧
      List.Forall₂ (fun F s => ∃ TypeName, GetTypeName F.type = .ok TypeName ∧
        s = JavaStmt.member TypeName F.name) mixedFields members ∧
      List.Forall₂ (fun F s => ∃ TypeName, GetTypeName F.type = .ok TypeName ∧
          s = JavaStmt.assign F.name (.newObject TypeName))
        (mixedFields.filter (fun F =>
          decide (F.type.getClass = .ExportClassVector ∨
            F.type.getClass = .ExportClassRecord ∨
            F.type.getClass = .ExportClassConstantArray)))
        constructions :=
  genTypeItemClass_members mixedFields 64 (by
    intro F hF
    simp only [mixedFields, List.mem_cons, List.mem_singleton, List.not_mem_nil,
      or_false] at hF
    rcases hF with rfl | rfl | rfl | rfl | rfl <;> exact ⟨_, rfl⟩)

/-! ## Slots of the script class -/

theorem isBody_slot (s : JavaStmt) (h : s.isBody = true) : s.slot? = none := by
  cases s <;> simp [JavaStmt.isBody] at h <;> rfl

theorem filterMap_slot_body (body : List JavaStmt) (h : ∀ s ∈ body, s.isBody = true) :
    body.filterMap JavaStmt.slot? = [] :=
  List.filterMap_eq_nil_iff.mpr (fun s hs => isBody_slot s (h s hs))

theorem genExportVariable_context (C : Context) (EV : RSExportVar) (stmts : List JavaStmt)
    (C1 : Context) (h : genExportVariable C EV = .ok (stmts, C1)) :
    C1 = C.getNextExportVarSlot.2 := by
  unfold genExportVariable at h
  simp only [bind, Except.bind, pure, Except.pure] at h
  split at h <;> split at h <;>
    first
    | (simp only [Except.ok.injEq, Prod.mk.injEq] at h; exact h.2.symm)
    | simp at h

theorem genExportVariable_slot (C : Context) (EV : RSExportVar) (stmts : List JavaStmt)
    (C1 : Context) (h : genExportVariable C EV = .ok (stmts, C1)) :
    stmts.filterMap JavaStmt.slot? =
      [(RS_EXPORT_VAR_INDEX_PREFIX ++ EV.name, C.mNextExportVarSlot)] := by
  obtain ⟨TypeName, setter, rfl, hshape⟩ := genExportVariable_shape C EV stmts C1 h
  have hset : setter.filterMap JavaStmt.slot? = [] := by
    rcases hshape with ⟨rfl, _, _⟩ | ⟨F, body, rfl, hb, _⟩
    · rfl
    · simp [List.filterMap_cons, JavaStmt.slot?, filterMap_slot_body body hb]
  simp [List.filterMap_cons, List.filterMap_append, JavaStmt.slot?, hset,
    genGetExportVariable]

theorem genExportFunction_slot (C : Context) (EF : RSExportFunc) (stmts : List JavaStmt)
    (C1 : Context) (h : genExportFunction C EF = .ok (stmts, C1)) :
    stmts.filterMap JavaStmt.slot? =
        [(RS_EXPORT_FUNC_INDEX_PREFIX ++ EF.name, C.mNextExportFuncSlot)] ∧
      C1 = C.getNextExportFuncSlot.2 := by
  unfold genExportFunction at h
  simp only [Context.getNextExportFuncSlot, bind, Except.bind, pure, Except.pure] at h
  cases hA : genInvokeArgs EF.params with
  | error msg => simp [hA] at h
  | ok Args =>
    simp only [hA] at h
    by_cases hp : EF.hasParam = true
    · simp only [hp, not_true_eq_false, if_false] at h
      cases hk : genCreateAndPack EF.ParamPacketType none (EF.name ++ "_fp") with
      | error msg => simp [hk] at h
      | ok packed =>
        simp only [hk, Except.ok.injEq, Prod.mk.injEq] at h
        obtain ⟨rfl, rfl⟩ := h
        have hb := filterMap_slot_body packed (genCreateAndPack_body _ _ _ _ hk)
        simp [List.filterMap_cons, List.filterMap_append, JavaStmt.slot?, hb,
          Context.getNextExportFuncSlot]
    · simp only [hp, not_false_eq_true, if_true, Except.ok.injEq, Prod.mk.injEq] at h
      obtain ⟨rfl, rfl⟩ := h
      simp [List.filterMap_cons, JavaStmt.slot?, Context.getNextExportFuncSlot]

theorem genExportVariables_slots (vars : List RSExportVar) :
    ∀ (C : Context) (stmts : List JavaStmt) (C1 : Context),
      genExportVariables C vars = .ok (stmts, C1) →
      stmts.filterMap JavaStmt.slot? =
          (vars.map (fun EV => RS_EXPORT_VAR_INDEX_PREFIX ++ EV.name)).zip
            (List.range' C.mNextExportVarSlot vars.length) ∧
        C1.mNextExportVarSlot = C.mNextExportVarSlot + vars.length ∧
        C1.mNextExportFuncSlot = C.mNextExportFuncSlot := by
  induction vars with
  | nil =>
    intro C stmts C1 h
    simp only [genExportVariables, Except.ok.injEq, Prod.mk.injEq] at h
    obtain ⟨rfl, rfl⟩ := h
    simp
  | cons EV rest ih =>
    intro C stmts C1 h
    unfold genExportVariables at h
    cases h1 : genExportVariable C EV with
    | error msg => simp [h1] at h
    | ok r1 =>
      obtain ⟨first, Cm⟩ := r1
      simp only [h1] at h
      cases h2 : genExportVariables Cm rest with
      | error msg => simp [h2] at h
      | ok r2 =>
        obtain ⟨others, Ce⟩ := r2
        simp only [h2, Except.ok.injEq, Prod.mk.injEq] at h
        obtain ⟨rfl, rfl⟩ := h
        have hs := genExportVariable_slot C EV first Cm h1
        have hC := genExportVariable_context C EV first Cm h1
        obtain ⟨hr, hv, hf⟩ := ih Cm others Ce h2
        subst hC
        simp only [Context.getNextExportVarSlot] at hr hv hf
        refine ⟨?_, ?_, ?_⟩
        · rw [List.filterMap_append, hs, hr]
          simp [List.range'_succ]
        · simp only [List.length_cons]; omega
        · exact hf

theorem genExportFunctions_slots (funcs : List RSExportFunc) :
    ∀ (C : Context) (stmts : List JavaStmt) (C1 : Context),
      genExportFunctions C funcs = .ok (stmts, C1) →
      stmts.filterMap JavaStmt.slot? =
        (funcs.map (fun EF => RS_EXPORT_FUNC_INDEX_PREFIX ++ EF.name)).zip
          (List.range' C.mNextExportFuncSlot funcs.length) := by
  induction funcs with
  | nil =>
    intro C stmts C1 h
    simp only [genExportFunctions, Except.ok.injEq, Prod.mk.injEq] at h
    obtain ⟨rfl, rfl⟩ := h
    simp
  | cons EF rest ih =>
    intro C stmts C1 h
    unfold genExportFunctions at h
    cases h1 : genExportFunction C EF with
    | error msg => simp [h1] at h
    | ok r1 =>
      obtain ⟨first, Cm⟩ := r1
      simp only [h1] at h
      cases h2 : genExportFunctions Cm rest with
      | error msg => simp [h2] at h
      | ok r2 =>
        obtain ⟨others, Ce⟩ := r2
        simp only [h2, Except.ok.injEq, Prod.mk.injEq] at h
        obtain ⟨rfl, rfl⟩ := h
        obtain ⟨hs, hC⟩ := genExportFunction_slot C EF first Cm h1
        have hr := ih Cm others Ce h2
        subst hC
        simp only [Context.getNextExportFuncSlot] at hr
        rw [List.filterMap_append, hs, hr]
        simp [List.range'_succ]

/-- C21: when the two loops of the script class return (the variables first, the functions
from the context the variables leave), the slot constants among the lines of the variables
are, in declaration order, one per variable, `mExportVarIdx_<name>` with the consecutive
slots from the variable counter on; the slot constants among the lines of the functions are
one per function, `mExportFuncIdx_<name>` with the consecutive slots from the function
counter the class started with, whatever the variables were.  Both slot sequences are
strictly increasing. -/
theorem genScriptClass_slot_sequences (C C1 C2 : Context) (vars : List RSExportVar)
    (funcs : List RSExportFunc) (vs fs : List JavaStmt)
    (hv : genExportVariables C vars = .ok (vs, C1))
    (hf : genExportFunctions C1 funcs = .ok (fs, C2)) :
    vs.filterMap JavaStmt.slot? =
        (vars.map (fun EV => RS_EXPORT_VAR_INDEX_PREFIX ++ EV.name)).zip
          (List.range' C.mNextExportVarSlot vars.length) ∧
      fs.filterMap JavaStmt.slot? =
        (funcs.map (fun EF => RS_EXPORT_FUNC_INDEX_PREFIX ++ EF.name)).zip
          (List.range' C.mNextExportFuncSlot funcs.length) ∧
      List.Pairwise (fun a b => a < b) ((vs.filterMap JavaStmt.slot?).map Prod.snd) ∧
      List.Pairwise (fun a b => a < b) ((fs.filterMap JavaStmt.slot?).map Prod.snd) := by
  obtain ⟨hvs, _, hfc⟩ := genExportVariables_slots vars C vs C1 hv
  have hfs := genExportFunctions_slots funcs C1 fs C2 hf
  rw [hfc] at hfs
  refine ⟨hvs, hfs, ?_, ?_⟩
  · rw [hvs, List.map_snd_zip _ _ (by simp)]
    exact List.pairwise_lt_range' _ _
  · rw [hfs, List.map_snd_zip _ _ (by simp)]
    exact List.pairwise_lt_range' _ _

theorem genScriptClass_slot_sequences_witness :
    ∃ vs fs C1 C2,
      genExportVariables ⟨1, 3, 5⟩
        [⟨"f", floatType, false, .Uninit⟩, ⟨"p", intPointerType, true, .Uninit⟩] =
          .ok (vs, C1) ∧
      genExportFunctions C1 [twoParamFunc, noParamFunc] = .ok (fs, C2) ∧
      vs.filterMap JavaStmt.slot? = [("mExportVarIdx_f", 3), ("mExportVarIdx_p", 4)] ∧
      fs.filterMap JavaStmt.slot? = [("mExportFuncIdx_g", 5), ("mExportFuncIdx_h", 6)] :=
  ⟨_, _, ⟨1, 5, 5⟩, ⟨1, 5, 7⟩, rfl, rfl,
    (genScriptClass_slot_sequences ⟨1, 3, 5⟩ ⟨1, 5, 5⟩ ⟨1, 5, 7⟩
      [⟨"f", floatType, false, .Uninit⟩, ⟨"p", intPointerType, true, .Uninit⟩]
      [twoParamFunc, noParamFunc] _ _ rfl rfl).1,
    (genScriptClass_slot_sequences ⟨1, 3, 5⟩ ⟨1, 5, 5⟩ ⟨1, 5, 7⟩
      [⟨"f", floatType, false, .Uninit⟩, ⟨"p", intPointerType, true, .Uninit⟩]
      [twoParamFunc, noParamFunc] _ _ rfl rfl).2.1⟩

/-! ## Packed arguments: the invoke methods and the setters of vectors and records -/

/-- C22, as stated, fails: the function `f` has a parameter, of an empty record type, so its
parameter packet has the alloc size 0; no packer is declared and nothing is packed, and the
invoke still passes the packer `f_fp`. -/
theorem genExportFunction_invoke_counterexample :
    emptyParamFunc.hasParam = true ∧
      GetTypeAllocSize emptyParamFunc.ParamPacketType = 0 ∧
      genExportFunction ⟨1, 0, 0⟩ emptyParamFunc =
        .ok ([ .privateSlot "mExportFuncIdx_f" 0,
            .startFunction .AM_Public false (some "void") "invoke_f"
              [("ScriptField_Empty.Item", "e")],
            .line "invoke(mExportFuncIdx_f, f_fp);",
            .endFunction ], ⟨1, 0, 1⟩) :=
  ⟨rfl, rfl, rfl⟩

/-- C22, amended: for an exported function whose parameter types have host type names,
`genExportFunction` writes the slot constant and the method `invoke_<name>`.  Without
parameters the body is the direct invoke by slot alone.  With parameters, when the alloc
size of the parameter packet is positive and the packer walk of the packet returns, the
body is, in this order, the declaration of the packer `<name>_fp` with that size, the
packer walk of the packet with unprefixed field names, and the invoke by slot that passes
the packer. -/
theorem genExportFunction_invoke (C : Context) (EF : RSExportFunc)
    (Args : List (String × String)) (hA : genInvokeArgs EF.params = .ok Args) :
    (EF.params = [] →
      genExportFunction C EF =
        .ok ([ .privateSlot (RS_EXPORT_FUNC_INDEX_PREFIX ++ EF.name) C.mNextExportFuncSlot,
            .startFunction .AM_Public false (some "void") ("invoke_" ++ EF.name) Args,
            .line ("invoke(" ++ RS_EXPORT_FUNC_INDEX_PREFIX ++ EF.name ++ ");"),
            .endFunction ], C.getNextExportFuncSlot.2)) ∧
    (EF.params ≠ [] → 0 < GetTypeAllocSize EF.ParamPacketType →
      ∀ stmts, genPackVarOfType EF.ParamPacketType none = .ok stmts →
      genExportFunction C EF =
        .ok ([ .privateSlot (RS_EXPORT_FUNC_INDEX_PREFIX ++ EF.name) C.mNextExportFuncSlot,
            .startFunction .AM_Public false (some "void") ("invoke_" ++ EF.name) Args,
            .newFieldPacker (EF.name ++ "_fp") (GetTypeAllocSize EF.ParamPacketType) ] ++
          stmts.map (JavaStmt.pack (EF.name ++ "_fp")) ++
          [ .line ("invoke(" ++ RS_EXPORT_FUNC_INDEX_PREFIX ++ EF.name ++ ", " ++
              (EF.name ++ "_fp") ++ ");"),
            .endFunction ], C.getNextExportFuncSlot.2)) := by
  constructor
  · intro hp
    have hh : EF.hasParam = false := by simp [RSExportFunc.hasParam, hp]
    simp [genExportFunction, hA, hh, Context.getNextExportFuncSlot, bind, Except.bind, pure,
      Except.pure]
  · intro hp halloc stmts hs
    have hh : EF.hasParam = true := by
      cases hq : EF.params with
      | nil => exact absurd hq hp
      | cons P rest => simp [RSExportFunc.hasParam, hq]
    simp [genExportFunction, hA, hh, genCreateAndPack, genCreateFieldPacker, halloc, hs,
      Context.getNextExportFuncSlot, bind, Except.bind, pure, Except.pure]

theorem genExportFunction_invoke_witness :
    genExportFunction ⟨1, 0, 5⟩ noParamFunc =
        .ok ([ .privateSlot "mExportFuncIdx_h" 5,
            .startFunction .AM_Public false (some "void") "invoke_h" [],
            .line "invoke(mExportFuncIdx_h);",
            .endFunction ], ⟨1, 0, 6⟩) ∧
      genExportFunction ⟨1, 0, 5⟩ twoParamFunc =
        .ok ([ .privateSlot "mExportFuncIdx_g" 5,
            .startFunction .AM_Public false (some "void") "invoke_g"
              [("int", "a"), ("float", "b")],
            .newFieldPacker "g_fp" 8,
            .pack "g_fp" (.write "addI32" "a" 4),
            .pack "g_fp" (.write "addF32" "b" 4),
            .line "invoke(mExportFuncIdx_g, g_fp);",
            .endFunction ], ⟨1, 0, 6⟩) :=
  ⟨(genExportFunction_invoke ⟨1, 0, 5⟩ noParamFunc [] rfl).1 rfl,
    (genExportFunction_invoke ⟨1, 0, 5⟩ twoParamFunc [("int", "a"), ("float", "b")] rfl).2
      (by simp [twoParamFunc]) (by decide) _ rfl⟩

/-- C23, as stated, fails: the variable `e` is not constant and of a record type, the empty
record, whose alloc size is 0; its setter declares no packer and packs nothing, and still
passes `fp` to `setVar`. -/
theorem genExportVariable_packed_setter_counterexample :
    GetTypeAllocSize emptyRecord = 0 ∧
      genExportVariable ⟨1, 0, 0⟩ ⟨"e", emptyRecord, false, .Uninit⟩ =
        .ok ([ .privateSlot "mExportVarIdx_e" 0,
            .privateField "ScriptField_Empty.Item" "mExportVar_e",
            .startFunction .AM_Public false (some "void") "set_e"
              [("ScriptField_Empty.Item", "v")],
            .assign "mExportVar_e" (.verbatim "v"),
            .line "setVar(mExportVarIdx_e, fp);",
            .endFunction,
            .startFunction .AM_Public false (some "ScriptField_Empty.Item") "get_e" [],
            .ret "mExportVar_e",
            .endFunction ], ⟨1, 1, 0⟩) :=
  ⟨rfl, rfl⟩

/-- C23, amended: for an exported variable of vector or record type that is not constant,
whose type has a host type name and a positive alloc size and on which the packer walk
returns, the setter `set_<name>` stores its argument `v`, declares the packer `fp` with the
alloc size of the type of the variable, writes the packer walk of that type applied to `v`,
and passes the packer to `setVar`. -/
theorem genExportVariable_packed_setter (C : Context) (EV : RSExportVar) (TypeName : String)
    (stmts : List PackStmt)
    (hcls : EV.type.getClass = .ExportClassVector ∨ EV.type.getClass = .ExportClassRecord)
    (hconst : EV.isConst = false) (hT : GetTypeName EV.type = .ok TypeName)
    (halloc : 0 < GetTypeAllocSize EV.type)
    (hs : genPackVarOfType EV.type (some "v") = .ok stmts) :
    genExportVariable C EV =
      .ok ([ .privateSlot (RS_EXPORT_VAR_INDEX_PREFIX ++ EV.name) C.mNextExportVarSlot,
          .privateField TypeName (RS_EXPORT_VAR_PREFIX ++ EV.name),
          .startFunction .AM_Public false (some "void") ("set_" ++ EV.name)
            [(TypeName, "v")],
          .assign (RS_EXPORT_VAR_PREFIX ++ EV.name) (.verbatim "v"),
          .newFieldPacker "fp" (GetTypeAllocSize EV.type) ] ++
        stmts.map (JavaStmt.pack "fp") ++
        [ .line ("setVar(" ++ RS_EXPORT_VAR_INDEX_PREFIX ++ EV.name ++ ", " ++ "fp" ++ ");"),
          .endFunction ] ++ genGetExportVariable TypeName EV.name,
        C.getNextExportVarSlot.2) := by
  obtain ⟨name, type, isConst, init⟩ := EV
  simp only at hcls hconst hT halloc hs
  subst hconst
  cases type with
  | Primitive n t k s a => simp [RSExportType.getClass] at hcls
  | ConstantArray n t k s a => simp [RSExportType.getClass] at hcls
  | Pointer n p s a => simp [RSExportType.getClass] at hcls
  | Vector n t k e s a =>
    cases hv : GetVectorTypeName t e with
    | none => simp [GetTypeName, hv] at hT
    | some tn =>
      simp only [GetTypeName, hv, Except.ok.injEq] at hT
      subst hT
      simp [genExportVariable, genVectorTypeExportVariable, genPackedSetter, genCreateAndPack,
        genCreateFieldPacker, RSExportType.getClass, hv, halloc, hs,
        Context.getNextExportVarSlot, bind, Except.bind, pure, Except.pure]
  | Record n fields art s a =>
    simp only [GetTypeName, Except.ok.injEq] at hT
    subst hT
    simp [genExportVariable, genRecordTypeExportVariable, genPackedSetter, genCreateAndPack,
      genCreateFieldPacker, RSExportType.getClass, halloc, hs,
      Context.getNextExportVarSlot, bind, Except.bind, pure, Except.pure]

theorem genExportVariable_packed_setter_witness :
    genExportVariable ⟨1, 2, 0⟩ ⟨"r", exampleRecord, false, .Uninit⟩ =
      .ok ([ .privateSlot (RS_EXPORT_VAR_INDEX_PREFIX ++ "r") 2,
          .privateField "ScriptField_Example.Item" (RS_EXPORT_VAR_PREFIX ++ "r"),
          .startFunction .AM_Public false (some "void") ("set_" ++ "r")
            [("ScriptField_Example.Item", "v")],
          .assign (RS_EXPORT_VAR_PREFIX ++ "r") (.verbatim "v"),
          .newFieldPacker "fp" (GetTypeAllocSize exampleRecord) ] ++
        [ PackStmt.write "addF32" "v.x" 4, .write "addU8" "v.flag" 1, .skip 3,
          .write "addF32" "v.y" 4 ].map (JavaStmt.pack "fp") ++
        [ .line ("setVar(" ++ RS_EXPORT_VAR_INDEX_PREFIX ++ "r" ++ ", " ++ "fp" ++ ");"),
          .endFunction ] ++ genGetExportVariable "ScriptField_Example.Item" "r",
        ⟨1, 3, 0⟩) :=
  genExportVariable_packed_setter ⟨1, 2, 0⟩ ⟨"r", exampleRecord, false, .Uninit⟩
    "ScriptField_Example.Item" _ (Or.inr rfl) rfl rfl (by decide) rfl

/-! ## Opening the file of a class -/

theorem openScriptFile_stdout (host : Host) (rs : RSContext) (S : ContextSettings)
    (ClassName : String) (h : S.mUseStdout = true) :
    openScriptFile host rs S ClassName = ⟨true, none, none⟩ := by
  simp [openScriptFile, h]

theorem openScriptFile_ok (host : Host) (rs : RSContext) (S : ContextSettings)
    (ClassName : String) (h : (openScriptFile host rs S ClassName).ok = true) :
    (S.mUseStdout = true ∧ (openScriptFile host rs S ClassName).attempted = none) ∨
      (S.mUseStdout = false ∧ host.canOpen (classFilePath host rs S ClassName) = true ∧
        (openScriptFile host rs S ClassName).attempted =
          some (classFilePath host rs S ClassName)) := by
  unfold openScriptFile classFilePath at *
  by_cases hs : S.mUseStdout = true
  · left; simp [hs]
  · right
    by_cases hc : host.canOpen
        (host.ComputePackagedPath rs.reflectJavaPathName S.mPackageName ++ "/" ++ ClassName ++
          ".java") = true
    · simp [hs, hc]
    · simp [hs, hc] at h

theorem openScriptFile_failed (host : Host) (rs : RSContext) (S : ContextSettings)
    (ClassName : String) (h : (openScriptFile host rs S ClassName).ok = false) :
    S.mUseStdout = false ∧ host.canOpen (classFilePath host rs S ClassName) = false ∧
      (openScriptFile host rs S ClassName).ErrorMsg =
        some ("failed to open file '" ++ classFilePath host rs S ClassName ++
          "' for write") := by
  unfold openScriptFile classFilePath at *
  by_cases hs : S.mUseStdout = true
  · simp [hs] at h
  · by_cases hc : host.canOpen
        (host.ComputePackagedPath rs.reflectJavaPathName S.mPackageName ++ "/" ++ ClassName ++
          ".java") = true
    · simp [hs, hc] at h
    · simp [hs, hc]

theorem genTypeClass_written (host : Host) (rs : RSContext) (S : ContextSettings)
    (C C1 : Context) (ET : RSExportType) (cls : ClassFile)
    (h : genTypeClass host rs S C ET = .ok (.written cls C1)) :
    cls.ClassName = RS_TYPE_CLASS_NAME_PREFIX ++ ET.getName ∧
      (openScriptFile host rs S (RS_TYPE_CLASS_NAME_PREFIX ++ ET.getName)).ok = true ∧
      cls.file =
        (openScriptFile host rs S (RS_TYPE_CLASS_NAME_PREFIX ++ ET.getName)).attempted := by
  cases ET with
  | Primitive n t k s a => simp [genTypeClass] at h
  | Vector n t k e s a => simp [genTypeClass] at h
  | ConstantArray n t k s a => simp [genTypeClass] at h
  | Pointer n p s a => simp [genTypeClass] at h
  | Record n fields art s a =>
    simp only [genTypeClass] at h
    simp only [RSExportType.getName]
    by_cases ho : (openScriptFile host rs S (RS_TYPE_CLASS_NAME_PREFIX ++ n)).ok = true
    · simp only [ho, not_true_eq_false, if_false] at h
      cases hI : genTypeItemClass fields a with
      | error msg => simp [hI] at h
      | ok item =>
        simp only [hI] at h
        cases hK : genTypeClassConstructor C (.Record n fields art s a)
            (RS_TYPE_CLASS_NAME_PREFIX ++ n) with
        | error msg => simp [hK] at h
        | ok ctor =>
          obtain ⟨ctorLines, C2⟩ := ctor
          simp only [hK] at h
          cases hA : genTypeClassCopyToArray (.Record n fields art s a) with
          | error msg => simp [hA] at h
          | ok copyToArray =>
            simp only [hA, Except.ok.injEq, ClassResult.written.injEq] at h
            obtain ⟨rfl, _⟩ := h
            exact ⟨rfl, ho, rfl⟩
    · simp [ho] at h

theorem genTypeClass_openFailed (host : Host) (rs : RSContext) (S : ContextSettings)
    (C : Context) (ET : RSExportType) (ErrorMsg : String)
    (h : genTypeClass host rs S C ET = .ok (.openFailed ErrorMsg)) :
    (openScriptFile host rs S (RS_TYPE_CLASS_NAME_PREFIX ++ ET.getName)).ok = false ∧
      ErrorMsg =
        (openScriptFile host rs S (RS_TYPE_CLASS_NAME_PREFIX ++ ET.getName)).ErrorMsg.getD
          "" := by
  cases ET with
  | Primitive n t k s a => simp [genTypeClass] at h
  | Vector n t k e s a => simp [genTypeClass] at h
  | ConstantArray n t k s a => simp [genTypeClass] at h
  | Pointer n p s a => simp [genTypeClass] at h
  | Record n fields art s a =>
    simp only [genTypeClass] at h
    simp only [RSExportType.getName]
    by_cases ho : (openScriptFile host rs S (RS_TYPE_CLASS_NAME_PREFIX ++ n)).ok = true
    · simp only [ho, not_true_eq_false, if_false] at h
      cases hI : genTypeItemClass fields a with
      | error msg => simp [hI] at h
      | ok item =>
        simp only [hI] at h
        cases hK : genTypeClassConstructor C (.Record n fields art s a)
            (RS_TYPE_CLASS_NAME_PREFIX ++ n) with
        | error msg => simp [hK] at h
        | ok ctor =>
          obtain ⟨ctorLines, C2⟩ := ctor
          simp only [hK] at h
          cases hA : genTypeClassCopyToArray (.Record n fields art s a) with
          | error msg => simp [hA] at h
          | ok copyToArray => simp [hA] at h
    · have ho2 := Bool.eq_false_iff.mpr ho
      simp only [ho2, Bool.false_eq_true, not_false_eq_true, if_true, Except.ok.injEq,
        ClassResult.openFailed.injEq] at h
      exact ⟨ho2, h.symm⟩

theorem genScriptClass_written (host : Host) (rs : RSContext) (S : ContextSettings)
    (C C1 : Context) (ClassName : String) (cls : ClassFile)
    (h : genScriptClass host rs S C ClassName = .ok (.written cls C1)) :
    cls.ClassName = ClassName ∧ (openScriptFile host rs S ClassName).ok = true ∧
      cls.file = (openScriptFile host rs S ClassName).attempted := by
  simp only [genScriptClass] at h
  by_cases ho : (openScriptFile host rs S ClassName).ok = true
  · simp only [ho, not_true_eq_false, if_false] at h
    cases hK : genScriptClassConstructor rs ClassName with
    | error msg => simp [hK] at h
    | ok ctor =>
      obtain ⟨ctorLines, warnings⟩ := ctor
      simp only [hK] at h
      cases hV : genExportVariables C rs.exportVars with
      | error msg => simp [hV] at h
      | ok vars =>
        obtain ⟨varLines, C2⟩ := vars
        simp only [hV] at h
        cases hF : genExportFunctions C2 rs.exportFuncs with
        | error msg => simp [hF] at h
        | ok funcs =>
          obtain ⟨funcLines, C3⟩ := funcs
          simp only [hF, Except.ok.injEq, ClassResult.written.injEq] at h
          obtain ⟨rfl, _⟩ := h
          exact ⟨rfl, ho, rfl⟩
  · simp [ho] at h

theorem genScriptClass_openFailed (host : Host) (rs : RSContext) (S : ContextSettings)
    (C : Context) (ClassName ErrorMsg : String)
    (h : genScriptClass host rs S C ClassName = .ok (.openFailed ErrorMsg)) :
    (openScriptFile host rs S ClassName).ok = false ∧
      ErrorMsg = (openScriptFile host rs S ClassName).ErrorMsg.getD "" := by
  simp only [genScriptClass] at h
  by_cases ho : (openScriptFile host rs S ClassName).ok = true
  · simp only [ho, not_true_eq_false, if_false] at h
    cases hK : genScriptClassConstructor rs ClassName with
    | error msg => simp [hK] at h
    | ok ctor =>
      obtain ⟨ctorLines, warnings⟩ := ctor
      simp only [hK] at h
      cases hV : genExportVariables C rs.exportVars with
      | error msg => simp [hV] at h
      | ok vars =>
        obtain ⟨varLines, C2⟩ := vars
        simp only [hV] at h
        cases hF : genExportFunctions C2 rs.exportFuncs with
        | error msg => simp [hF] at h
        | ok funcs => simp [hF] at h
  · have ho2 := Bool.eq_false_iff.mpr ho
    simp only [ho2, Bool.false_eq_true, not_false_eq_true, if_true, Except.ok.injEq,
      ClassResult.openFailed.injEq] at h
    exact ⟨ho2, h.symm⟩

/-- The outcome of the loop of `reflect` over the exported types: the classes written are
those of the records that are not artificial, in order, up to the first whose file could not
be opened. -/
theorem reflectTypes_spec (host : Host) (rs : RSContext) (S : ContextSettings)
    (types : List RSExportType) :
    ∀ (C : Context) (done : List ClassFile) (r : ReflectResult),
      reflectTypes host rs S C done types = .ok r →
      ∃ more, r.classes = done ++ more ∧
        ((r.success = true ∧
            List.Forall₂ (WrittenTypeClass host rs S)
              (types.filter (fun ET =>
                decide (ET.getClass = .ExportClassRecord) && !ET.isArtificial)) more) ∨
          (r.success = false ∧ ∃ pre ET post,
            types.filter (fun ET =>
              decide (ET.getClass = .ExportClassRecord) && !ET.isArtificial) =
                pre ++ ET :: post ∧
            List.Forall₂ (WrittenTypeClass host rs S) pre more ∧
            (openScriptFile host rs S (RS_TYPE_CLASS_NAME_PREFIX ++ ET.getName)).ok = false ∧
            r.ErrorMsg =
              (openScriptFile host rs S
                (RS_TYPE_CLASS_NAME_PREFIX ++ ET.getName)).ErrorMsg.getD "")) := by
  induction types with
  | nil =>
    intro C done r h
    simp only [reflectTypes, Except.ok.injEq] at h
    subst h
    exact ⟨[], by simp, Or.inl ⟨rfl, List.Forall₂.nil⟩⟩
  | cons ET rest ih =>
    intro C done r h
    unfold reflectTypes at h
    by_cases hc : ET.getClass = .ExportClassRecord
    · by_cases ha : ET.isArtificial = true
      · simp only [hc, ha, if_true, not_true_eq_false, if_false] at h
        obtain ⟨more, hm, hrest⟩ := ih C done r h
        refine ⟨more, hm, ?_⟩
        have hfilter : (ET :: rest).filter (fun ET =>
            decide (ET.getClass = .ExportClassRecord) && !ET.isArtificial) =
            rest.filter (fun ET =>
              decide (ET.getClass = .ExportClassRecord) && !ET.isArtificial) := by
          simp [List.filter_cons, ha]
        rw [hfilter]
        exact hrest
      · have ha2 := Bool.eq_false_iff.mpr ha
        simp only [hc, ha2, if_true, Bool.false_eq_true, not_false_eq_true] at h
        have hfilter : (ET :: rest).filter (fun ET =>
            decide (ET.getClass = .ExportClassRecord) && !ET.isArtificial) =
            ET :: rest.filter (fun ET =>
              decide (ET.getClass = .ExportClassRecord) && !ET.isArtificial) := by
          simp [List.filter_cons, hc, ha2]
        rw [hfilter]
        cases hg : genTypeClass host rs S C ET with
        | error msg => simp [hg] at h
        | ok res =>
          cases res with
          | openFailed ErrorMsg =>
            simp only [hg, Except.ok.injEq] at h
            subst h
            have hres := genTypeClass_openFailed host rs S C ET _ hg
            exact ⟨[], by simp, Or.inr ⟨rfl, [], ET, _, rfl, List.Forall₂.nil, hres.1, hres.2⟩⟩
          | written cls C1 =>
            simp only [hg] at h
            obtain ⟨more, hm, hrest⟩ := ih C1 (done ++ [cls]) r h
            refine ⟨cls :: more, by simp [hm], ?_⟩
            rcases hrest with ⟨hs, hall⟩ | ⟨hs, pre, ET1, post, hsplit, hall, hfail, hmsg⟩
            · exact Or.inl ⟨hs, List.Forall₂.cons ⟨C, C1, hg⟩ hall⟩
            · exact Or.inr ⟨hs, ET :: pre, ET1, post, by simp [hsplit],
                List.Forall₂.cons ⟨C, C1, hg⟩ hall, hfail, hmsg⟩
    · simp only [hc, if_false] at h
      obtain ⟨more, hm, hrest⟩ := ih C done r h
      refine ⟨more, hm, ?_⟩
      have hfilter : (ET :: rest).filter (fun ET =>
          decide (ET.getClass = .ExportClassRecord) && !ET.isArtificial) =
          rest.filter (fun ET =>
            decide (ET.getClass = .ExportClassRecord) && !ET.isArtificial) := by
        simp [List.filter_cons, hc]
      rw [hfilter]
      exact hrest

/-! ## The driver -/

theorem forall₂_map_eq {α β γ : Type} {R : α → β → Prop} (f : β → γ) (g : α → γ)
    (hR : ∀ a b, R a b → f b = g a) :
    ∀ (l1 : List α) (l2 : List β), List.Forall₂ R l1 l2 → l2.map f = l1.map g := by
  intro l1 l2 h
  induction h with
  | nil => rfl
  | cons hab _ ih => simp [hR _ _ hab, ih]

theorem forall₂_mem_right {α β : Type} {R : α → β → Prop} :
    ∀ (l1 : List α) (l2 : List β), List.Forall₂ R l1 l2 → ∀ b ∈ l2, ∃ a, a ∈ l1 ∧ R a b := by
  intro l1 l2 h
  induction h with
  | nil => intro b hb; simp at hb
  | cons hab _ ih =>
    intro b hb
    rcases List.mem_cons.mp hb with rfl | hb
    · exact ⟨_, List.mem_cons_self _ _, hab⟩
    · obtain ⟨a, ha, hr⟩ := ih b hb
      exact ⟨a, List.mem_cons_of_mem _ ha, hr⟩

/-- The outcome of `reflect`, whenever it returns: all classes written; or the open of the
script class failed and nothing was written; or the script class was written and the open of
the class of one record failed, the classes of the records before it being written. -/
theorem reflect_spec (host : Host) (rs : RSContext) (OutputPackageName : Option String)
    (InputFileName OutputBCFileName : String) (r : ReflectResult)
    (h : reflect host rs OutputPackageName InputFileName OutputBCFileName = .ok r) :
    (r.success = false ∧ r.classes = [] ∧
        (openScriptFile host rs
          (reflectSettings host rs OutputPackageName InputFileName OutputBCFileName)
          (scriptClassName host InputFileName)).ok = false ∧
        r.ErrorMsg = (openScriptFile host rs
          (reflectSettings host rs OutputPackageName InputFileName OutputBCFileName)
          (scriptClassName host InputFileName)).ErrorMsg.getD "") ∨
      ∃ script more C1,
        r.classes = script :: more ∧
        genScriptClass host rs
          (reflectSettings host rs OutputPackageName InputFileName OutputBCFileName)
          Context.initial (scriptClassName host InputFileName) = .ok (.written script C1) ∧
        ((r.success = true ∧
            List.Forall₂
              (WrittenTypeClass host rs
                (reflectSettings host rs OutputPackageName InputFileName OutputBCFileName))
              (rs.exportTypes.filter (fun ET =>
                decide (ET.getClass = .ExportClassRecord) && !ET.isArtificial)) more) ∨
          (r.success = false ∧ ∃ pre ET post,
            rs.exportTypes.filter (fun ET =>
              decide (ET.getClass = .ExportClassRecord) && !ET.isArtificial) =
                pre ++ ET :: post ∧
            List.Forall₂
              (WrittenTypeClass host rs
                (reflectSettings host rs OutputPackageName InputFileName OutputBCFileName))
              pre more ∧
            (openScriptFile host rs
              (reflectSettings host rs OutputPackageName InputFileName OutputBCFileName)
              (RS_TYPE_CLASS_NAME_PREFIX ++ ET.getName)).ok = false ∧
            r.ErrorMsg = (openScriptFile host rs
              (reflectSettings host rs OutputPackageName InputFileName OutputBCFileName)
              (RS_TYPE_CLASS_NAME_PREFIX ++ ET.getName)).ErrorMsg.getD "")) := by
  simp only [reflect] at h
  cases hg : genScriptClass host rs
      (reflectSettings host rs OutputPackageName InputFileName OutputBCFileName)
      Context.initial (scriptClassName host InputFileName) with
  | error msg => simp [hg] at h
  | ok res =>
    cases res with
    | openFailed ErrorMsg =>
      simp only [hg, Except.ok.injEq] at h
      subst h
      have hres := genScriptClass_openFailed _ _ _ _ _ _ hg
      exact Or.inl ⟨rfl, rfl, hres.1, hres.2⟩
    | written cls C1 =>
      simp only [hg] at h
      obtain ⟨more, hm, hrest⟩ := reflectTypes_spec host rs _ rs.exportTypes C1 [cls] r h
      exact Or.inr ⟨cls, more, C1, by simpa using hm, rfl, hrest⟩

theorem genTypeClass_exampleRecord (host : Host) (rs : RSContext) (S : ContextSettings)
    (C : Context)
    (ho : (openScriptFile host rs S (RS_TYPE_CLASS_NAME_PREFIX ++ "Example")).ok = true) :
    ∃ cls C1, genTypeClass host rs S C exampleRecord = .ok (.written cls C1) := by
  have hb := genAdd_exampleRecord C
  obtain ⟨item, hI⟩ : ∃ item,
      genTypeItemClass [float32Field "x" 0, uint8Field "flag" 4, float32Field "y" 8] 12 =
        .ok item := ⟨_, rfl⟩
  obtain ⟨stmts, hP⟩ : ∃ stmts, genPackVarOfType exampleRecord (some "i") = .ok stmts :=
    ⟨_, rfl⟩
  unfold exampleRecord at hb hP ⊢
  simp only [genTypeClass, ho, not_true_eq_false, if_false, hI, genTypeClassConstructor,
    genBuildElement, hb, genTypeClassCopyToArray, hP]
  exact ⟨_, _, rfl⟩

theorem genScriptClass_of_open_failed (host : Host) (rs : RSContext) (S : ContextSettings)
    (C : Context) (ClassName : String)
    (ho : (openScriptFile host rs S ClassName).ok = false) :
    genScriptClass host rs S C ClassName =
      .ok (.openFailed
        ("failed to open file '" ++ classFilePath host rs S ClassName ++ "' for write")) := by
  obtain ⟨_, _, herr⟩ := openScriptFile_failed host rs S ClassName ho
  simp [genScriptClass, ho, herr]

theorem genTypeClass_of_open_failed (host : Host) (rs : RSContext) (S : ContextSettings)
    (C : Context) (ET : RSExportType) (hc : ET.getClass = .ExportClassRecord)
    (ho : (openScriptFile host rs S (RS_TYPE_CLASS_NAME_PREFIX ++ ET.getName)).ok = false) :
    genTypeClass host rs S C ET =
      .ok (.openFailed
        ("failed to open file '" ++
          classFilePath host rs S (RS_TYPE_CLASS_NAME_PREFIX ++ ET.getName) ++
          "' for write")) := by
  obtain ⟨_, _, herr⟩ := openScriptFile_failed host rs S _ ho
  cases ET with
  | Primitive n t k s a => simp [RSExportType.getClass] at hc
  | Vector n t k e s a => simp [RSExportType.getClass] at hc
  | ConstantArray n t k s a => simp [RSExportType.getClass] at hc
  | Pointer n p s a => simp [RSExportType.getClass] at hc
  | Record n fields art s a =>
    simp only [RSExportType.getName] at ho herr ⊢
    simp [genTypeClass, ho, herr]

/-- The loop of `reflect` stops at the first record whose file cannot be opened: the
classes of the records before it are written, none after it, and the result is false with
the message of the failed open. -/
theorem reflectTypes_open_failure (host : Host) (rs : RSContext) (S : ContextSettings)
    (types : List RSExportType) :
    ∀ (C : Context) (done : List ClassFile) (pre : List RSExportType) (ET : RSExportType)
      (post : List RSExportType),
      types.filter (fun ET =>
        decide (ET.getClass = .ExportClassRecord) && !ET.isArtificial) = pre ++ ET :: post →
      (∀ T ∈ pre, ∀ C0 : Context,
        ∃ cls C2, genTypeClass host rs S C0 T = .ok (.written cls C2)) →
      (openScriptFile host rs S (RS_TYPE_CLASS_NAME_PREFIX ++ ET.getName)).ok = false →
      ∃ typeClasses,
        List.Forall₂ (WrittenTypeClass host rs S) pre typeClasses ∧
        reflectTypes host rs S C done types =
          .ok { success := false, classes := done ++ typeClasses,
                ErrorMsg := "failed to open file '" ++
                  classFilePath host rs S (RS_TYPE_CLASS_NAME_PREFIX ++ ET.getName) ++
                  "' for write",
                cerr := ["Failed to generate type class for struct '" ++ ET.getName ++
                  "' (" ++
                  ("failed to open file '" ++
                    classFilePath host rs S (RS_TYPE_CLASS_NAME_PREFIX ++ ET.getName) ++
                    "' for write") ++ ")"] } := by
  induction types with
  | nil =>
    intro C done pre ET post h
    simp at h
  | cons T rest ih =>
    intro C done pre ET post hsplit hpre hopen
    by_cases hc : T.getClass = .ExportClassRecord
    · by_cases ha : T.isArtificial = true
      · have hfilter : (T :: rest).filter (fun ET =>
            decide (ET.getClass = .ExportClassRecord) && !ET.isArtificial) =
            rest.filter (fun ET =>
              decide (ET.getClass = .ExportClassRecord) && !ET.isArtificial) := by
          simp [List.filter_cons, ha]
        rw [hfilter] at hsplit
        obtain ⟨typeClasses, hall, hrun⟩ := ih C done pre ET post hsplit hpre hopen
        refine ⟨typeClasses, hall, ?_⟩
        rw [← hrun]
        simp [reflectTypes, hc, ha]
      · have ha2 := Bool.eq_false_iff.mpr ha
        have hfilter : (T :: rest).filter (fun ET =>
            decide (ET.getClass = .ExportClassRecord) && !ET.isArtificial) =
            T :: rest.filter (fun ET =>
              decide (ET.getClass = .ExportClassRecord) && !ET.isArtificial) := by
          simp [List.filter_cons, hc, ha2]
        rw [hfilter] at hsplit
        cases pre with
        | nil =>
          simp only [List.nil_append, List.cons.injEq] at hsplit
          obtain ⟨rfl, _⟩ := hsplit
          refine ⟨[], List.Forall₂.nil, ?_⟩
          simp [reflectTypes, hc, ha2, genTypeClass_of_open_failed host rs S C T hc hopen]
        | cons P pre1 =>
          simp only [List.cons_append, List.cons.injEq] at hsplit
          obtain ⟨rfl, hrest⟩ := hsplit
          obtain ⟨cls, C2, hw⟩ := hpre T (List.mem_cons_self _ _) C
          obtain ⟨typeClasses, hall, hrun⟩ := ih C2 (done ++ [cls]) pre1 ET post hrest
            (fun X hX => hpre X (List.mem_cons_of_mem _ hX)) hopen
          refine ⟨cls :: typeClasses, List.Forall₂.cons ⟨C, C2, hw⟩ hall, ?_⟩
          simp [reflectTypes, hc, ha2, hw, hrun]
    · have hfilter : (T :: rest).filter (fun ET =>
          decide (ET.getClass = .ExportClassRecord) && !ET.isArtificial) =
          rest.filter (fun ET =>
            decide (ET.getClass = .ExportClassRecord) && !ET.isArtificial) := by
        simp [List.filter_cons, hc]
      rw [hfilter] at hsplit
      obtain ⟨typeClasses, hall, hrun⟩ := ih C done pre ET post hsplit hpre hopen
      refine ⟨typeClasses, hall, ?_⟩
      rw [← hrun]
      simp [reflectTypes, hc]

/-- Whenever `reflect` returns, it returns false exactly on the first class, in the
order script class and then the records that are not artificial, whose file could not be
opened: the run is not in stdout mode, the error message is `failed to open file
'<dir>/<ClassName>.java' for write` for that class, the classes written are exactly those
before it, each into its file `<dir>/<ClassName>.java` that could be opened, and no class
after it is written.  If the file of every class can be opened, `reflect` returns true. -/
theorem reflect_failure_spec (host : Host) (rs : RSContext)
    (OutputPackageName : Option String) (InputFileName OutputBCFileName : String)
    (r : ReflectResult)
    (h : reflect host rs OutputPackageName InputFileName OutputBCFileName = .ok r) :
    (r.success = false →
      ∃ ClassName,
        (reflectSettings host rs OutputPackageName InputFileName OutputBCFileName).mUseStdout =
          false ∧
        host.canOpen (classFilePath host rs
          (reflectSettings host rs OutputPackageName InputFileName OutputBCFileName)
          ClassName) = false ∧
        r.ErrorMsg = "failed to open file '" ++ classFilePath host rs
          (reflectSettings host rs OutputPackageName InputFileName OutputBCFileName)
          ClassName ++ "' for write" ∧
        (r.classes.map ClassFile.ClassName ++ [ClassName]) <+:
          (scriptClassName host InputFileName ::
            (rs.exportTypes.filter (fun ET =>
              decide (ET.getClass = .ExportClassRecord) && !ET.isArtificial)).map
              (fun ET => RS_TYPE_CLASS_NAME_PREFIX ++ ET.getName)) ∧
        ∀ cls ∈ r.classes,
          cls.file = some (classFilePath host rs
            (reflectSettings host rs OutputPackageName InputFileName OutputBCFileName)
            cls.ClassName) ∧
          host.canOpen (classFilePath host rs
            (reflectSettings host rs OutputPackageName InputFileName OutputBCFileName)
            cls.ClassName) = true) ∧
    ((∀ ClassName ∈ scriptClassName host InputFileName ::
          (rs.exportTypes.filter (fun ET =>
            decide (ET.getClass = .ExportClassRecord) && !ET.isArtificial)).map
            (fun ET => RS_TYPE_CLASS_NAME_PREFIX ++ ET.getName),
        host.canOpen (classFilePath host rs
          (reflectSettings host rs OutputPackageName InputFileName OutputBCFileName)
          ClassName) = true) →
      r.success = true) := by
  have key : r.success = false →
      ∃ ClassName,
        (reflectSettings host rs OutputPackageName InputFileName OutputBCFileName).mUseStdout =
          false ∧
        host.canOpen (classFilePath host rs
          (reflectSettings host rs OutputPackageName InputFileName OutputBCFileName)
          ClassName) = false ∧
        r.ErrorMsg = "failed to open file '" ++ classFilePath host rs
          (reflectSettings host rs OutputPackageName InputFileName OutputBCFileName)
          ClassName ++ "' for write" ∧
        (r.classes.map ClassFile.ClassName ++ [ClassName]) <+:
          (scriptClassName host InputFileName ::
            (rs.exportTypes.filter (fun ET =>
              decide (ET.getClass = .ExportClassRecord) && !ET.isArtificial)).map
              (fun ET => RS_TYPE_CLASS_NAME_PREFIX ++ ET.getName)) ∧
        ∀ cls ∈ r.classes,
          cls.file = some (classFilePath host rs
            (reflectSettings host rs OutputPackageName InputFileName OutputBCFileName)
            cls.ClassName) ∧
          host.canOpen (classFilePath host rs
            (reflectSettings host rs OutputPackageName InputFileName OutputBCFileName)
            cls.ClassName) = true := by
    intro hfalse
    rcases reflect_spec host rs OutputPackageName InputFileName OutputBCFileName r h with
      ⟨_, hnil, hopen, hmsg⟩ | ⟨script, more, C1, hcls, hg, hrest⟩
    · obtain ⟨hstd, hcan, herr⟩ := openScriptFile_failed _ _ _ _ hopen
      refine ⟨scriptClassName host InputFileName, hstd, hcan, ?_, ?_, ?_⟩
      · rw [hmsg, herr]; rfl
      · rw [hnil]; exact ⟨_, rfl⟩
      · rw [hnil]; intro cls hc; simp at hc
    · rcases hrest with ⟨ht, _⟩ | ⟨_, pre, ET, post, hsplit, hall, hopen, hmsg⟩
      · rw [hfalse] at ht; exact absurd ht (by simp)
      · obtain ⟨hstd, hcan, herr⟩ := openScriptFile_failed _ _ _ _ hopen
        have hfile : ∀ (ClassName : String) (cls : ClassFile),
            cls.ClassName = ClassName →
            (openScriptFile host rs
              (reflectSettings host rs OutputPackageName InputFileName OutputBCFileName)
              ClassName).ok = true →
            cls.file = (openScriptFile host rs
              (reflectSettings host rs OutputPackageName InputFileName OutputBCFileName)
              ClassName).attempted →
            cls.file = some (classFilePath host rs
              (reflectSettings host rs OutputPackageName InputFileName OutputBCFileName)
              cls.ClassName) ∧
            host.canOpen (classFilePath host rs
              (reflectSettings host rs OutputPackageName InputFileName OutputBCFileName)
              cls.ClassName) = true := by
          intro ClassName cls hname hok hatt
          rcases openScriptFile_ok _ _ _ _ hok with ⟨hstd2, _⟩ | ⟨_, hcan2, hatt2⟩
          · rw [hstd] at hstd2; exact absurd hstd2 (by simp)
          · rw [hname]; exact ⟨hatt.trans hatt2, hcan2⟩
        obtain ⟨hsn, hsok, hsfile⟩ := genScriptClass_written _ _ _ _ _ _ _ hg
        have hnames : more.map ClassFile.ClassName =
            pre.map (fun ET => RS_TYPE_CLASS_NAME_PREFIX ++ ET.getName) :=
          forall₂_map_eq ClassFile.ClassName
            (fun ET => RS_TYPE_CLASS_NAME_PREFIX ++ ET.getName)
            (fun ET cls hw => by
              obtain ⟨C, C2, hw2⟩ := hw
              exact (genTypeClass_written _ _ _ _ _ _ _ hw2).1) pre more hall
        refine ⟨RS_TYPE_CLASS_NAME_PREFIX ++ ET.getName, hstd, hcan, ?_, ?_, ?_⟩
        · rw [hmsg, herr]; rfl
        · rw [hcls, hsplit]
          refine ⟨post.map (fun ET => RS_TYPE_CLASS_NAME_PREFIX ++ ET.getName), ?_⟩
          simp [hsn, hnames]
        · intro cls hc
          rw [hcls] at hc
          rcases List.mem_cons.mp hc with rfl | hc
          · exact hfile _ _ hsn hsok hsfile
          · obtain ⟨ET1, _, hw⟩ := forall₂_mem_right pre more hall cls hc
            obtain ⟨C, C2, hw2⟩ := hw
            obtain ⟨hn1, hok1, hfile1⟩ := genTypeClass_written _ _ _ _ _ _ _ hw2
            exact hfile _ _ hn1 hok1 hfile1
  refine ⟨key, ?_⟩
  intro hall
  by_contra hne
  obtain ⟨ClassName, _, hcan, _, hpre, _⟩ := key (Bool.eq_false_iff.mpr hne)
  have hmem : ClassName ∈ scriptClassName host InputFileName ::
      (rs.exportTypes.filter (fun ET =>
        decide (ET.getClass = .ExportClassRecord) && !ET.isArtificial)).map
        (fun ET => RS_TYPE_CLASS_NAME_PREFIX ++ ET.getName) := by
    obtain ⟨t, ht⟩ := hpre
    rw [← ht]
    simp
  rw [hall ClassName hmem] at hcan
  exact absurd hcan (by simp)

/-- C25: as soon as the open of the file of a class fails, `reflect` returns false and
writes no further class.  When the file of the script class cannot be opened, `reflect`
returns false with no class written.  When the script class is written and, among the
records that are not artificial, those before the record `ET` are written and the file of
the class of `ET` cannot be opened, `reflect` returns false having written the script class
and the classes of the records before `ET`, in order, and no other.  In both cases the
error message is `failed to open file '<dir>/<ClassName>.java' for write` for the class
that failed, and it is printed on the standard error.  Conversely, whenever `reflect`
returns false, it does so on the first class whose file could not be opened, and if the
file of every class can be opened `reflect`, when it returns, returns true. -/
theorem reflect_open_failure (host : Host) (rs : RSContext)
    (OutputPackageName : Option String) (InputFileName OutputBCFileName : String) :
    ((openScriptFile host rs (reflectSettings host rs OutputPackageName InputFileName OutputBCFileName) (scriptClassName host InputFileName)).ok = false →
      reflect host rs OutputPackageName InputFileName OutputBCFileName =
        .ok { success := false, classes := [],
              ErrorMsg := "failed to open file '" ++
                classFilePath host rs (reflectSettings host rs OutputPackageName InputFileName OutputBCFileName) (scriptClassName host InputFileName) ++
                "' for write",
              cerr := ["Failed to generate class " ++ scriptClassName host InputFileName ++
                " (" ++
                ("failed to open file '" ++
                  classFilePath host rs (reflectSettings host rs OutputPackageName InputFileName OutputBCFileName) (scriptClassName host InputFileName) ++
                  "' for write") ++ ")"] }) ∧
    (∀ (script : ClassFile) (C1 : Context) (pre : List RSExportType) (ET : RSExportType)
        (post : List RSExportType),
      genScriptClass host rs (reflectSettings host rs OutputPackageName InputFileName OutputBCFileName) Context.initial (scriptClassName host InputFileName) =
        .ok (.written script C1) →
      rs.exportTypes.filter (fun ET =>
        decide (ET.getClass = .ExportClassRecord) && !ET.isArtificial) = pre ++ ET :: post →
      (∀ T ∈ pre, ∀ C : Context,
        ∃ cls C2, genTypeClass host rs (reflectSettings host rs OutputPackageName InputFileName OutputBCFileName) C T = .ok (.written cls C2)) →
      (openScriptFile host rs (reflectSettings host rs OutputPackageName InputFileName OutputBCFileName) (RS_TYPE_CLASS_NAME_PREFIX ++ ET.getName)).ok = false →
      ∃ typeClasses,
        List.Forall₂ (WrittenTypeClass host rs (reflectSettings host rs OutputPackageName InputFileName OutputBCFileName)) pre typeClasses ∧
        typeClasses.map ClassFile.ClassName =
          pre.map (fun T => RS_TYPE_CLASS_NAME_PREFIX ++ T.getName) ∧
        reflect host rs OutputPackageName InputFileName OutputBCFileName =
          .ok { success := false, classes := script :: typeClasses,
                ErrorMsg := "failed to open file '" ++
                  classFilePath host rs (reflectSettings host rs OutputPackageName InputFileName OutputBCFileName) (RS_TYPE_CLASS_NAME_PREFIX ++ ET.getName) ++
                  "' for write",
                cerr := ["Failed to generate type class for struct '" ++ ET.getName ++
                  "' (" ++
                  ("failed to open file '" ++
                    classFilePath host rs (reflectSettings host rs OutputPackageName InputFileName OutputBCFileName)
                      (RS_TYPE_CLASS_NAME_PREFIX ++ ET.getName) ++
                    "' for write") ++ ")"] }) ∧
    (∀ r : ReflectResult,
      reflect host rs OutputPackageName InputFileName OutputBCFileName = .ok r →
      (r.success = false →
        ∃ ClassName,
          (reflectSettings host rs OutputPackageName InputFileName OutputBCFileName).mUseStdout = false ∧
          host.canOpen (classFilePath host rs (reflectSettings host rs OutputPackageName InputFileName OutputBCFileName) ClassName) = false ∧
          r.ErrorMsg = "failed to open file '" ++ classFilePath host rs (reflectSettings host rs OutputPackageName InputFileName OutputBCFileName) ClassName ++
            "' for write" ∧
          (r.classes.map ClassFile.ClassName ++ [ClassName]) <+:
            (scriptClassName host InputFileName ::
              (rs.exportTypes.filter (fun ET =>
                decide (ET.getClass = .ExportClassRecord) && !ET.isArtificial)).map
                (fun ET => RS_TYPE_CLASS_NAME_PREFIX ++ ET.getName)) ∧
          ∀ cls ∈ r.classes,
            cls.file = some (classFilePath host rs (reflectSettings host rs OutputPackageName InputFileName OutputBCFileName) cls.ClassName) ∧
            host.canOpen (classFilePath host rs (reflectSettings host rs OutputPackageName InputFileName OutputBCFileName) cls.ClassName) = true) ∧
      ((∀ ClassName ∈ scriptClassName host InputFileName ::
            (rs.exportTypes.filter (fun ET =>
              decide (ET.getClass = .ExportClassRecord) && !ET.isArtificial)).map
              (fun ET => RS_TYPE_CLASS_NAME_PREFIX ++ ET.getName),
          host.canOpen (classFilePath host rs (reflectSettings host rs OutputPackageName InputFileName OutputBCFileName) ClassName) = true) →
        r.success = true)) := by
  refine ⟨?_, ?_, fun r h => reflect_failure_spec host rs OutputPackageName InputFileName
    OutputBCFileName r h⟩
  · intro ho
    simp only [reflect, genScriptClass_of_open_failed host rs _ _ _ ho]
  · intro script C1 pre ET post hscript hsplit hpre hopen
    obtain ⟨typeClasses, hall, hrun⟩ := reflectTypes_open_failure host rs (reflectSettings host rs OutputPackageName InputFileName OutputBCFileName)
      rs.exportTypes C1 [script] pre ET post hsplit hpre hopen
    refine ⟨typeClasses, hall, ?_, ?_⟩
    · exact forall₂_map_eq ClassFile.ClassName
        (fun T => RS_TYPE_CLASS_NAME_PREFIX ++ T.getName)
        (fun T cls hw => by
          obtain ⟨C, C2, hw2⟩ := hw
          exact (genTypeClass_written _ _ _ _ _ _ _ hw2).1) pre typeClasses hall
    · simp only [reflect, hscript, hrun, List.singleton_append]

/-- Witness of C25: on a host where no file can be opened `reflect` stops at the script
class; on a host where only the files of the script class and of the class of the first
record can be opened, it writes these two classes and stops at the class of the second
record. -/
theorem reflect_open_failure_witness :
    (openScriptFile closedHost exampleContext
        (reflectSettings closedHost exampleContext (some "com.x") "script" "script.bc")
        (scriptClassName closedHost "script")).ok = false ∧
      reflect closedHost exampleContext (some "com.x") "script" "script.bc" =
        .ok { success := false, classes := [],
              ErrorMsg := "failed to open file 'out/com.x/ScriptC_script.java' for write",
              cerr := ["Failed to generate class ScriptC_script (failed to open file " ++
                "'out/com.x/ScriptC_script.java' for write)"] } ∧
      (openScriptFile twoClassHost twoRecordContext
        (reflectSettings twoClassHost twoRecordContext (some "com.x") "script" "script.bc")
        (RS_TYPE_CLASS_NAME_PREFIX ++ paddedRecord.getName)).ok = false ∧
      ∃ script typeClasses,
        typeClasses.map ClassFile.ClassName = ["ScriptField_Example"] ∧
        script.ClassName = "ScriptC_script" ∧
        reflect twoClassHost twoRecordContext (some "com.x") "script" "script.bc" =
          .ok { success := false, classes := script :: typeClasses,
                ErrorMsg :=
                  "failed to open file 'out/com.x/ScriptField_Padded.java' for write",
                cerr := ["Failed to generate type class for struct 'Padded' (failed to " ++
                  "open file 'out/com.x/ScriptField_Padded.java' for write)"] } := by
  refine ⟨rfl,
    (reflect_open_failure closedHost exampleContext (some "com.x") "script" "script.bc").1 rfl,
    rfl, ?_⟩
  obtain ⟨script, C1, hS, hn⟩ : ∃ script C1,
      genScriptClass twoClassHost twoRecordContext
        (reflectSettings twoClassHost twoRecordContext (some "com.x") "script" "script.bc")
        Context.initial (scriptClassName twoClassHost "script") = .ok (.written script C1) ∧
      script.ClassName = "ScriptC_script" := ⟨_, _, rfl, rfl⟩
  obtain ⟨typeClasses, _, hnames, hrun⟩ :=
    (reflect_open_failure twoClassHost twoRecordContext (some "com.x") "script"
      "script.bc").2.1 script C1 [exampleRecord] paddedRecord [] hS rfl
      (fun T hT C => by
        rw [List.mem_singleton.mp hT]
        exact genTypeClass_exampleRecord _ _ _ C rfl)
      rfl
  exact ⟨script, typeClasses, hnames, hn, hrun⟩

/-- C26: `reflect` runs in stdout mode exactly when the package name is null, empty or `-`;
in stdout mode `openScriptFile` opens no file and succeeds, whatever the class, and
`reflect`, whenever it returns, returns true with no class written to a file. -/
theorem reflect_stdout_mode (host : Host) (rs : RSContext)
    (OutputPackageName : Option String) (InputFileName OutputBCFileName : String) :
    ((reflectSettings host rs OutputPackageName InputFileName OutputBCFileName).mUseStdout =
        true ↔
      (OutputPackageName = none ∨ OutputPackageName = some "" ∨
        OutputPackageName = some "-")) ∧
    (∀ (S : ContextSettings) (ClassName : String), S.mUseStdout = true →
      openScriptFile host rs S ClassName = ⟨true, none, none⟩) ∧
    (∀ r : ReflectResult,
      (reflectSettings host rs OutputPackageName InputFileName OutputBCFileName).mUseStdout =
        true →
      reflect host rs OutputPackageName InputFileName OutputBCFileName = .ok r →
      r.success = true ∧ ∀ cls ∈ r.classes, cls.file = none) := by
  refine ⟨?_, fun S ClassName hS => openScriptFile_stdout host rs S ClassName hS, ?_⟩
  · cases OutputPackageName with
    | none => simp [reflectSettings, useStdout]
    | some name =>
      by_cases h1 : name = ""
      · simp [reflectSettings, useStdout, h1]
      · by_cases h2 : name = "-"
        · simp [reflectSettings, useStdout, h2]
        · simp [reflectSettings, useStdout, h1, h2]
  · intro r hstd h
    have hopen : ∀ ClassName, (openScriptFile host rs
        (reflectSettings host rs OutputPackageName InputFileName OutputBCFileName)
        ClassName) = ⟨true, none, none⟩ :=
      fun ClassName => openScriptFile_stdout host rs _ ClassName hstd
    rcases reflect_spec host rs OutputPackageName InputFileName OutputBCFileName r h with
      ⟨_, _, hfail, _⟩ | ⟨script, more, C1, hcls, hg, hrest⟩
    · rw [hopen] at hfail; exact absurd hfail (by simp)
    · rcases hrest with ⟨ht, hall⟩ | ⟨_, pre, ET, post, _, _, hfail, _⟩
      · refine ⟨ht, ?_⟩
        intro cls hc
        rw [hcls] at hc
        rcases List.mem_cons.mp hc with rfl | hc
        · have hf := (genScriptClass_written _ _ _ _ _ _ _ hg).2.2
          rw [hopen] at hf; exact hf
        · obtain ⟨ET1, _, hw⟩ := forall₂_mem_right _ more hall cls hc
          obtain ⟨C, C2, hw2⟩ := hw
          have hf := (genTypeClass_written _ _ _ _ _ _ _ hw2).2.2
          rw [hopen] at hf; exact hf
      · rw [hopen] at hfail; exact absurd hfail (by simp)

/-! ## The constructors of the generic builder path -/

/-- C32, as stated, fails: a vector of 4 float32 components of user kind has no builtin
constructor and is declared in the generic path with the vector constructor, carrying the
data-type tag and the arity, not with the user constructor. -/
theorem genAddElementToElementBuilder_generic_counterexample :
    GetBuiltinElementConstruct float4Type = none ∧
      genAddElementToElementBuilder ⟨1, 0, 0⟩ float4Type "v" =
        .ok ([.add (.createVector (some "Element.DataType.FLOAT_32") 4) "v" 16],
          ⟨1, 0, 0⟩) :=
  ⟨rfl, rfl⟩

/-- C32, amended: in the generic builder path (the type is a primitive, a vector or a
constant array without a builtin constructor) the one field declared is built, for the
kinds color, position, texture, normal and point-size, with `createAttrib` carrying the
data-type tag, the kind tag and the size, the arity of a vector and 1 otherwise; for the
pixel kinds L, A, LA, RGB and RGBA with `createVector` carrying the data-type tag and the
kind tag and no size; for the user kind with `createUser` carrying the data-type tag when the
type is a primitive or a constant array, and with `createVector` carrying the data-type tag
and the arity when it is a vector. -/
theorem genAddElementToElementBuilder_generic (C : Context) (name VarName : String)
    (type : DataType) (kind : DataKind) (numElement storeSize allocSize : Nat)
    (isVector : Bool) (ET : RSExportType)
    (hET : ET = .Primitive name type kind storeSize allocSize ∧ isVector = false ∨
      ET = .ConstantArray name type kind storeSize allocSize ∧ isVector = false ∨
      ET = .Vector name type kind numElement storeSize allocSize ∧ isVector = true)
    (hgen : GetBuiltinElementConstruct ET = none) :
    ((kind = DataKindColor ∨ kind = DataKindPosition ∨ kind = DataKindTexture ∨
        kind = DataKindNormal ∨ kind = DataKindPointSize) →
      genAddElementToElementBuilder C ET VarName =
        .ok ([.add (.createAttrib (GetElementDataTypeName type) (GetElementDataKindName kind)
          (if isVector then numElement else 1)) VarName storeSize], C)) ∧
    ((kind = DataKindPixelL ∨ kind = DataKindPixelA ∨ kind = DataKindPixelLA ∨
        kind = DataKindPixelRGB ∨ kind = DataKindPixelRGBA) →
      genAddElementToElementBuilder C ET VarName =
        .ok ([.add (.createVectorKind (GetElementDataTypeName type)
          (GetElementDataKindName kind)) VarName storeSize], C)) ∧
    (kind = DataKindUser →
      genAddElementToElementBuilder C ET VarName =
        .ok ([.add (if isVector then .createVector (GetElementDataTypeName type) numElement
          else .createUser (GetElementDataTypeName type)) VarName storeSize], C)) := by
  refine ⟨?_, ?_, ?_⟩
  · intro hk
    rcases hET with ⟨rfl, rfl⟩ | ⟨rfl, rfl⟩ | ⟨rfl, rfl⟩ <;>
      simp only [genAddElementToElementBuilder, hgen] <;>
      rcases hk with rfl | rfl | rfl | rfl | rfl <;> rfl
  · intro hk
    rcases hET with ⟨rfl, rfl⟩ | ⟨rfl, rfl⟩ | ⟨rfl, rfl⟩ <;>
      simp only [genAddElementToElementBuilder, hgen] <;>
      rcases hk with rfl | rfl | rfl | rfl | rfl <;> rfl
  · intro hk
    subst hk
    rcases hET with ⟨rfl, rfl⟩ | ⟨rfl, rfl⟩ | ⟨rfl, rfl⟩ <;>
      simp only [genAddElementToElementBuilder, hgen] <;> rfl

theorem genAddElementToElementBuilder_generic_witness :
    genAddElementToElementBuilder ⟨1, 0, 0⟩
        (.Vector "float3" DataTypeFloat32 DataKindColor 3 12 16) "c" =
        .ok ([.add (.createAttrib (some "Element.DataType.FLOAT_32")
          (some "Element.DataKind.COLOR") 3) "c" 12], ⟨1, 0, 0⟩) ∧
      genAddElementToElementBuilder ⟨1, 0, 0⟩
        (.Primitive "uchar" DataTypeUnsigned8 DataKindPixelL 1 1) "l" =
        .ok ([.add (.createVectorKind (some "Element.DataType.UNSIGNED_8")
          (some "Element.DataKind.PIXEL_L")) "l" 1], ⟨1, 0, 0⟩) ∧
      genAddElementToElementBuilder ⟨1, 0, 0⟩
        (.Primitive "short" DataTypeSigned16 DataKindUser 2 2) "s" =
        .ok ([.add (.createUser (some "Element.DataType.SIGNED_16")) "s" 2], ⟨1, 0, 0⟩) :=
  ⟨(genAddElementToElementBuilder_generic ⟨1, 0, 0⟩ "float3" "c" DataTypeFloat32
      DataKindColor 3 12 16 true _ (Or.inr (Or.inr ⟨rfl, rfl⟩)) rfl).1 (Or.inl rfl),
    (genAddElementToElementBuilder_generic ⟨1, 0, 0⟩ "uchar" "l" DataTypeUnsigned8
      DataKindPixelL 0 1 1 false _ (Or.inl ⟨rfl, rfl⟩) rfl).2.1 (Or.inl rfl),
    (genAddElementToElementBuilder_generic ⟨1, 0, 0⟩ "short" "s" DataTypeSigned16
      DataKindUser 0 2 2 false _ (Or.inl ⟨rfl, rfl⟩) rfl).2.2 rfl⟩

/-! ## The skips of the packer walk -/

theorem genPackFields_pos (fields : List (Field RSExportType)) :
    ∀ (VarName : Option String) (Pos : Nat) (stmts : List PackStmt) (Pos1 : Nat),
      genPackFields fields VarName Pos = .ok (stmts, Pos1) →
      Pos1 = match fields.getLast? with
        | none => Pos
        | some F => toPos (F.offsetInParent + GetTypeAllocSize F.type) := by
  induction fields with
  | nil =>
    intro VarName Pos stmts Pos1 h
    simp only [genPackFields, pure, Except.pure, Except.ok.injEq, Prod.mk.injEq] at h
    simp [h.2]
  | cons F rest ih =>
    intro VarName Pos stmts Pos1 h
    simp only [genPackFields, bind, Except.bind, pure, Except.pure] at h
    cases hb : genPackVarOfType F.type (some (packFieldName VarName F)) with
    | error msg => simp [hb] at h
    | ok body =>
      simp only [hb] at h
      cases ht : genPackFields rest VarName
          (toPos (F.offsetInParent + GetTypeAllocSize F.type)) with
      | error msg => simp [ht] at h
      | ok r =>
        obtain ⟨tail, P2⟩ := r
        simp only [ht, Except.ok.injEq, Prod.mk.injEq] at h
        have hr := ih VarName _ tail P2 ht
        rw [← h.2, hr]
        cases rest with
        | nil => simp
        | cons G more =>
          rw [List.getLast?_cons_cons]
          cases hl : (G :: more).getLast? with
          | none => simp [List.getLast?_eq_none_iff] at hl
          | some L => rfl

/-- C33, as stated, fails: the only field of `shortRecord` ends at 4, the alloc size of the
record is 2, not greater than 4, and the walk still ends with a skip, of the unsigned
difference 2 - 4. -/
theorem genPackVarOfType_trailing_skip_counterexample :
    lastFieldEnd [int32Field "a" 0] = 4 ∧
      genPackVarOfType shortRecord (some "v") =
        .ok [.write "addI32" "v.a" 4, .skip 4294967294] :=
  ⟨rfl, rfl⟩

/-- C33, amended: for a record type whose leaves have a write method and whose last field
ends at `Pos`, its offset plus the alloc size of its type (0 without fields), at or before
the alloc size of the record, a `size_t` value, `genPackVarOfType` returns the lines of the
field loop followed by one trailing skip of `allocSize - Pos` when `allocSize > Pos`, and by
nothing otherwise. -/
theorem genPackVarOfType_trailing_skip (name : String) (fields : List (Field RSExportType))
    (artificial : Bool) (storeSize allocSize : Nat) (VarName : Option String)
    (hm : FieldsPackerAPIMapped fields = true)
    (hend : lastFieldEnd fields ≤ allocSize) (hrep : allocSize < SIZE_MOD) :
    ∃ fieldStmts,
      genPackFields fields VarName 0 = .ok (fieldStmts, lastFieldEnd fields) ∧
      genPackVarOfType (.Record name fields artificial storeSize allocSize) VarName =
        .ok (fieldStmts ++
          if allocSize > lastFieldEnd fields then [.skip (allocSize - lastFieldEnd fields)]
          else []) := by
  obtain ⟨fieldStmts, Pos1, hrun, _⟩ := genPack_leaves.2 fields VarName 0 hm
  have hpos := genPackFields_pos fields VarName 0 fieldStmts Pos1 hrun
  have hlast : Pos1 = lastFieldEnd fields := by
    rw [hpos]
    unfold lastFieldEnd at hend ⊢
    cases hl : fields.getLast? with
    | none => rfl
    | some F =>
      simp only [hl] at hend ⊢
      exact toPos_of_lt _ (by omega)
  subst hlast
  refine ⟨fieldStmts, hrun, ?_⟩
  simp only [genPackVarOfType, hrun, bind, Except.bind, pure, Except.pure,
    subSizeT_of_le allocSize _ hend hrep]
  by_cases hgt : allocSize > lastFieldEnd fields
  · have : allocSize - lastFieldEnd fields > 0 := by omega
    simp [hgt, this]
  · have : ¬ allocSize - lastFieldEnd fields > 0 := by omega
    simp [hgt, this]

theorem genPackVarOfType_trailing_skip_witness :
    FieldsPackerAPIMapped [int32Field "a" 0, uint8Field "b" 4] = true ∧
      lastFieldEnd [int32Field "a" 0, uint8Field "b" 4] = 5 ∧
      genPackVarOfType paddedRecord (some "v") =
        .ok [.write "addI32" "v.a" 4, .write "addU8" "v.b" 1, .skip 3] ∧
      ∃ fieldStmts,
        genPackFields [int32Field "a" 0, uint8Field "b" 4] (some "v") 0 =
          .ok (fieldStmts, lastFieldEnd [int32Field "a" 0, uint8Field "b" 4]) ∧
        genPackVarOfType paddedRecord (some "v") =
          .ok (fieldStmts ++
            if 8 > lastFieldEnd [int32Field "a" 0, uint8Field "b" 4] then
              [.skip (8 - lastFieldEnd [int32Field "a" 0, uint8Field "b" 4])]
            else []) :=
  ⟨by decide, rfl, rfl,
    genPackVarOfType_trailing_skip "Padded" [int32Field "a" 0, uint8Field "b" 4] false 5 8
      (some "v") (by decide) (by decide) (by decide)⟩

theorem genPack_skips_positive :
    (∀ ET : RSExportType, ∀ (VarName : Option String) (stmts : List PackStmt),
      SizesRepresentable ET = true → genPackVarOfType ET VarName = .ok stmts →
      ∀ n, PackStmt.skip n ∈ stmts → 0 < n) ∧
    (∀ fields : List (Field RSExportType), ∀ (VarName : Option String) (Pos : Nat)
        (stmts : List PackStmt) (Pos1 : Nat),
      FieldSizesRepresentable fields = true →
      genPackFields fields VarName Pos = .ok (stmts, Pos1) →
      ∀ n, PackStmt.skip n ∈ stmts → 0 < n) := by
  have leafCase : ∀ (api v : String) (s : Nat) (stmts : List PackStmt),
      (Except.ok [PackStmt.write api v s] : Except Fatal (List PackStmt)) = .ok stmts →
      ∀ n, PackStmt.skip n ∈ stmts → 0 < n := by
    intro api v s stmts h n hn
    simp only [Except.ok.injEq] at h
    subst h
    simp at hn
  apply walk_induction
  · intro n t k s a VarName stmts _ h
    simp only [genPackVarOfType, bind, Except.bind, pure, Except.pure] at h
    cases ha : streamPackerAPIName t with
    | error msg => simp [ha] at h
    | ok api =>
      cases hv : streamVarName VarName with
      | error msg => simp [ha, hv] at h
      | ok v => simp only [ha, hv] at h; exact leafCase _ _ _ _ h
  · intro n t k e s a VarName stmts _ h
    simp only [genPackVarOfType, bind, Except.bind, pure, Except.pure] at h
    cases ha : streamPackerAPIName t with
    | error msg => simp [ha] at h
    | ok api =>
      cases hv : streamVarName VarName with
      | error msg => simp [ha, hv] at h
      | ok v => simp only [ha, hv] at h; exact leafCase _ _ _ _ h
  · intro n t k s a VarName stmts _ h
    simp only [genPackVarOfType, bind, Except.bind, pure, Except.pure] at h
    cases hv : streamVarName VarName with
    | error msg =>
      by_cases hn : n = "addObj"
      · simp [hn, hv] at h
      · cases ha : streamPackerAPIName t <;> simp [hn, hv, ha] at h
    | ok v =>
      by_cases hn : n = "addObj"
      · simp only [hn, if_true, hv] at h; exact leafCase _ _ _ _ h
      · cases ha : streamPackerAPIName t with
        | error msg => simp [hn, ha] at h
        | ok api => simp only [hn, if_false, ha, hv] at h; exact leafCase _ _ _ _ h
  · intro n p s a VarName stmts _ h
    simp only [genPackVarOfType, bind, Except.bind, pure, Except.pure] at h
    cases hv : streamVarName VarName with
    | error msg => split at h <;> simp [hv] at h
    | ok v => split at h <;> (simp only [hv] at h; exact leafCase _ _ _ _ h)
  · intro n fields art s a ih VarName stmts hr h
    simp only [genPackVarOfType, bind, Except.bind, pure, Except.pure] at h
    cases hf : genPackFields fields VarName 0 with
    | error msg => simp [hf] at h
    | ok r =>
      obtain ⟨fieldStmts, Pos⟩ := r
      simp only [hf, Except.ok.injEq] at h
      subst h
      intro m hm
      rcases List.mem_append.mp hm with hm | hm
      · exact ih VarName 0 fieldStmts Pos (by simpa [SizesRepresentable] using hr) hf m hm
      · split at hm
        · simp only [List.mem_singleton, PackStmt.skip.injEq] at hm
          omega
        · simp at hm
  · intro VarName Pos stmts Pos1 _ h
    simp only [genPackFields, pure, Except.pure, Except.ok.injEq, Prod.mk.injEq] at h
    intro n hn
    rw [← h.1] at hn
    simp at hn
  · intro F rest ihF ihr VarName Pos stmts Pos1 hr h
    simp only [FieldSizesRepresentable, Bool.and_eq_true, decide_eq_true_eq] at hr
    obtain ⟨⟨⟨⟨hoff, hstore⟩, halloc⟩, hF⟩, hrest⟩ := hr
    simp only [genPackFields, bind, Except.bind, pure, Except.pure] at h
    cases hb : genPackVarOfType F.type (some (packFieldName VarName F)) with
    | error msg => simp [hb] at h
    | ok body =>
      simp only [hb] at h
      cases ht : genPackFields rest VarName
          (toPos (F.offsetInParent + GetTypeAllocSize F.type)) with
      | error msg => simp [ht] at h
      | ok r =>
        obtain ⟨tail, P2⟩ := r
        simp only [ht, Except.ok.injEq, Prod.mk.injEq] at h
        obtain ⟨rfl, _⟩ := h
        intro m hm
        simp only [List.mem_append] at hm
        rcases hm with ((hm | hm) | hm) | hm
        · split at hm
          · rename_i hgt
            simp only [List.mem_singleton, PackStmt.skip.injEq] at hm
            rw [hm, subSizeT_of_le _ _ (Nat.le_of_lt hgt) hoff]
            omega
          · simp at hm
        · exact ihF _ body hF hb m hm
        · split at hm
          · rename_i hgt
            simp only [List.mem_singleton, PackStmt.skip.injEq] at hm
            rw [hm, subSizeT_of_le _ _ (Nat.le_of_lt hgt) halloc]
            omega
          · simp at hm
        · exact ihr VarName _ tail P2 hrest ht m hm

/-- C34: whenever the packer walk returns, on a type of any class whose field offsets and
sizes are `size_t` values, in any order and with any overlap, every skip it wrote has a
strictly positive count: `genPackVarOfType` never writes `skip(0)`. -/
theorem genPackVarOfType_skip_positive (ET : RSExportType) (VarName : Option String)
    (stmts : List PackStmt) (hrep : SizesRepresentable ET = true)
    (h : genPackVarOfType ET VarName = .ok stmts) :
    ∀ n, PackStmt.skip n ∈ stmts → 0 < n :=
  genPack_skips_positive.1 ET VarName stmts hrep h

theorem genPackVarOfType_skip_positive_witness :
    SizesRepresentable shortRecord = true ∧
      genPackVarOfType shortRecord (some "v") =
        .ok [.write "addI32" "v.a" 4, .skip 4294967294] ∧
      ∀ n, PackStmt.skip n ∈ [PackStmt.write "addI32" "v.a" 4, .skip 4294967294] → 0 < n :=
  ⟨by decide, rfl,
    genPackVarOfType_skip_positive shortRecord (some "v") _ (by decide) rfl⟩

/-! ## The trailing padding of the builder walk -/

theorem padding_chunk_bytes (s : BuildStmt) (n : Nat) (h : s.padding? = some n) :
    n = 4 ∨ n = 2 ∨ n = 1 := by
  cases s with
  | add e v b => simp [BuildStmt.padding?] at h
  | addPadding chunk v =>
    simp only [BuildStmt.padding?, Option.some.injEq] at h
    subst h
    cases chunk
    · exact Or.inl rfl
    · exact Or.inr (Or.inl rfl)
    · exact Or.inr (Or.inr rfl)

/-- For a record type whose fields, at every depth, are in increasing, non-overlapping
offset order and end within the store size of their record, and whose leaves are all tagged,
the builder walk returns the lines of the field loop, which declare the bytes up to the end
`Pos` of the last field, followed by the padding fields for `storeSize - Pos` bytes: the
trailing padding is measured against the store size, whatever the alloc size.  The lines
declare exactly `storeSize` bytes, a real field counted at the store size of its type and
every padding field being of 4, 2 or 1 bytes. -/
theorem genAdd_trailing_storeSize (name : String)
    (fields : List (Field RSExportType)) (artificial : Bool) (storeSize allocSize : Nat)
    (C : Context) (VarName : String)
    (hOrdered :
      OffsetsOrdered withinStore (.Record name fields artificial storeSize allocSize) = true)
    (hTagged : ElementTagged (.Record name fields artificial storeSize allocSize) = true) :
    ∃ fieldStmts C1 Pos,
      genAddFields C fields VarName 0 = .ok (fieldStmts, C1, Pos) ∧
      Pos ≤ storeSize ∧ declaredBytes fieldStmts = Pos ∧
      genAddElementToElementBuilder C (.Record name fields artificial storeSize allocSize)
          VarName =
        .ok (fieldStmts ++ (genAddPaddingToElementBuiler C1 (storeSize - Pos)).1,
          (genAddPaddingToElementBuiler C1 (storeSize - Pos)).2) ∧
      declaredBytes (genAddPaddingToElementBuiler C1 (storeSize - Pos)).1 = storeSize - Pos ∧
      declaredBytes (fieldStmts ++ (genAddPaddingToElementBuiler C1 (storeSize - Pos)).1) =
        storeSize ∧
      ∀ s ∈ fieldStmts ++ (genAddPaddingToElementBuiler C1 (storeSize - Pos)).1,
        ∀ n, s.padding? = some n → n = 4 ∨ n = 2 ∨ n = 1 := by
  simp only [OffsetsOrdered, withinStore, Bool.and_eq_true, decide_eq_true_eq] at hOrdered
  have hT : FieldsElementTagged fields = true := by simpa [ElementTagged] using hTagged
  obtain ⟨fieldStmts, C1, Pos, hrun, hpos, hle⟩ :=
    genAdd_bytes.2 fields C VarName 0 storeSize hOrdered.1 hOrdered.2 hT
  have hbytes : declaredBytes fieldStmts = Pos := by omega
  refine ⟨fieldStmts, C1, Pos, hrun, hle, hbytes, ?_, genAddPadding_declared _ _, ?_,
    fun s _ n hn => padding_chunk_bytes s n hn⟩
  · rw [genAdd_record_ok hT hrun, subSizeT_of_le storeSize Pos hle hOrdered.1]
  · rw [declaredBytes_append, genAddPadding_declared, hbytes]
    omega

/-- The walk over `paddedRecord`, of store size 5 and alloc size 8: no trailing padding. -/
theorem genAdd_trailing_storeSize_paddedRecord :
    OffsetsOrdered withinStore paddedRecord = true ∧ ElementTagged paddedRecord = true ∧
      GetTypeStoreSize paddedRecord = 5 ∧ GetTypeAllocSize paddedRecord = 8 ∧
      ∃ fieldStmts C1 Pos,
        genAddFields ⟨1, 0, 0⟩ [int32Field "a" 0, uint8Field "b" 4] "" 0 =
          .ok (fieldStmts, C1, Pos) ∧
        Pos ≤ 5 ∧ declaredBytes fieldStmts = Pos ∧
        genAddElementToElementBuilder ⟨1, 0, 0⟩ paddedRecord "" =
          .ok (fieldStmts ++ (genAddPaddingToElementBuiler C1 (5 - Pos)).1,
            (genAddPaddingToElementBuiler C1 (5 - Pos)).2) ∧
        declaredBytes (genAddPaddingToElementBuiler C1 (5 - Pos)).1 = 5 - Pos ∧
        declaredBytes (fieldStmts ++ (genAddPaddingToElementBuiler C1 (5 - Pos)).1) = 5 ∧
        ∀ s ∈ fieldStmts ++ (genAddPaddingToElementBuiler C1 (5 - Pos)).1,
          ∀ n, s.padding? = some n → n = 4 ∨ n = 2 ∨ n = 1 :=
  ⟨by decide, by decide, rfl, rfl,
    genAdd_trailing_storeSize "Padded"
      [int32Field "a" 0, uint8Field "b" 4] false 5 8 ⟨1, 0, 0⟩ "" (by decide) (by decide)⟩

/-- C35 fails on `doubleRecord`, the record `{double d at 0; int32 a at 8}` of store size 12,
whose fields are in order and end within its store size: the user `double` has no one-call
constructor and no data-type tag, the line that declares `d` streams the null tag and is
cut there, and nothing after it reaches the output, neither the declaration of `a` nor any
padding field.  The output does not declare the 12 bytes of the store size. -/
theorem genAddElementToElementBuilder_trailing_null_tag :
    OffsetsOrdered withinStore doubleRecord = true ∧
      GetTypeStoreSize doubleRecord = 12 ∧
      GetBuiltinElementConstruct (.Primitive "double" DataTypeFloat64 DataKindUser 8 8) =
        none ∧
      GetElementDataTypeName DataTypeFloat64 = none ∧
      genAddElementToElementBuilder ⟨1, 0, 0⟩ doubleRecord "" =
        .ok ([.add (.createUser none) "d" 8], ⟨1, 0, 0⟩) ∧
      (BuildStmt.add (.createUser none) "d" 8).render "eb" "rs" = none ∧
      declaredBytes [.add (.createUser none) "d" 8] < 12 := by
  refine ⟨by decide, rfl, rfl, rfl, ?_, rfl, by decide⟩
  have e0 : subSizeT 0 0 = 0 := rfl
  have e1 : subSizeT 8 8 = 0 := rfl
  have e2 : subSizeT 8 (toPos (0 + 8)) = 0 := rfl
  have e3 : subSizeT 4 4 = 0 := rfl
  have e4 : subSizeT 12 (toPos (8 + 4)) = 0 := rfl
  have b1 : GetBuiltinElementConstructPrimitive DataTypeFloat64 DataKindUser = none := rfl
  have b2 : GetBuiltinElementConstructPrimitive DataTypeSigned32 DataKindUser = some "I32" :=
    rfl
  have g1 : genericElementExpr false DataTypeFloat64 DataKindUser 1 = .createUser none := rfl
  simp [doubleRecord, genAddElementToElementBuilder, genAddFields, int32Field,
    GetBuiltinElementConstruct, GetTypeStoreSize, GetTypeAllocSize, e0, e1, e2, e3, e4,
    genAddPadding_zero, buildFieldName, b1, b2, g1]
  simp only [streamWritten, BuildStmt.cut, ElementExpr.cut, Option.isNone_none, if_true,
    Bool.false_eq_true, if_false]
  rfl

/-! ## The guard of the packer declaration -/

/-- C36: when the alloc size of a type is 0, `genCreateFieldPacker` writes nothing and
returns false; `genExportFunction`, for a function with parameters whose packet has the
alloc size 0, and `genExportVariable`, for a vector or record variable that is not constant
and whose type has the alloc size 0, then write no packer declaration and no pack line, and
still write the `invoke` or `setVar` line that names the packer.  When the alloc size is
positive the declaration is written, and in the lines of the function and of the setter it
comes before the pack lines of the walk and the `invoke` or `setVar` line: before it the
method holds at most the store of the argument into the field. -/
theorem genCreateFieldPacker_guard :
    (∀ (ET : RSExportType) (FieldPackerName : String), GetTypeAllocSize ET = 0 →
      genCreateFieldPacker ET FieldPackerName = ([], false)) ∧
    (∀ (C : Context) (EF : RSExportFunc) (Args : List (String × String)),
      genInvokeArgs EF.params = .ok Args → EF.params ≠ [] →
      GetTypeAllocSize EF.ParamPacketType = 0 →
      genExportFunction C EF =
        .ok ([ .privateSlot (RS_EXPORT_FUNC_INDEX_PREFIX ++ EF.name) C.mNextExportFuncSlot,
            .startFunction .AM_Public false (some "void") ("invoke_" ++ EF.name) Args,
            .line ("invoke(" ++ RS_EXPORT_FUNC_INDEX_PREFIX ++ EF.name ++ ", " ++
              (EF.name ++ "_fp") ++ ");"),
            .endFunction ], C.getNextExportFuncSlot.2)) ∧
    (∀ (C : Context) (EV : RSExportVar) (TypeName : String),
      (EV.type.getClass = .ExportClassVector ∨ EV.type.getClass = .ExportClassRecord) →
      EV.isConst = false → GetTypeName EV.type = .ok TypeName →
      GetTypeAllocSize EV.type = 0 →
      genExportVariable C EV =
        .ok ([ .privateSlot (RS_EXPORT_VAR_INDEX_PREFIX ++ EV.name) C.mNextExportVarSlot,
            .privateField TypeName (RS_EXPORT_VAR_PREFIX ++ EV.name),
            .startFunction .AM_Public false (some "void") ("set_" ++ EV.name)
              [(TypeName, "v")],
            .assign (RS_EXPORT_VAR_PREFIX ++ EV.name) (.verbatim "v"),
            .line ("setVar(" ++ RS_EXPORT_VAR_INDEX_PREFIX ++ EV.name ++ ", " ++ "fp" ++
              ");"),
            .endFunction ] ++ genGetExportVariable TypeName EV.name,
          C.getNextExportVarSlot.2)) ∧
    (∀ (ET : RSExportType) (FieldPackerName : String), 0 < GetTypeAllocSize ET →
      genCreateFieldPacker ET FieldPackerName =
        ([.newFieldPacker FieldPackerName (GetTypeAllocSize ET)], true)) ∧
    (∀ (C C1 : Context) (EF : RSExportFunc) (stmts : List JavaStmt),
      EF.params ≠ [] → 0 < GetTypeAllocSize EF.ParamPacketType →
      genExportFunction C EF = .ok (stmts, C1) →
      ∃ Args packs,
        genPackVarOfType EF.ParamPacketType none = .ok packs ∧
        stmts =
          [ .privateSlot (RS_EXPORT_FUNC_INDEX_PREFIX ++ EF.name) C.mNextExportFuncSlot,
            .startFunction .AM_Public false (some "void") ("invoke_" ++ EF.name) Args,
            .newFieldPacker (EF.name ++ "_fp") (GetTypeAllocSize EF.ParamPacketType) ] ++
          packs.map (JavaStmt.pack (EF.name ++ "_fp")) ++
          [ .line ("invoke(" ++ RS_EXPORT_FUNC_INDEX_PREFIX ++ EF.name ++ ", " ++
              (EF.name ++ "_fp") ++ ");"),
            .endFunction ]) ∧
    (∀ (C C1 : Context) (EV : RSExportVar) (stmts : List JavaStmt),
      (EV.type.getClass = .ExportClassVector ∨ EV.type.getClass = .ExportClassRecord) →
      EV.isConst = false → 0 < GetTypeAllocSize EV.type →
      genExportVariable C EV = .ok (stmts, C1) →
      ∃ TypeName packs,
        genPackVarOfType EV.type (some "v") = .ok packs ∧
        stmts =
          [ .privateSlot (RS_EXPORT_VAR_INDEX_PREFIX ++ EV.name) C.mNextExportVarSlot,
            .privateField TypeName (RS_EXPORT_VAR_PREFIX ++ EV.name),
            .startFunction .AM_Public false (some "void") ("set_" ++ EV.name)
              [(TypeName, "v")],
            .assign (RS_EXPORT_VAR_PREFIX ++ EV.name) (.verbatim "v"),
            .newFieldPacker "fp" (GetTypeAllocSize EV.type) ] ++
          packs.map (JavaStmt.pack "fp") ++
          [ .line ("setVar(" ++ RS_EXPORT_VAR_INDEX_PREFIX ++ EV.name ++ ", " ++ "fp" ++
              ");"),
            .endFunction ] ++ genGetExportVariable TypeName EV.name) := by
  refine ⟨?_, ?_, ?_, ?_, ?_, ?_⟩
  · intro ET fp h0
    simp [genCreateFieldPacker, h0]
  · intro C EF Args hA hp h0
    have hh : EF.hasParam = true := by
      cases hq : EF.params with
      | nil => exact absurd hq hp
      | cons P rest => simp [RSExportFunc.hasParam, hq]
    simp [genExportFunction, hA, hh, genCreateAndPack, genCreateFieldPacker, h0,
      Context.getNextExportFuncSlot, bind, Except.bind, pure, Except.pure]
  · intro C EV TypeName hcls hconst hT h0
    obtain ⟨name, type, isConst, init⟩ := EV
    simp only at hcls hconst hT h0
    subst hconst
    cases type with
    | Primitive n t k s a => simp [RSExportType.getClass] at hcls
    | ConstantArray n t k s a => simp [RSExportType.getClass] at hcls
    | Pointer n p s a => simp [RSExportType.getClass] at hcls
    | Vector n t k e s a =>
      cases hv : GetVectorTypeName t e with
      | none => simp [GetTypeName, hv] at hT
      | some tn =>
        simp only [GetTypeName, hv, Except.ok.injEq] at hT
        subst hT
        simp [genExportVariable, genVectorTypeExportVariable, genPackedSetter,
          genCreateAndPack, genCreateFieldPacker, RSExportType.getClass, hv, h0,
          Context.getNextExportVarSlot, bind, Except.bind, pure, Except.pure]
    | Record n fields art s a =>
      simp only [GetTypeName, Except.ok.injEq] at hT
      subst hT
      simp [genExportVariable, genRecordTypeExportVariable, genPackedSetter,
        genCreateAndPack, genCreateFieldPacker, RSExportType.getClass, h0,
        Context.getNextExportVarSlot, bind, Except.bind, pure, Except.pure]
  · intro ET fp hpos
    simp [genCreateFieldPacker, hpos]
  · intro C C1 EF stmts hp hpos h
    have hh : EF.hasParam = true := by
      cases hq : EF.params with
      | nil => exact absurd hq hp
      | cons P rest => simp [RSExportFunc.hasParam, hq]
    cases hA : genInvokeArgs EF.params with
    | error msg =>
      simp [genExportFunction, hA, bind, Except.bind] at h
    | ok Args =>
      cases hk : genPackVarOfType EF.ParamPacketType none with
      | error msg =>
        simp [genExportFunction, hA, hh, genCreateAndPack, genCreateFieldPacker, hpos, hk,
          bind, Except.bind, pure, Except.pure] at h
      | ok packs =>
        simp [genExportFunction, hA, hh, genCreateAndPack, genCreateFieldPacker, hpos, hk,
          Context.getNextExportFuncSlot, bind, Except.bind, pure, Except.pure] at h
        exact ⟨Args, packs, rfl, by rw [← h.1]; simp⟩
  · intro C C1 EV stmts hcls hconst hpos h
    obtain ⟨name, type, isConst, init⟩ := EV
    simp only at hcls hconst hpos h
    subst hconst
    cases hk : genPackVarOfType type (some "v") with
    | error msg =>
      cases type with
      | Primitive n t k s a => simp [RSExportType.getClass] at hcls
      | ConstantArray n t k s a => simp [RSExportType.getClass] at hcls
      | Pointer n p s a => simp [RSExportType.getClass] at hcls
      | Vector n t k e s a =>
        cases hv : GetVectorTypeName t e <;>
          simp [genExportVariable, genVectorTypeExportVariable, genPackedSetter,
            genCreateAndPack, genCreateFieldPacker, RSExportType.getClass, hv, hpos, hk,
            bind, Except.bind, pure, Except.pure] at h
      | Record n fields art s a =>
        simp [genExportVariable, genRecordTypeExportVariable, genPackedSetter,
          genCreateAndPack, genCreateFieldPacker, RSExportType.getClass, hpos, hk,
          bind, Except.bind, pure, Except.pure] at h
    | ok packs =>
      cases type with
      | Primitive n t k s a => simp [RSExportType.getClass] at hcls
      | ConstantArray n t k s a => simp [RSExportType.getClass] at hcls
      | Pointer n p s a => simp [RSExportType.getClass] at hcls
      | Vector n t k e s a =>
        cases hv : GetVectorTypeName t e with
        | none =>
          simp [genExportVariable, genVectorTypeExportVariable, RSExportType.getClass, hv,
            bind, Except.bind] at h
        | some tn =>
          simp [genExportVariable, genVectorTypeExportVariable, genPackedSetter,
            genCreateAndPack, genCreateFieldPacker, RSExportType.getClass, hv, hpos, hk,
            Context.getNextExportVarSlot, bind, Except.bind, pure, Except.pure] at h
          exact ⟨tn, packs, rfl, by rw [← h.1]; simp⟩
      | Record n fields art s a =>
        simp [genExportVariable, genRecordTypeExportVariable, genPackedSetter,
          genCreateAndPack, genCreateFieldPacker, RSExportType.getClass, hpos, hk,
          Context.getNextExportVarSlot, bind, Except.bind, pure, Except.pure] at h
        exact ⟨RS_TYPE_CLASS_NAME_PREFIX ++ n ++ "." ++ RS_TYPE_ITEM_CLASS_NAME, packs, rfl,
          by rw [← h.1]; simp⟩

theorem genCreateFieldPacker_guard_witness :
    genCreateFieldPacker emptyRecord "fp" = ([], false) ∧
      genExportFunction ⟨1, 0, 0⟩ emptyParamFunc =
        .ok ([ .privateSlot (RS_EXPORT_FUNC_INDEX_PREFIX ++ "f") 0,
            .startFunction .AM_Public false (some "void") ("invoke_" ++ "f")
              [("ScriptField_Empty.Item", "e")],
            .line ("invoke(" ++ RS_EXPORT_FUNC_INDEX_PREFIX ++ "f" ++ ", " ++
              ("f" ++ "_fp") ++ ");"),
            .endFunction ], ⟨1, 0, 1⟩) ∧
      genCreateFieldPacker exampleRecord "fp" = ([.newFieldPacker "fp" 12], true) :=
  ⟨genCreateFieldPacker_guard.1 emptyRecord "fp" rfl,
    genCreateFieldPacker_guard.2.1 ⟨1, 0, 0⟩ emptyParamFunc _ rfl (by simp [emptyParamFunc])
      rfl,
    genCreateFieldPacker_guard.2.2.2.1 exampleRecord "fp" (by decide)⟩

/-! ## The attribute-stripping pass -/

namespace StripUnknownAttributes

theorem removeAttr_stripped (A : llvm.Argument) (Index : Nat) :
    A.removeAttr ⟨Index, (llvm.AttrBuilder.addAttribute [] .ReadNone).addAttribute .ReadOnly⟩ =
      strippedArgument A := by
  unfold llvm.Argument.removeAttr strippedArgument llvm.AttrBuilder.addAttribute
  congr 1
  apply List.filter_congr
  intro k _
  cases k <;> simp

theorem strippedArgument_of_not_reads (A : llvm.Argument) (h : A.onlyReadsMemory = false) :
    strippedArgument A = A := by
  obtain ⟨n, attrs⟩ := A
  simp only [llvm.Argument.onlyReadsMemory, llvm.Argument.hasAttribute, Bool.or_eq_false_iff,
    List.contains_eq_any_beq, List.any_eq_false, beq_iff_eq] at h
  simp only [strippedArgument, llvm.Argument.mk.injEq, true_and]
  apply List.filter_eq_self.mpr
  intro k hk
  have h1 := h.1 k hk
  have h2 := h.2 k hk
  simp only [decide_eq_true_eq]
  exact ⟨fun e => h2 (by simp [e]), fun e => h1 (by simp [e])⟩

theorem strippedArgument_not_reads (A : llvm.Argument) :
    (strippedArgument A).onlyReadsMemory = false := by
  simp [llvm.Argument.onlyReadsMemory, llvm.Argument.hasAttribute, strippedArgument,
    List.mem_filter]

theorem runOnArguments_spec (args : List llvm.Argument) :
    ∀ changed : Bool,
      runOnArguments args changed =
        (args.map strippedArgument,
          changed || args.any (fun A => A.onlyReadsMemory)) := by
  induction args with
  | nil => intro changed; simp [runOnArguments]
  | cons A rest ih =>
    intro changed
    by_cases h : A.onlyReadsMemory = true
    · simp [runOnArguments, h, ih, removeAttr_stripped]
    · have h2 := Bool.eq_false_iff.mpr h
      simp [runOnArguments, h2, ih, strippedArgument_of_not_reads A h2]

theorem runOnFunctions_spec (functions : List llvm.Function) :
    ∀ Changed : Bool,
      runOnFunctions functions Changed =
        (functions.map (fun F => ⟨F.args.map strippedArgument⟩),
          Changed || functions.any (fun F => F.args.any (fun A => A.onlyReadsMemory))) := by
  induction functions with
  | nil => intro Changed; simp [runOnFunctions]
  | cons F rest ih =>
    intro Changed
    simp [runOnFunctions, runOnFunction, runOnArguments_spec, ih, Bool.or_assoc]

theorem runOnModule_spec (M : llvm.Module) :
    runOnModule M =
      (strippedModule M,
        M.functions.any (fun F => F.args.any (fun A => A.onlyReadsMemory))) := by
  simp [runOnModule, runOnFunctions_spec, strippedModule]

end StripUnknownAttributes

/-- C38: after `runOnModule` the module is the one it was given with `readnone` and
`readonly` removed from every argument of every function and every other attribute of
every argument unchanged, so that no argument carries `readnone` or `readonly`; the pass
returns true exactly when some argument carried one of the two beforehand; a second run
returns false and changes nothing. -/
theorem runOnModule_strips (M : llvm.Module) :
    (StripUnknownAttributes.runOnModule M).1 = StripUnknownAttributes.strippedModule M ∧
    (∀ F ∈ (StripUnknownAttributes.runOnModule M).1.functions, ∀ A ∈ F.args,
      llvm.AttrKind.ReadNone ∉ A.Attrs ∧ llvm.AttrKind.ReadOnly ∉ A.Attrs) ∧
    ((StripUnknownAttributes.runOnModule M).2 = true ↔
      ∃ F ∈ M.functions, ∃ A ∈ F.args,
        llvm.AttrKind.ReadNone ∈ A.Attrs ∨ llvm.AttrKind.ReadOnly ∈ A.Attrs) ∧
    StripUnknownAttributes.runOnModule (StripUnknownAttributes.runOnModule M).1 =
      ((StripUnknownAttributes.runOnModule M).1, false) := by
  rw [StripUnknownAttributes.runOnModule_spec]
  refine ⟨rfl, ?_, ?_, ?_⟩
  · intro F hF A hA
    simp only [StripUnknownAttributes.strippedModule, List.mem_map] at hF
    obtain ⟨F0, _, rfl⟩ := hF
    simp only [List.mem_map] at hA
    obtain ⟨A0, _, rfl⟩ := hA
    simp [StripUnknownAttributes.strippedArgument, List.mem_filter]
  · simp only [List.any_eq_true, llvm.Argument.onlyReadsMemory, llvm.Argument.hasAttribute,
      Bool.or_eq_true, List.contains_eq_any_beq, beq_iff_eq, exists_eq_right]
    constructor
    · rintro ⟨F, hF, A, hA, h | h⟩
      · exact ⟨F, hF, A, hA, Or.inr (by simpa using h)⟩
      · exact ⟨F, hF, A, hA, Or.inl (by simpa using h)⟩
    · rintro ⟨F, hF, A, hA, h | h⟩
      · exact ⟨F, hF, A, hA, Or.inr (by simpa using h)⟩
      · exact ⟨F, hF, A, hA, Or.inl (by simpa using h)⟩
  · rw [StripUnknownAttributes.runOnModule_spec]
    have hfix : StripUnknownAttributes.strippedModule
        (StripUnknownAttributes.strippedModule M) =
        StripUnknownAttributes.strippedModule M := by
      simp only [StripUnknownAttributes.strippedModule, List.map_map, llvm.Module.mk.injEq]
      apply List.map_congr_left
      intro F _
      simp only [Function.comp, List.map_map, llvm.Function.mk.injEq]
      apply List.map_congr_left
      intro A _
      exact StripUnknownAttributes.strippedArgument_of_not_reads _
        (StripUnknownAttributes.strippedArgument_not_reads A)
    have hno : (StripUnknownAttributes.strippedModule M).functions.any
        (fun F => F.args.any (fun A => A.onlyReadsMemory)) = false := by
      simp only [StripUnknownAttributes.strippedModule, List.any_map, List.any_eq_false,
        Function.comp, List.any_eq_true, not_exists, not_and]
      intro F _ A _
      simp [StripUnknownAttributes.strippedArgument_not_reads A]
    rw [hfix, hno]

/-! ## Balance of the blocks -/

theorem nestingDepth_append (a b : List JavaStmt) :
    ∀ d, nestingDepth d (a ++ b) = (nestingDepth d a).bind (fun m => nestingDepth m b) := by
  induction a with
  | nil => intro d; rfl
  | cons s rest ih =>
    intro d
    simp only [List.cons_append, nestingDepth]
    cases s.blockEvent? with
    | none => exact ih d
    | some e =>
      cases e with
      | opens => exact ih (d + 1)
      | closes =>
        cases d with
        | zero => rfl
        | succ inner => exact ih inner

theorem nestingDepth_flat (l : List JavaStmt) (h : ∀ s ∈ l, s.blockEvent? = none) :
    ∀ d, nestingDepth d l = some d := by
  induction l with
  | nil => intro d; rfl
  | cons s rest ih =>
    intro d
    simp only [nestingDepth, h s (List.mem_cons_self _ _)]
    exact ih (fun t ht => h t (List.mem_cons_of_mem _ ht)) d

theorem nestingDepth_then (a b : List JavaStmt) (d m : Nat) (ha : nestingDepth d a = some m) :
    nestingDepth d (a ++ b) = nestingDepth m b := by
  rw [nestingDepth_append, ha]; rfl

theorem nestingDepth_prefix (l : List JavaStmt) (d e : Nat) (h : nestingDepth d l = some e)
    (k : Nat) : ∃ m, nestingDepth d (l.take k) = some m := by
  have hsplit := nestingDepth_append (l.take k) (l.drop k) d
  rw [List.take_append_drop, h] at hsplit
  cases hp : nestingDepth d (l.take k) with
  | none => rw [hp] at hsplit; simp at hsplit
  | some m => exact ⟨m, rfl⟩

theorem nestingDepth_map_pack (FieldPackerName : String) (stmts : List PackStmt) (d : Nat) :
    nestingDepth d (stmts.map (JavaStmt.pack FieldPackerName)) = some d :=
  nestingDepth_flat _ (fun s hs => by
    obtain ⟨p, _, rfl⟩ := List.mem_map.mp hs
    rfl) d

theorem nestingDepth_map_build (eb rs : String) (stmts : List BuildStmt) (d : Nat) :
    nestingDepth d (stmts.map (JavaStmt.build eb rs)) = some d :=
  nestingDepth_flat _ (fun s hs => by
    obtain ⟨p, _, rfl⟩ := List.mem_map.mp hs
    rfl) d

theorem genGetExportVariable_depth (TypeName VarName : String) (d : Nat) :
    nestingDepth d (genGetExportVariable TypeName VarName) = some d := rfl

theorem genCreateAndPack_depth (ET : RSExportType) (VarName : Option String)
    (FieldPackerName : String) (packed : List JavaStmt)
    (h : genCreateAndPack ET VarName FieldPackerName = .ok packed) (d : Nat) :
    nestingDepth d packed = some d := by
  unfold genCreateAndPack genCreateFieldPacker at h
  by_cases ha : GetTypeAllocSize ET > 0
  · simp only [ha, if_true] at h
    cases hp : genPackVarOfType ET VarName with
    | error msg => simp [hp, bind, Except.bind] at h
    | ok stmts =>
      simp only [hp, bind, Except.bind, pure, Except.pure, Except.ok.injEq] at h
      subst h
      simp [nestingDepth, JavaStmt.blockEvent?, nestingDepth_map_pack]
  · simp only [ha, if_false, pure, Except.pure, Except.ok.injEq] at h
    subst h
    rfl

theorem genPackedSetter_depth (ET : RSExportType) (TypeName VarName : String)
    (setter : List JavaStmt) (h : genPackedSetter ET TypeName VarName = .ok setter)
    (d : Nat) : nestingDepth d setter = some d := by
  unfold genPackedSetter at h
  cases hk : genCreateAndPack ET (some "v") "fp" with
  | error msg => simp [hk, bind, Except.bind] at h
  | ok packed =>
    simp only [hk, bind, Except.bind, pure, Except.pure, Except.ok.injEq] at h
    subst h
    have hp := genCreateAndPack_depth _ _ _ _ hk
    simp [nestingDepth, JavaStmt.blockEvent?, nestingDepth_append, hp]

theorem genExportVariable_depth (C C1 : Context) (EV : RSExportVar) (stmts : List JavaStmt)
    (h : genExportVariable C EV = .ok (stmts, C1)) (d : Nat) :
    nestingDepth d stmts = some d := by
  obtain ⟨name, type, isConst, init⟩ := EV
  unfold genExportVariable at h
  simp only [Context.getNextExportVarSlot, bind, Except.bind, pure, Except.pure] at h
  cases type with
  | Primitive n t k s a =>
    simp only [RSExportType.getClass, genPrimitiveTypeExportVariable] at h
    cases hn : GetPrimitiveTypeName t with
    | none => simp [hn] at h
    | some tn =>
      simp only [hn, Except.ok.injEq, Prod.mk.injEq] at h
      rw [← h.1]
      cases isConst <;> by_cases ho : isRSObjectType t = true <;>
        simp [nestingDepth, JavaStmt.blockEvent?, nestingDepth_append, genGetExportVariable,
          ho]
  | ConstantArray n t k s a =>
    simp only [RSExportType.getClass, genPrimitiveTypeExportVariable] at h
    cases hn : GetPrimitiveTypeName t with
    | none => simp [hn] at h
    | some tn =>
      simp only [hn, Except.ok.injEq, Prod.mk.injEq] at h
      rw [← h.1]
      cases isConst <;> by_cases ho : isRSObjectType t = true <;>
        simp [nestingDepth, JavaStmt.blockEvent?, nestingDepth_append, genGetExportVariable,
          ho]
  | Pointer n p s a =>
    have hcl : (RSExportType.Pointer n p s a).getClass = .ExportClassPointer := rfl
    simp only [hcl, genPointerTypeExportVariable, bind, Except.bind, pure, Except.pure] at h
    cases hT : GetTypeName (.Pointer n p s a) with
    | error msg => simp [hT] at h
    | ok tn =>
      simp only [hT, Except.ok.injEq, Prod.mk.injEq] at h
      rw [← h.1]
      by_cases hc : p.getClass = .ExportClassRecord <;>
        simp [nestingDepth, JavaStmt.blockEvent?, nestingDepth_append, genGetExportVariable,
          hc]
  | Vector n t k e s a =>
    simp only [RSExportType.getClass, genVectorTypeExportVariable, bind, Except.bind, pure,
      Except.pure] at h
    cases hv : GetVectorTypeName t e with
    | none => simp [hv] at h
    | some tn =>
      simp only [hv] at h
      cases isConst with
      | true =>
        simp only [not_true_eq_false, if_false, Except.ok.injEq, Prod.mk.injEq] at h
        rw [← h.1]
        simp [nestingDepth, JavaStmt.blockEvent?, nestingDepth_append, genGetExportVariable]
      | false =>
        simp only [Bool.false_eq_true, not_false_eq_true, if_true] at h
        cases hs : genPackedSetter (.Vector n t k e s a) tn name with
        | error msg => simp [hs] at h
        | ok setter =>
          simp only [hs, Except.ok.injEq, Prod.mk.injEq] at h
          rw [← h.1]
          have hp := genPackedSetter_depth _ _ _ _ hs
          simp [nestingDepth, JavaStmt.blockEvent?, nestingDepth_append,
            genGetExportVariable, hp]
  | Record n fields art s a =>
    simp only [RSExportType.getClass, genRecordTypeExportVariable, bind, Except.bind, pure,
      Except.pure] at h
    cases isConst with
    | true =>
      simp only [not_true_eq_false, if_false, Except.ok.injEq, Prod.mk.injEq] at h
      rw [← h.1]
      simp [nestingDepth, JavaStmt.blockEvent?, nestingDepth_append, genGetExportVariable]
    | false =>
      simp only [Bool.false_eq_true, not_false_eq_true, if_true] at h
      cases hs : genPackedSetter (.Record n fields art s a)
          (RS_TYPE_CLASS_NAME_PREFIX ++ n ++ "." ++ RS_TYPE_ITEM_CLASS_NAME) name with
      | error msg => simp [hs] at h
      | ok setter =>
        simp only [hs, Except.ok.injEq, Prod.mk.injEq] at h
        rw [← h.1]
        have hp := genPackedSetter_depth _ _ _ _ hs
        simp [nestingDepth, JavaStmt.blockEvent?, nestingDepth_append,
          genGetExportVariable, hp]

theorem genExportFunction_depth (C C1 : Context) (EF : RSExportFunc) (stmts : List JavaStmt)
    (h : genExportFunction C EF = .ok (stmts, C1)) (d : Nat) :
    nestingDepth d stmts = some d := by
  unfold genExportFunction at h
  simp only [Context.getNextExportFuncSlot, bind, Except.bind, pure, Except.pure] at h
  cases hA : genInvokeArgs EF.params with
  | error msg => simp [hA] at h
  | ok Args =>
    simp only [hA] at h
    by_cases hp : EF.hasParam = true
    · simp only [hp, not_true_eq_false, if_false] at h
      cases hk : genCreateAndPack EF.ParamPacketType none (EF.name ++ "_fp") with
      | error msg => simp [hk] at h
      | ok packed =>
        simp only [hk, Except.ok.injEq, Prod.mk.injEq] at h
        rw [← h.1]
        have hb := genCreateAndPack_depth _ _ _ _ hk
        simp [nestingDepth, JavaStmt.blockEvent?, nestingDepth_append, hb]
    · have hp2 := Bool.eq_false_iff.mpr hp
      simp only [hp2, Bool.false_eq_true, not_false_eq_true, if_true, Except.ok.injEq,
        Prod.mk.injEq] at h
      rw [← h.1]
      simp [nestingDepth, JavaStmt.blockEvent?]

theorem genExportVariables_depth (vars : List RSExportVar) :
    ∀ (C C1 : Context) (stmts : List JavaStmt),
      genExportVariables C vars = .ok (stmts, C1) → ∀ d, nestingDepth d stmts = some d := by
  induction vars with
  | nil =>
    intro C C1 stmts h d
    simp only [genExportVariables, Except.ok.injEq, Prod.mk.injEq] at h
    rw [← h.1]; rfl
  | cons EV rest ih =>
    intro C C1 stmts h d
    unfold genExportVariables at h
    cases h1 : genExportVariable C EV with
    | error msg => simp [h1] at h
    | ok r1 =>
      obtain ⟨first, Cm⟩ := r1
      simp only [h1] at h
      cases h2 : genExportVariables Cm rest with
      | error msg => simp [h2] at h
      | ok r2 =>
        obtain ⟨others, Ce⟩ := r2
        simp only [h2, Except.ok.injEq, Prod.mk.injEq] at h
        rw [← h.1, nestingDepth_then _ _ d d (genExportVariable_depth _ _ _ _ h1 d)]
        exact ih Cm Ce others h2 d

theorem genExportFunctions_depth (funcs : List RSExportFunc) :
    ∀ (C C1 : Context) (stmts : List JavaStmt),
      genExportFunctions C funcs = .ok (stmts, C1) → ∀ d, nestingDepth d stmts = some d := by
  induction funcs with
  | nil =>
    intro C C1 stmts h d
    simp only [genExportFunctions, Except.ok.injEq, Prod.mk.injEq] at h
    rw [← h.1]; rfl
  | cons EF rest ih =>
    intro C C1 stmts h d
    unfold genExportFunctions at h
    cases h1 : genExportFunction C EF with
    | error msg => simp [h1] at h
    | ok r1 =>
      obtain ⟨first, Cm⟩ := r1
      simp only [h1] at h
      cases h2 : genExportFunctions Cm rest with
      | error msg => simp [h2] at h
      | ok r2 =>
        obtain ⟨others, Ce⟩ := r2
        simp only [h2, Except.ok.injEq, Prod.mk.injEq] at h
        rw [← h.1, nestingDepth_then _ _ d d (genExportFunction_depth _ _ _ _ h1 d)]
        exact ih Cm Ce others h2 d

theorem genInitPrimitive_flat (VarName : String) (Val : APValue) (stmts : List JavaStmt)
    (h : genInitPrimitiveExportVariable VarName Val = .ok stmts) :
    ∀ s ∈ stmts, s.blockEvent? = none := by
  cases Val with
  | Int v =>
    simp only [genInitPrimitiveExportVariable, Except.ok.injEq] at h
    subst h; intro s hs; simp at hs; subst hs; rfl
  | Float apf =>
    simp only [genInitPrimitiveExportVariable, Except.ok.injEq] at h
    subst h; intro s hs; simp at hs; subst hs; rfl
  | _ => simp [genInitPrimitiveExportVariable] at h

theorem genInitBool_flat (VarName : String) (Val : APValue) (stmts : List JavaStmt)
    (h : genInitBoolExportVariable VarName Val = .ok stmts) :
    ∀ s ∈ stmts, s.blockEvent? = none := by
  cases Val with
  | Int v =>
    simp only [genInitBoolExportVariable, Except.ok.injEq] at h
    subst h; intro s hs; simp at hs; subst hs; rfl
  | _ => simp [genInitBoolExportVariable] at h

theorem genInitVectorComponents_flat (VarName : String) (vals : List APValue) :
    ∀ (i : Nat) (stmts : List JavaStmt),
      genInitVectorComponents VarName i vals = .ok stmts →
      ∀ s ∈ stmts, s.blockEvent? = none := by
  induction vals with
  | nil =>
    intro i stmts h s hs
    simp only [genInitVectorComponents, Except.ok.injEq] at h
    subst h
    simp at hs
  | cons v rest ih =>
    intro i stmts h s hs
    unfold genInitVectorComponents at h
    cases ha : GetVectorAccessor i with
    | none => simp [ha] at h
    | some accessor =>
      simp only [ha, bind, Except.bind, pure, Except.pure] at h
      cases h1 : genInitPrimitiveExportVariable (VarName ++ "." ++ accessor) v with
      | error msg => simp [h1] at h
      | ok first =>
        simp only [h1] at h
        cases h2 : genInitVectorComponents VarName (i + 1) rest with
        | error msg => simp [h2] at h
        | ok others =>
          simp only [h2, Except.ok.injEq] at h
          subst h
          rcases List.mem_append.mp hs with hs | hs
          · exact genInitPrimitive_flat _ _ _ h1 s hs
          · exact ih (i + 1) others h2 s hs

theorem genInitExportVariable_flat (ET : RSExportType) (VarName : String) (Val : APValue)
    (stmts : List JavaStmt) (warnings : List String)
    (h : genInitExportVariable ET VarName Val = .ok (stmts, warnings)) :
    ∀ s ∈ stmts, s.blockEvent? = none := by
  unfold genInitExportVariable at h
  by_cases hu : Val.isUninit = true
  · simp [hu] at h
  · have hu2 := Bool.eq_false_iff.mpr hu
    simp only [hu2, Bool.false_eq_true, if_false] at h
    have prim : ∀ type : DataType,
        (if type = DataTypeBool then
            (genInitBoolExportVariable VarName Val).map fun stmts => (stmts, ([] : List String))
          else (genInitPrimitiveExportVariable VarName Val).map fun stmts => (stmts, [])) =
          .ok (stmts, warnings) →
        ∀ s ∈ stmts, s.blockEvent? = none := by
      intro type hp
      by_cases hb : type = DataTypeBool
      · simp only [hb, if_true] at hp
        cases h1 : genInitBoolExportVariable VarName Val with
        | error msg => simp [h1, Except.map] at hp
        | ok out =>
          simp only [h1, Except.map, Except.ok.injEq, Prod.mk.injEq] at hp
          rw [← hp.1]; exact genInitBool_flat _ _ _ h1
      · simp only [hb, if_false] at hp
        cases h1 : genInitPrimitiveExportVariable VarName Val with
        | error msg => simp [h1, Except.map] at hp
        | ok out =>
          simp only [h1, Except.map, Except.ok.injEq, Prod.mk.injEq] at hp
          rw [← hp.1]; exact genInitPrimitive_flat _ _ _ h1
    cases ET with
    | Primitive n t k s a => exact prim t h
    | ConstantArray n t k s a => exact prim t h
    | Pointer n p s a =>
      have hnil : stmts = [] := by
        dsimp only at h
        split at h
        · split at h <;>
            (simp only [Except.ok.injEq, Prod.mk.injEq] at h; exact h.1.symm)
        · simp only [Except.ok.injEq, Prod.mk.injEq] at h
          exact h.1.symm
      subst hnil
      intro s hs; simp at hs
    | Record n fields art s a => simp at h
    | Vector n t k e s a =>
      have scalar : (genInitVectorComponents VarName 0 (List.replicate e Val)).map
          (fun stmts => (stmts, ([] : List String))) = .ok (stmts, warnings) →
          ∀ s ∈ stmts, s.blockEvent? = none := by
        intro hp
        cases h1 : genInitVectorComponents VarName 0 (List.replicate e Val) with
        | error msg => simp [h1, Except.map] at hp
        | ok out =>
          simp only [h1, Except.map, Except.ok.injEq, Prod.mk.injEq] at hp
          rw [← hp.1]; exact genInitVectorComponents_flat _ _ _ _ h1
      cases Val with
      | Int v => exact scalar h
      | Float apf => exact scalar h
      | Vector elts =>
        dsimp only at h
        cases hv : GetVectorTypeName t e with
        | none => simp [hv] at h
        | some tn =>
          simp only [hv, bind, Except.bind, pure, Except.pure] at h
          cases h1 : genInitVectorComponents VarName 0 (elts.take (min e elts.length)) with
          | error msg => simp [h1] at h
          | ok comps =>
            simp only [h1, Except.ok.injEq, Prod.mk.injEq] at h
            rw [← h.1]
            intro s hs
            rcases List.mem_cons.mp hs with rfl | hs
            · rfl
            · exact genInitVectorComponents_flat _ _ _ _ h1 s hs
      | Uninit => simp [APValue.isUninit] at hu2
      | ComplexInt =>
        simp only [Except.ok.injEq, Prod.mk.injEq] at h
        rw [← h.1]; intro s hs; simp at hs
      | ComplexFloat =>
        simp only [Except.ok.injEq, Prod.mk.injEq] at h
        rw [← h.1]; intro s hs; simp at hs
      | LValue =>
        simp only [Except.ok.injEq, Prod.mk.injEq] at h
        rw [← h.1]; intro s hs; simp at hs

theorem genInitExportVariables_flat (vars : List RSExportVar) :
    ∀ (stmts : List JavaStmt) (warnings : List String),
      genInitExportVariables vars = .ok (stmts, warnings) →
      ∀ s ∈ stmts, s.blockEvent? = none := by
  induction vars with
  | nil =>
    intro stmts warnings h s hs
    simp only [genInitExportVariables, Except.ok.injEq, Prod.mk.injEq] at h
    rw [← h.1] at hs; simp at hs
  | cons EV rest ih =>
    intro stmts warnings h s hs
    unfold genInitExportVariables at h
    by_cases hu : EV.init.isUninit = true
    · simp only [hu, not_true_eq_false, if_false] at h
      exact ih stmts warnings h s hs
    · have hu2 := Bool.eq_false_iff.mpr hu
      simp only [hu2, Bool.false_eq_true, not_false_eq_true, if_true] at h
      cases h1 : genInitExportVariable EV.type EV.name EV.init with
      | error msg => simp [h1] at h
      | ok r1 =>
        obtain ⟨first, warn⟩ := r1
        simp only [h1] at h
        cases h2 : genInitExportVariables rest with
        | error msg => simp [h2] at h
        | ok r2 =>
          obtain ⟨others, warns⟩ := r2
          simp only [h2, Except.ok.injEq, Prod.mk.injEq] at h
          rw [← h.1] at hs
          rcases List.mem_append.mp hs with hs | hs
          · exact genInitExportVariable_flat _ _ _ _ _ h1 s hs
          · exact ih others warns h2 s hs

theorem genItemMembers_flat (fields : List (Field RSExportType)) :
    ∀ members, genItemMembers fields = .ok members →
      ∀ s ∈ members, s.blockEvent? = none := by
  induction fields with
  | nil =>
    intro members h s hs
    simp only [genItemMembers, Except.ok.injEq] at h
    subst h; simp at hs
  | cons F rest ih =>
    intro members h s hs
    unfold genItemMembers at h
    cases hT : GetTypeName F.type with
    | error msg => simp [hT] at h
    | ok tn =>
      simp only [hT] at h
      cases hr : genItemMembers rest with
      | error msg => simp [hr] at h
      | ok others =>
        simp only [hr, Except.ok.injEq] at h
        subst h
        rcases List.mem_cons.mp hs with rfl | hs
        · rfl
        · exact ih others hr s hs

theorem genItemConstructions_flat (fields : List (Field RSExportType)) :
    ∀ constructions, genItemConstructions fields = .ok constructions →
      ∀ s ∈ constructions, s.blockEvent? = none := by
  induction fields with
  | nil =>
    intro constructions h s hs
    simp only [genItemConstructions, Except.ok.injEq] at h
    subst h; simp at hs
  | cons F rest ih =>
    intro constructions h s hs
    unfold genItemConstructions at h
    by_cases hc : constructedInItem F = true
    · simp only [hc, if_true] at h
      cases hT : GetTypeName F.type with
      | error msg => simp [hT] at h
      | ok tn =>
        simp only [hT] at h
        cases hr : genItemConstructions rest with
        | error msg => simp [hr] at h
        | ok others =>
          simp only [hr, Except.ok.injEq] at h
          subst h
          rcases List.mem_cons.mp hs with rfl | hs
          · rfl
          · exact ih others hr s hs
    · have hc2 := Bool.eq_false_iff.mpr hc
      simp only [hc2, Bool.false_eq_true, if_false] at h
      exact ih constructions h s hs

theorem genTypeItemClass_depth (fields : List (Field RSExportType)) (allocSize : Nat)
    (item : List JavaStmt) (h : genTypeItemClass fields allocSize = .ok item) (d : Nat) :
    nestingDepth d item = some d := by
  unfold genTypeItemClass at h
  cases hm : genItemMembers fields with
  | error msg => simp [hm] at h
  | ok members =>
    simp only [hm] at h
    cases hc : genItemConstructions fields with
    | error msg => simp [hc] at h
    | ok constructions =>
      simp only [hc, Except.ok.injEq] at h
      subst h
      have h1 := nestingDepth_flat members (genItemMembers_flat fields members hm)
      have h2 :=
        nestingDepth_flat constructions (genItemConstructions_flat fields constructions hc)
      simp [nestingDepth, JavaStmt.blockEvent?, nestingDepth_append, h1, h2]

theorem genTypeClassConstructor_depth (C C1 : Context) (ERT : RSExportType)
    (ClassName : String) (ctor : List JavaStmt)
    (h : genTypeClassConstructor C ERT ClassName = .ok (ctor, C1)) (d : Nat) :
    nestingDepth d ctor = some d := by
  unfold genTypeClassConstructor genBuildElement at h
  cases hb : genAddElementToElementBuilder C ERT "" with
  | error msg => simp [hb] at h
  | ok r =>
    obtain ⟨stmts, C2⟩ := r
    simp only [hb, Except.ok.injEq, Prod.mk.injEq] at h
    rw [← h.1]
    simp [nestingDepth, JavaStmt.blockEvent?, nestingDepth_append, nestingDepth_map_build]

theorem genTypeClassCopyToArray_depth (ERT : RSExportType) (copyToArray : List JavaStmt)
    (h : genTypeClassCopyToArray ERT = .ok copyToArray) (d : Nat) :
    nestingDepth d copyToArray = some d := by
  unfold genTypeClassCopyToArray at h
  cases hp : genPackVarOfType ERT (some "i") with
  | error msg => simp [hp] at h
  | ok stmts =>
    simp only [hp, Except.ok.injEq] at h
    subst h
    simp [nestingDepth, JavaStmt.blockEvent?, nestingDepth_append, nestingDepth_map_pack]

theorem genTypeClass_depth (host : Host) (rs : RSContext) (S : ContextSettings)
    (C C1 : Context) (ET : RSExportType) (cls : ClassFile)
    (h : genTypeClass host rs S C ET = .ok (.written cls C1)) (d : Nat) :
    nestingDepth d cls.lines = some d := by
  cases ET with
  | Primitive n t k s a => simp [genTypeClass] at h
  | Vector n t k e s a => simp [genTypeClass] at h
  | ConstantArray n t k s a => simp [genTypeClass] at h
  | Pointer n p s a => simp [genTypeClass] at h
  | Record n fields art s a =>
    simp only [genTypeClass] at h
    by_cases ho : (openScriptFile host rs S (RS_TYPE_CLASS_NAME_PREFIX ++ n)).ok = true
    · simp only [ho, not_true_eq_false, if_false] at h
      cases hI : genTypeItemClass fields a with
      | error msg => simp [hI] at h
      | ok item =>
        simp only [hI] at h
        cases hK : genTypeClassConstructor C (.Record n fields art s a)
            (RS_TYPE_CLASS_NAME_PREFIX ++ n) with
        | error msg => simp [hK] at h
        | ok ctor =>
          obtain ⟨ctorLines, C2⟩ := ctor
          simp only [hK] at h
          cases hA : genTypeClassCopyToArray (.Record n fields art s a) with
          | error msg => simp [hA] at h
          | ok copyToArray =>
            simp only [hA, Except.ok.injEq, ClassResult.written.injEq] at h
            obtain ⟨rfl, _⟩ := h
            have h1 := genTypeItemClass_depth _ _ _ hI
            have h2 := genTypeClassConstructor_depth _ _ _ _ _ hK
            have h3 := genTypeClassCopyToArray_depth _ _ hA
            simp [nestingDepth, JavaStmt.blockEvent?, nestingDepth_append, Context.startClass,
              genTypeClasSet, genTypeClasGet, genTypeClasCopyAll, h1, h2, h3]
    · simp [ho] at h

theorem genScriptClass_depth (host : Host) (rs : RSContext) (S : ContextSettings)
    (C C1 : Context) (ClassName : String) (cls : ClassFile)
    (h : genScriptClass host rs S C ClassName = .ok (.written cls C1)) (d : Nat) :
    nestingDepth d cls.lines = some d := by
  simp only [genScriptClass] at h
  by_cases ho : (openScriptFile host rs S ClassName).ok = true
  · simp only [ho, not_true_eq_false, if_false] at h
    cases hK : genScriptClassConstructor rs ClassName with
    | error msg => simp [hK] at h
    | ok ctor =>
      obtain ⟨ctorLines, warnings⟩ := ctor
      simp only [hK] at h
      cases hV : genExportVariables C rs.exportVars with
      | error msg => simp [hV] at h
      | ok vars =>
        obtain ⟨varLines, C2⟩ := vars
        simp only [hV] at h
        cases hF : genExportFunctions C2 rs.exportFuncs with
        | error msg => simp [hF] at h
        | ok funcs =>
          obtain ⟨funcLines, C3⟩ := funcs
          simp only [hF, Except.ok.injEq, ClassResult.written.injEq] at h
          obtain ⟨rfl, _⟩ := h
          have h2 := genExportVariables_depth _ _ _ _ hV
          have h3 := genExportFunctions_depth _ _ _ _ hF
          have h1 : ∀ d, nestingDepth d ctorLines = some d := by
            intro d
            unfold genScriptClassConstructor at hK
            cases hI : genInitExportVariables rs.exportVars with
            | error msg => simp [hI] at hK
            | ok r =>
              obtain ⟨inits, warns⟩ := r
              simp only [hI, Except.ok.injEq, Prod.mk.injEq] at hK
              rw [← hK.1]
              have hf := nestingDepth_flat inits (genInitExportVariables_flat _ _ _ hI)
              simp [nestingDepth, JavaStmt.blockEvent?, nestingDepth_append, hf]
          simp [nestingDepth, JavaStmt.blockEvent?, nestingDepth_append, Context.startClass,
            h1, h2, h3]
  · simp [ho] at h

/-- C37: in every class written by `genTypeClass`, for any type, and by `genScriptClass`,
for any lists of exported variables and functions, the blocks opened by `startClass`,
`startFunction` and `startBlock` and closed by `endClass`, `endFunction` and `endBlock` are
balanced: entered at any depth, the nesting depth is defined after every prefix of the
lines, so it never goes negative, and after all the lines it is back at the depth the class
was entered at. -/
theorem class_blocks_balanced (host : Host) (rs : RSContext) (S : ContextSettings)
    (C C1 : Context) (cls : ClassFile)
    (h : (∃ ET, genTypeClass host rs S C ET = .ok (.written cls C1)) ∨
      (∃ ClassName, genScriptClass host rs S C ClassName = .ok (.written cls C1)))
    (depth : Nat) :
    nestingDepth depth cls.lines = some depth ∧
      ∀ k, ∃ inner, nestingDepth depth (cls.lines.take k) = some inner := by
  have hd : nestingDepth depth cls.lines = some depth := by
    rcases h with ⟨ET, h⟩ | ⟨ClassName, h⟩
    · exact genTypeClass_depth host rs S C C1 ET cls h depth
    · exact genScriptClass_depth host rs S C C1 ClassName cls h depth
  exact ⟨hd, nestingDepth_prefix _ _ _ hd⟩

theorem class_blocks_balanced_witness :
    ∃ cls C1,
      genScriptClass openHost exampleContext
        (reflectSettings openHost exampleContext (some "com.x") "script" "script.bc")
        Context.initial "ScriptC_script" = .ok (.written cls C1) ∧
      cls.lines.length = 23 ∧
      nestingDepth 0 cls.lines = some 0 ∧
      ∀ k, ∃ inner, nestingDepth 0 (cls.lines.take k) = some inner :=
  ⟨_, _, rfl, rfl,
    class_blocks_balanced openHost exampleContext
      (reflectSettings openHost exampleContext (some "com.x") "script" "script.bc")
      Context.initial _ _ (Or.inr ⟨"ScriptC_script", rfl⟩) 0⟩

/-! ## Determinism of the driver -/

theorem genScriptClass_text (host1 host2 : Host) (rs : RSContext) (S1 S2 : ContextSettings)
    (C C1 C2 : Context) (ClassName : String) (cls1 cls2 : ClassFile)
    (hS : S1.mLicenseNote = S2.mLicenseNote ∧ S1.mInputRSFile = S2.mInputRSFile ∧
      S1.mPackageName = S2.mPackageName)
    (h1 : genScriptClass host1 rs S1 C ClassName = .ok (.written cls1 C1))
    (h2 : genScriptClass host2 rs S2 C ClassName = .ok (.written cls2 C2)) :
    cls1.text = cls2.text ∧ C1 = C2 := by
  simp only [genScriptClass] at h1 h2
  by_cases ho1 : (openScriptFile host1 rs S1 ClassName).ok = true
  · by_cases ho2 : (openScriptFile host2 rs S2 ClassName).ok = true
    · simp only [ho1, not_true_eq_false, if_false] at h1
      simp only [ho2, not_true_eq_false, if_false] at h2
      cases hK : genScriptClassConstructor rs ClassName with
      | error msg => simp [hK] at h1
      | ok ctor =>
        obtain ⟨ctorLines, warnings⟩ := ctor
        simp only [hK] at h1 h2
        cases hV : genExportVariables C rs.exportVars with
        | error msg => simp [hV] at h1
        | ok vars =>
          obtain ⟨varLines, Cv⟩ := vars
          simp only [hV] at h1 h2
          cases hF : genExportFunctions Cv rs.exportFuncs with
          | error msg => simp [hF] at h1
          | ok funcs =>
            obtain ⟨funcLines, Cf⟩ := funcs
            simp only [hF, Except.ok.injEq, ClassResult.written.injEq] at h1 h2
            obtain ⟨rfl, rfl⟩ := h1
            obtain ⟨rfl, rfl⟩ := h2
            simp [ClassFile.text, Context.startClass, hS.1, hS.2.1, hS.2.2]
    · simp [ho2] at h2
  · simp [ho1] at h1

theorem genTypeClass_text (host1 host2 : Host) (rs : RSContext) (S1 S2 : ContextSettings)
    (C C1 C2 : Context) (ET : RSExportType) (cls1 cls2 : ClassFile)
    (hS : S1.mLicenseNote = S2.mLicenseNote ∧ S1.mInputRSFile = S2.mInputRSFile ∧
      S1.mPackageName = S2.mPackageName)
    (h1 : genTypeClass host1 rs S1 C ET = .ok (.written cls1 C1))
    (h2 : genTypeClass host2 rs S2 C ET = .ok (.written cls2 C2)) :
    cls1.text = cls2.text ∧ C1 = C2 := by
  cases ET with
  | Primitive n t k s a => simp [genTypeClass] at h1
  | Vector n t k e s a => simp [genTypeClass] at h1
  | ConstantArray n t k s a => simp [genTypeClass] at h1
  | Pointer n p s a => simp [genTypeClass] at h1
  | Record n fields art s a =>
    simp only [genTypeClass] at h1 h2
    by_cases ho1 : (openScriptFile host1 rs S1 (RS_TYPE_CLASS_NAME_PREFIX ++ n)).ok = true
    · by_cases ho2 : (openScriptFile host2 rs S2 (RS_TYPE_CLASS_NAME_PREFIX ++ n)).ok = true
      · simp only [ho1, not_true_eq_false, if_false] at h1
        simp only [ho2, not_true_eq_false, if_false] at h2
        cases hI : genTypeItemClass fields a with
        | error msg => simp [hI] at h1
        | ok item =>
          simp only [hI] at h1 h2
          cases hK : genTypeClassConstructor C (.Record n fields art s a)
              (RS_TYPE_CLASS_NAME_PREFIX ++ n) with
          | error msg => simp [hK] at h1
          | ok ctor =>
            obtain ⟨ctorLines, Ck⟩ := ctor
            simp only [hK] at h1 h2
            cases hA : genTypeClassCopyToArray (.Record n fields art s a) with
            | error msg => simp [hA] at h1
            | ok copyToArray =>
              simp only [hA, Except.ok.injEq, ClassResult.written.injEq] at h1 h2
              obtain ⟨rfl, rfl⟩ := h1
              obtain ⟨rfl, rfl⟩ := h2
              simp [ClassFile.text, Context.startClass, hS.1, hS.2.1, hS.2.2]
      · simp [ho2] at h2
    · simp [ho1] at h1

theorem reflectTypes_text (host1 host2 : Host) (rs : RSContext) (S1 S2 : ContextSettings)
    (hS : S1.mLicenseNote = S2.mLicenseNote ∧ S1.mInputRSFile = S2.mInputRSFile ∧
      S1.mPackageName = S2.mPackageName)
    (types : List RSExportType) :
    ∀ (C : Context) (done1 done2 : List ClassFile) (r1 r2 : ReflectResult),
      done1.map ClassFile.text = done2.map ClassFile.text →
      reflectTypes host1 rs S1 C done1 types = .ok r1 →
      reflectTypes host2 rs S2 C done2 types = .ok r2 →
      r1.success = true → r2.success = true →
      r1.classes.map ClassFile.text = r2.classes.map ClassFile.text := by
  induction types with
  | nil =>
    intro C done1 done2 r1 r2 hdone h1 h2 _ _
    simp only [reflectTypes, Except.ok.injEq] at h1 h2
    subst h1; subst h2
    exact hdone
  | cons ET rest ih =>
    intro C done1 done2 r1 r2 hdone h1 h2 hs1 hs2
    unfold reflectTypes at h1 h2
    by_cases hc : ET.getClass = .ExportClassRecord
    · by_cases ha : ET.isArtificial = true
      · simp only [hc, ha, if_true, not_true_eq_false, if_false] at h1 h2
        exact ih C done1 done2 r1 r2 hdone h1 h2 hs1 hs2
      · have ha2 := Bool.eq_false_iff.mpr ha
        simp only [hc, ha2, if_true, Bool.false_eq_true, not_false_eq_true] at h1 h2
        cases hg1 : genTypeClass host1 rs S1 C ET with
        | error msg => simp [hg1] at h1
        | ok res1 =>
          cases hg2 : genTypeClass host2 rs S2 C ET with
          | error msg => simp [hg2] at h2
          | ok res2 =>
            cases res1 with
            | openFailed msg1 =>
              simp only [hg1, Except.ok.injEq] at h1
              subst h1
              exact absurd hs1 (by simp)
            | written cls1 C1 =>
              cases res2 with
              | openFailed msg2 =>
                simp only [hg2, Except.ok.injEq] at h2
                subst h2
                exact absurd hs2 (by simp)
              | written cls2 C2 =>
                simp only [hg1] at h1
                simp only [hg2] at h2
                obtain ⟨ht, hC⟩ := genTypeClass_text host1 host2 rs S1 S2 C C1 C2 ET cls1 cls2
                  hS hg1 hg2
                subst hC
                exact ih C1 (done1 ++ [cls1]) (done2 ++ [cls2]) r1 r2
                  (by simp [hdone, ht]) h1 h2 hs1 hs2
    · simp only [hc, if_false] at h1 h2
      exact ih C done1 done2 r1 r2 hdone h1 h2 hs1 hs2

/-- C31: two runs of `reflect`, each from the fresh context, on the same type graph with its
license note, the same input file name giving the same class name, and the same package
name, put out the same text when both return true: the same classes in the same order, each
with the same lines and warnings.  The runs may be on different hosts, with different file
systems and package directories, and with different bitcode file names. -/
theorem reflect_deterministic (host1 host2 : Host) (rs : RSContext)
    (OutputPackageName : Option String) (InputFileName OutputBCFileName1 : String)
    (OutputBCFileName2 : String) (r1 r2 : ReflectResult)
    (hname : scriptClassName host1 InputFileName = scriptClassName host2 InputFileName)
    (h1 : reflect host1 rs OutputPackageName InputFileName OutputBCFileName1 = .ok r1)
    (h2 : reflect host2 rs OutputPackageName InputFileName OutputBCFileName2 = .ok r2)
    (hs1 : r1.success = true) (hs2 : r2.success = true) :
    r1.classes.map ClassFile.text = r2.classes.map ClassFile.text := by
  have hS : (reflectSettings host1 rs OutputPackageName InputFileName
        OutputBCFileName1).mLicenseNote =
      (reflectSettings host2 rs OutputPackageName InputFileName
        OutputBCFileName2).mLicenseNote ∧
      (reflectSettings host1 rs OutputPackageName InputFileName
        OutputBCFileName1).mInputRSFile =
      (reflectSettings host2 rs OutputPackageName InputFileName
        OutputBCFileName2).mInputRSFile ∧
      (reflectSettings host1 rs OutputPackageName InputFileName
        OutputBCFileName1).mPackageName =
      (reflectSettings host2 rs OutputPackageName InputFileName
        OutputBCFileName2).mPackageName := by
    unfold reflectSettings
    split <;> exact ⟨rfl, rfl, rfl⟩
  simp only [reflect] at h1 h2
  rw [← hname] at h2
  cases hg1 : genScriptClass host1 rs
      (reflectSettings host1 rs OutputPackageName InputFileName OutputBCFileName1)
      Context.initial (scriptClassName host1 InputFileName) with
  | error msg => simp [hg1] at h1
  | ok res1 =>
    cases hg2 : genScriptClass host2 rs
        (reflectSettings host2 rs OutputPackageName InputFileName OutputBCFileName2)
        Context.initial (scriptClassName host1 InputFileName) with
    | error msg => simp [hg2] at h2
    | ok res2 =>
      cases res1 with
      | openFailed msg1 =>
        simp only [hg1, Except.ok.injEq] at h1
        subst h1
        exact absurd hs1 (by simp)
      | written cls1 C1 =>
        cases res2 with
        | openFailed msg2 =>
          simp only [hg2, Except.ok.injEq] at h2
          subst h2
          exact absurd hs2 (by simp)
        | written cls2 C2 =>
          simp only [hg1] at h1
          simp only [hg2] at h2
          obtain ⟨ht, hC⟩ := genScriptClass_text host1 host2 rs _ _ _ C1 C2 _ cls1 cls2 hS
            hg1 hg2
          subst hC
          exact reflectTypes_text host1 host2 rs _ _ hS rs.exportTypes C1 [cls1] [cls2] r1 r2
            (by simp [ht]) h1 h2 hs1 hs2


theorem reflect_exampleContext_of (host : Host) (OutputBCFileName : String)
    (script : ClassFile) (C1 : Context)
    (hS : genScriptClass host exampleContext
      (reflectSettings host exampleContext (some "com.x") "script" OutputBCFileName)
      Context.initial (scriptClassName host "script") = .ok (.written script C1))
    (ho : (openScriptFile host exampleContext
      (reflectSettings host exampleContext (some "com.x") "script" OutputBCFileName)
      (RS_TYPE_CLASS_NAME_PREFIX ++ "Example")).ok = true) :
    ∃ r, reflect host exampleContext (some "com.x") "script" OutputBCFileName = .ok r ∧
      r.success = true := by
  obtain ⟨cls, C2, hT⟩ := genTypeClass_exampleRecord host exampleContext
    (reflectSettings host exampleContext (some "com.x") "script" OutputBCFileName) C1 ho
  have e1 : exampleContext.exportTypes =
      [exampleRecord, floatType, .Record "Hidden" [] true 0 0] := rfl
  have e2 : exampleRecord.getClass = .ExportClassRecord := rfl
  have e3 : exampleRecord.isArtificial = false := rfl
  have e4 : floatType.getClass ≠ .ExportClassRecord := by decide
  have e5 : (RSExportType.Record "Hidden" [] true 0 0).getClass = .ExportClassRecord := rfl
  have e6 : (RSExportType.Record "Hidden" [] true 0 0).isArtificial = true := rfl
  refine ⟨⟨true, [script, cls], "", []⟩, ?_, rfl⟩
  simp only [reflect, hS, e1, reflectTypes, e2, e3, e4, e5, e6, hT, if_true, if_false,
    Bool.false_eq_true, not_false_eq_true, not_true_eq_false, List.singleton_append,
    List.cons_append, List.nil_append]

theorem reflect_deterministic_witness :
    ∃ r1 r2,
      reflect openHost exampleContext (some "com.x") "script" "script.bc" = .ok r1 ∧
      reflect otherHost exampleContext (some "com.x") "script" "other.bc" = .ok r2 ∧
      r1.success = true ∧ r2.success = true ∧
      r1.classes.map ClassFile.text = r2.classes.map ClassFile.text := by
  obtain ⟨r1, h1, s1⟩ := reflect_exampleContext_of openHost "script.bc" _ _ rfl rfl
  obtain ⟨r2, h2, s2⟩ := reflect_exampleContext_of otherHost "other.bc" _ _ rfl rfl
  exact ⟨r1, r2, h1, h2, s1, s2,
    reflect_deterministic openHost otherHost exampleContext (some "com.x") "script"
      "script.bc" "other.bc" r1 r2 rfl h1 h2 s1 s2⟩

/-- The depth checker rejects a block closed before it is opened and counts a block left
open. -/
theorem nestingDepth_unbalanced :
    nestingDepth 0 [.endBlock, .startBlock] = none ∧
      nestingDepth 0 [.startBlock, .line "x"] = some 1 :=
  ⟨rfl, rfl⟩

/-- The pass on `exampleModule`: the first run strips `readonly` and `readnone` and returns
true, the second run returns false. -/
theorem runOnModule_exampleModule :
    StripUnknownAttributes.runOnModule StripUnknownAttributes.exampleModule =
        (⟨[⟨[⟨0, [.Other 7]⟩, ⟨1, []⟩]⟩, ⟨[⟨0, [.Other 3]⟩]⟩]⟩, true) ∧
      (StripUnknownAttributes.runOnModule
        (StripUnknownAttributes.runOnModule StripUnknownAttributes.exampleModule).1).2 =
        false := by
  decide

end slang
